import Mathlib

/-!
USB MIDI class driver (`main/class_driver.c`)

A shallow embedding of the device-slot table, the lifecycle action handlers,
the stream completion callback and the polling loop of `class_driver.c`,
followed by theorems about them.

Conventions of the embedding
* Pointers and opaque handles are natural numbers, `0` is `NULL`.
* The host library (`usb_host_*`), the mutex and the queue are external.  A call
  to one of them appends an `Event` to the chronological trace of the `World`.
  A host call that returns an `esp_err_t` takes its reply from an `Oracle`,
  indexed by the number of host calls made so far, so that every sequence of
  host results is covered.
* `assert` and `ESP_ERROR_CHECK` abort the task: `Outcome.abort` carries the
  state at the point of the abort.
* Loops whose bound is not syntactic carry fuel and return `none` when the
  fuel runs out.
-/

namespace ClassDriver

/-! ## Constants -/

/-- `ACTION_OPEN_DEV = (1 << 0)`. -/
def ACTION_OPEN_DEV : Nat := 1
/-- `ACTION_GET_DEV_INFO = (1 << 1)`. -/
def ACTION_GET_DEV_INFO : Nat := 2
/-- `ACTION_GET_CONFIG_DESC = (1 << 2)`. -/
def ACTION_GET_CONFIG_DESC : Nat := 4
/-- `ACTION_CLAIM_INTERFACE = (1 << 3)`. -/
def ACTION_CLAIM_INTERFACE : Nat := 8
/-- `ACTION_CLOSE_DEV = (1 << 4)`. -/
def ACTION_CLOSE_DEV : Nat := 16
/-- `#define DEV_MAX_COUNT 8`. -/
def DEV_MAX_COUNT : Nat := 8
/-- The success value of `esp_err_t`. -/
def ESP_OK : Nat := 0

/-! ## Data model -/

/-- Modelled from the spec: the transfer status type of the host library header
(`usb/usb_host.h`), which is not among the sources.  The callback distinguishes
completed, no-device, canceled and every other non-success status. -/
inductive usb_transfer_status_t where
  | USB_TRANSFER_STATUS_COMPLETED
  | USB_TRANSFER_STATUS_NO_DEVICE
  | USB_TRANSFER_STATUS_CANCELED
  | USB_TRANSFER_STATUS_OTHER (code : Nat)
deriving DecidableEq, Repr

/-- The completion callbacks a transfer can be wired to. -/
inductive usb_transfer_cb_t where
  | null
  | midi_transfer_cb
deriving DecidableEq, Repr

/-- Modelled from the spec: the fields of the host library transfer object
(`usb_transfer_t` of `usb/usb_host.h`, not among the sources) that the driver
reads or writes.  `ptr` is the address of the object, `data_buffer` holds
bytes. -/
structure usb_transfer_t where
  ptr : Nat
  data_buffer : List Nat
  num_bytes : Nat
  actual_num_bytes : Int
  status : usb_transfer_status_t
  device_handle : Nat
  bEndpointAddress : Nat
  callback : usb_transfer_cb_t
  context : Nat
deriving DecidableEq, Repr

/-- One slot, `usb_device_t`. -/
structure usb_device_t where
  client_hdl : Nat
  dev_addr : Nat
  dev_hdl : Nat
  actions : Nat
  midi_in_transfer : Option usb_transfer_t
deriving DecidableEq, Repr

/-- The driver object, `class_driver_t`, with the nested anonymous structs
flattened: `mux_protected.flags`, `mux_protected.device`, `constant`. -/
structure class_driver_t where
  unhandled_devices : Nat
  shutdown : Nat
  device : List usb_device_t
  client_hdl : Nat
  mux_lock : Nat
  midi_queue : Nat
deriving DecidableEq, Repr

/-- The action handlers of the lifecycle state machine. -/
inductive Handler where
  | action_open_dev
  | action_get_info
  | action_get_config_desc
  | action_claim_interface
  | action_close_dev
deriving DecidableEq, Repr

/-- Calls that leave the module, in the order they are made, together with two
kinds of instrumentation: `enter h` marks the entry of an action handler and
`bufRead i` a read of `data_buffer[i]`. -/
inductive Event where
  | lockTake
  | lockGive
  | device_addr_list_fill (len : Nat)
  | device_open (client addr : Nat)
  | device_info (hdl : Nat)
  | get_active_config_descriptor (hdl : Nat)
  | interface_claim (client hdl intf alt : Nat)
  | interface_release (client hdl intf : Nat)
  | transfer_alloc (size isoc : Nat)
  | transfer_submit (ptr : Nat)
  | transfer_free (ptr : Nat)
  | device_close (client hdl : Nat)
  | client_handle_events (client : Nat)
  | taskDelay (ms : Nat)
  | queueSend (queue note : Nat)
  | enter (h : Handler)
  | bufRead (i : Nat)
deriving DecidableEq, Repr

/-- What a host call returns: the `esp_err_t` and the value written through its
output parameter (a device handle, the address of a transfer object). -/
structure Reply where
  err : Nat
  out : Nat
deriving DecidableEq, Repr

/-- The results of the host calls, by the number of host calls made before. -/
abbrev Oracle := Nat → Reply

/-- The environment: the trace so far and the number of host calls made. -/
structure World where
  trace : List Event
  calls : Nat
deriving DecidableEq, Repr

/-- Result of running code that may abort the task. -/
inductive Outcome (σ : Type) where
  | ok (s : σ)
  | abort (s : σ)
deriving DecidableEq, Repr

/-- The state carried by an outcome, returned or aborted. -/
def Outcome.state {σ : Type} : Outcome σ → σ
  | .ok s => s
  | .abort s => s

/-- Sequencing: an abort skips the rest. -/
def Outcome.andThen {σ : Type} (x : Outcome σ) (f : σ → Outcome σ) : Outcome σ :=
  match x with
  | .ok s => f s
  | .abort s => .abort s

/-- Apply a function to the state of an outcome. -/
def Outcome.mapState {σ τ : Type} (f : σ → τ) : Outcome σ → Outcome τ
  | .ok s => .ok (f s)
  | .abort s => .abort (f s)

/-- Record an event that takes no reply from the oracle. -/
def World.emit (w : World) (e : Event) : World :=
  { w with trace := w.trace ++ [e] }

/-- The reply the next host call will get. -/
def World.reply (o : Oracle) (w : World) : Reply := o w.calls

/-- Record a host call. -/
def World.called (w : World) (e : Event) : World :=
  { trace := w.trace ++ [e], calls := w.calls + 1 }

/-! ## Stream completion callback -/

/-- Read of `data_buffer[i]`, a `uint8_t`. -/
def usb_transfer_t.byte (t : usb_transfer_t) (i : Nat) : Nat :=
  t.data_buffer.getD i 0 % 256

/-- The body of the frame loop of `midi_transfer_cb` at index `i`: the events
it emits.  The second operand of `&&` is only evaluated when the first holds,
and `note` is read from the buffer again. -/
def midi_frame (s_driver_obj : Option class_driver_t) (t : usb_transfer_t) (i : Nat) :
    List Event :=
  if t.byte i &&& 0x0F = 0x09 then
    if t.byte (i + 2) > 0 then
      let note := t.byte (i + 2)
      match s_driver_obj with
      | none => [.bufRead i, .bufRead (i + 2), .bufRead (i + 2)]
      | some drv =>
        if drv.midi_queue ≠ 0 then
          [.bufRead i, .bufRead (i + 2), .bufRead (i + 2), .queueSend drv.midi_queue note]
        else [.bufRead i, .bufRead (i + 2), .bufRead (i + 2)]
    else [.bufRead i, .bufRead (i + 2)]
  else [.bufRead i]

/-- The loop `for (int i = 0; i < transfer->actual_num_bytes; i += 4)`, from
index `i` on: the events it emits, `none` when the fuel runs out. -/
def midi_frame_loop (s_driver_obj : Option class_driver_t) (t : usb_transfer_t) :
    Nat → Nat → Option (List Event)
  | fuel, i =>
    if (i : Int) < t.actual_num_bytes then
      match fuel with
      | 0 => none
      | f + 1 =>
        match midi_frame_loop s_driver_obj t f (i + 4) with
        | none => none
        | some rest => some (midi_frame s_driver_obj t i ++ rest)
    else some []

/-- `ESP_ERROR_CHECK(usb_host_transfer_submit(transfer))`. -/
def checked_submit (o : Oracle) (ptr : Nat) (w : World) : Outcome World :=
  if (w.reply o).err ≠ ESP_OK then .abort (w.called (.transfer_submit ptr))
  else .ok (w.called (.transfer_submit ptr))

/-- `midi_transfer_cb`.  The fuel of the frame loop is `actual_num_bytes`. -/
def midi_transfer_cb (o : Oracle) (s_driver_obj : Option class_driver_t)
    (transfer : usb_transfer_t) (w : World) : Option (Outcome World) :=
  if transfer.status = .USB_TRANSFER_STATUS_COMPLETED then
    match midi_frame_loop s_driver_obj transfer transfer.actual_num_bytes.toNat 0 with
    | none => none
    | some evs => some (checked_submit o transfer.ptr { w with trace := w.trace ++ evs })
  else if transfer.status ≠ .USB_TRANSFER_STATUS_NO_DEVICE
      ∧ transfer.status ≠ .USB_TRANSFER_STATUS_CANCELED then
    some (checked_submit o transfer.ptr w)
  else some (.ok w)

/-- The note of a queue send. -/
def Event.note? : Event → Option Nat
  | .queueSend _ note => some note
  | _ => none

/-- The notes sent to the queue in a trace, in order. -/
def pushed (tr : List Event) : List Nat := tr.filterMap Event.note?

/-- The transfer of a submit. -/
def Event.submit? : Event → Option Nat
  | .transfer_submit ptr => some ptr
  | _ => none

/-- The transfers submitted in a trace, in order. -/
def submitted (tr : List Event) : List Nat := tr.filterMap Event.submit?

/-- A four-byte frame of the stream payload. -/
structure Frame where
  b0 : Nat
  b1 : Nat
  b2 : Nat
  b3 : Nat
deriving DecidableEq, Repr

/-- The bytes of a sequence of frames. -/
def Frame.encode : List Frame → List Nat
  | [] => []
  | f :: fs => f.b0 :: f.b1 :: f.b2 :: f.b3 :: Frame.encode fs

/-- Specification of the decoder: byte 2 of every frame whose byte 0 has low
nibble `0x9` and whose byte 2 is not zero, in frame order. -/
def Frame.noteOns : List Frame → List Nat
  | [] => []
  | f :: fs => if f.b0 % 16 = 9 ∧ f.b2 ≠ 0 then f.b2 :: Frame.noteOns fs else Frame.noteOns fs

/-! ## Lifecycle action handlers

A handler takes the address `p` of the slot it works on where it needs it, the
slot and the world. -/

/-- The state of a handler: the slot `*device_obj` and the world. -/
abbrev DevState := usb_device_t × World

/-- `action_open_dev`.  On success the host writes the handle to `dev_hdl`. -/
def action_open_dev (o : Oracle) (s : DevState) : Outcome DevState :=
  let d := s.1
  let w := s.2.emit (.enter .action_open_dev)
  if d.dev_addr = 0 then .abort (d, w)
  else if (w.reply o).err ≠ ESP_OK then
    .abort (d, w.called (.device_open d.client_hdl d.dev_addr))
  else
    .ok ({ d with dev_hdl := (w.reply o).out, actions := d.actions ||| ACTION_GET_DEV_INFO },
      w.called (.device_open d.client_hdl d.dev_addr))

/-- `action_get_info`. -/
def action_get_info (o : Oracle) (s : DevState) : Outcome DevState :=
  let d := s.1
  let w := s.2.emit (.enter .action_get_info)
  if d.dev_hdl = 0 then .abort (d, w)
  else if (w.reply o).err ≠ ESP_OK then .abort (d, w.called (.device_info d.dev_hdl))
  else .ok ({ d with actions := d.actions ||| ACTION_GET_CONFIG_DESC },
      w.called (.device_info d.dev_hdl))

/-- `action_get_config_desc`. -/
def action_get_config_desc (o : Oracle) (s : DevState) : Outcome DevState :=
  let d := s.1
  let w := s.2.emit (.enter .action_get_config_desc)
  if d.dev_hdl = 0 then .abort (d, w)
  else if (w.reply o).err ≠ ESP_OK then
    .abort (d, w.called (.get_active_config_descriptor d.dev_hdl))
  else .ok ({ d with actions := d.actions ||| ACTION_CLAIM_INTERFACE },
      w.called (.get_active_config_descriptor d.dev_hdl))

/-- Modelled from the spec: the transfer object that a successful
`usb_host_transfer_alloc(size, 0, &t)` of the host library (not among the
sources) hands out at address `ptr`, before the driver configures it. -/
def allocated_transfer (ptr size : Nat) : usb_transfer_t :=
  { ptr := ptr
    data_buffer := List.replicate size 0
    num_bytes := 0
    actual_num_bytes := 0
    status := .USB_TRANSFER_STATUS_COMPLETED
    device_handle := 0
    bEndpointAddress := 0
    callback := .null
    context := 0 }

/-- `action_claim_interface` on the slot at address `p`, with `intf_num = 3`,
`ep_addr = 0x82` and `ep_mps = 64`.  A failed `usb_host_transfer_alloc` leaves
its output parameter `midi_in_transfer` as it was. -/
def action_claim_interface (o : Oracle) (p : Nat) (s : DevState) : Outcome DevState :=
  let d := s.1
  let w := s.2.emit (.enter .action_claim_interface)
  if d.dev_hdl = 0 then .abort (d, w)
  else
    let w1 := w.called (.interface_claim d.client_hdl d.dev_hdl 3 0)
    if (w.reply o).err ≠ ESP_OK then .ok (d, w1)
    else
      let w2 := w1.called (.transfer_alloc 64 0)
      if (w1.reply o).err ≠ ESP_OK then
        .ok (d, w2.called (.interface_release d.client_hdl d.dev_hdl 3))
      else
        let t : usb_transfer_t :=
          { allocated_transfer (w1.reply o).out 64 with
            device_handle := d.dev_hdl
            bEndpointAddress := 0x82
            callback := .midi_transfer_cb
            context := p
            num_bytes := 64 }
        let w3 := w2.called (.transfer_submit t.ptr)
        if (w2.reply o).err ≠ ESP_OK then
          .ok ({ d with midi_in_transfer := none },
            (w3.called (.transfer_free t.ptr)).called
              (.interface_release d.client_hdl d.dev_hdl 3))
        else .ok ({ d with midi_in_transfer := some t }, w3)

/-- The first statement of `action_close_dev`: free the transfer if present. -/
def close_free_transfer (s : DevState) : DevState :=
  match s.1.midi_in_transfer with
  | some t => ({ s.1 with midi_in_transfer := none }, s.2.called (.transfer_free t.ptr))
  | none => s

/-- `action_close_dev`. -/
def action_close_dev (o : Oracle) (s : DevState) : Outcome DevState :=
  let s1 := close_free_transfer (s.1, s.2.emit (.enter .action_close_dev))
  let d := s1.1
  let w := s1.2
  if d.dev_hdl ≠ 0 then
    if (w.reply o).err ≠ ESP_OK then .abort (d, w.called (.device_close d.client_hdl d.dev_hdl))
    else .ok ({ d with dev_hdl := 0, dev_addr := 0, actions := 0 },
      w.called (.device_close d.client_hdl d.dev_hdl))
  else .ok ({ d with dev_hdl := 0, dev_addr := 0, actions := 0 }, w)

/-- The statement `if (action_to_take & bit) handler(device_obj);`. -/
def whenSet (action_to_take bit : Nat) (handler : DevState → Outcome DevState)
    (s : DevState) : Outcome DevState :=
  if action_to_take &&& bit ≠ 0 then handler s else .ok s

/-- The body of the loop of `class_driver_device_handle` after the snapshot
`action_to_take` was taken and `actions` cleared. -/
def handle_snapshot (o : Oracle) (p : Nat) (action_to_take : Nat) (s : DevState) :
    Outcome DevState :=
  ((((whenSet action_to_take ACTION_OPEN_DEV (action_open_dev o) s).andThen
    (whenSet action_to_take ACTION_GET_DEV_INFO (action_get_info o))).andThen
    (whenSet action_to_take ACTION_GET_CONFIG_DESC (action_get_config_desc o))).andThen
    (whenSet action_to_take ACTION_CLAIM_INTERFACE (action_claim_interface o p))).andThen
    (whenSet action_to_take ACTION_CLOSE_DEV (action_close_dev o))

/-- The loop `while (device_obj->actions)` of `class_driver_device_handle` with
fuel for its iterations; `none` when the fuel runs out. -/
def class_driver_device_handle_loop (o : Oracle) (p : Nat) : Nat → DevState →
    Option (Outcome DevState)
  | fuel, s =>
    if s.1.actions ≠ 0 then
      match fuel with
      | 0 => none
      | f + 1 =>
        match handle_snapshot o p s.1.actions ({ s.1 with actions := 0 }, s.2) with
        | .ok s1 => class_driver_device_handle_loop o p f s1
        | .abort s1 => some (.abort s1)
    else some (.ok s)

/-- `class_driver_device_handle` on the slot at address `p`.  Four iterations
are enough for every slot (`class_driver_device_handle_returns`). -/
def class_driver_device_handle (o : Oracle) (p : Nat) (s : DevState) :
    Option (Outcome DevState) :=
  class_driver_device_handle_loop o p 4 s

/-- The handler of an entry mark. -/
def Event.handler? : Event → Option Handler
  | .enter h => some h
  | _ => none

/-- The handlers entered in a trace, in order. -/
def entered (tr : List Event) : List Handler := tr.filterMap Event.handler?

/-- The blocking host-session calls. -/
def Event.isBlockingHostCall : Event → Bool
  | .device_open _ _ => true
  | .device_info _ => true
  | .get_active_config_descriptor _ => true
  | .interface_claim _ _ _ _ => true
  | .interface_release _ _ _ => true
  | .transfer_alloc _ _ => true
  | .transfer_submit _ => true
  | .transfer_free _ => true
  | .device_close _ _ => true
  | _ => false

/-- An unoccupied slot. -/
def usb_device_t.unoccupied (d : usb_device_t) : Prop :=
  d.dev_addr = 0 ∧ d.dev_hdl = 0 ∧ d.midi_in_transfer = none ∧ d.actions = 0

/-! ## Slot table: discovery, disconnect notification, polling loop -/

/-- The table right after the initialisation at the top of `class_driver_task`:
`driver_obj = {0}` with the client handle and the lock stored. -/
def driver_init (client_hdl mux_lock : Nat) : class_driver_t :=
  { unhandled_devices := 0
    shutdown := 0
    device := List.replicate DEV_MAX_COUNT
      { client_hdl := client_hdl, dev_addr := 0, dev_hdl := 0, actions := 0,
        midi_in_transfer := none }
    client_hdl := client_hdl
    mux_lock := mux_lock
    midi_queue := 0 }

/-- The first inner loop of the discovery pass: is `dev_addr` the address of
some slot. -/
def already_handled (device : List usb_device_t) (dev_addr : Nat) : Bool :=
  device.any (fun d => d.dev_addr == dev_addr)

/-- The second inner loop of the discovery pass: the first slot with
`dev_addr == 0` takes the address and `ACTION_OPEN_DEV`; `none` when no slot is
free. -/
def allocate_slot : List usb_device_t → Nat → Option (List usb_device_t)
  | [], _ => none
  | d :: ds, dev_addr =>
    if d.dev_addr = 0 then
      some ({ d with dev_addr := dev_addr, actions := d.actions ||| ACTION_OPEN_DEV } :: ds)
    else (allocate_slot ds dev_addr).map (fun r => d :: r)

/-- The body of the outer loop of the discovery pass for one entry of
`dev_addr_list`. -/
def discover_one (T : class_driver_t) (dev_addr : Nat) : class_driver_t :=
  if dev_addr = 0 then T
  else if already_handled T.device dev_addr then T
  else
    match allocate_slot T.device dev_addr with
    | some ds => { T with device := ds, unhandled_devices := 1 }
    | none => T

/-- The discovery pass over the first `num_devs` entries of `dev_addr_list`,
the part of `class_driver_task` that runs between the first take and give of
the lock. -/
def discovery_pass (T : class_driver_t) (dev_addr_list : List Nat) : class_driver_t :=
  dev_addr_list.foldl discover_one T

/-- Modelled from the spec: the client event message of the host library
(`usb_host_client_event_msg_t`, not among the sources): a new device at an
address, or the departure of the device behind a handle. -/
inductive usb_host_client_event_msg_t where
  | USB_HOST_CLIENT_EVENT_NEW_DEV (address : Nat)
  | USB_HOST_CLIENT_EVENT_DEV_GONE (dev_hdl : Nat)
deriving DecidableEq, Repr

/-- The loop of `client_event_cb`: the first slot whose handle is `dev_hdl`
gets `actions = ACTION_CLOSE_DEV`; `none` when no handle matches. -/
def mark_gone : List usb_device_t → Nat → Option (List usb_device_t)
  | [], _ => none
  | d :: ds, dev_hdl =>
    if d.dev_hdl = dev_hdl then some ({ d with actions := ACTION_CLOSE_DEV } :: ds)
    else (mark_gone ds dev_hdl).map (fun r => d :: r)

/-- `client_event_cb` with the driver object as its argument. -/
def client_event_cb (event_msg : usb_host_client_event_msg_t)
    (s : class_driver_t × World) : class_driver_t × World :=
  match event_msg with
  | .USB_HOST_CLIENT_EVENT_DEV_GONE dev_hdl =>
    let w1 := s.2.emit .lockTake
    match mark_gone s.1.device dev_hdl with
    | some ds => ({ s.1 with device := ds, unhandled_devices := 1 }, w1.emit .lockGive)
    | none => (s.1, w1.emit .lockGive)
  | .USB_HOST_CLIENT_EVENT_NEW_DEV _ => s

/-- The loop `for (i = 0; i < DEV_MAX_COUNT; i++) if (device[i].actions)
class_driver_device_handle(&device[i]);` from slot `i` on. -/
def drain_slots (o : Oracle) : Nat → List usb_device_t → World →
    Option (Outcome (List usb_device_t × World))
  | _, [], w => some (.ok ([], w))
  | i, d :: ds, w =>
    if d.actions ≠ 0 then
      match class_driver_device_handle o i (d, w) with
      | none => none
      | some (.abort s1) => some (.abort (s1.1 :: ds, s1.2))
      | some (.ok s1) =>
        (drain_slots o (i + 1) ds s1.2).map (Outcome.mapState (fun r => (s1.1 :: r.1, r.2)))
    else (drain_slots o (i + 1) ds w).map (Outcome.mapState (fun r => (d :: r.1, r.2)))

/-- The block `if (unhandled_devices) { take; unhandled_devices = 0; drain every
slot; give; }` of `class_driver_task`. -/
def drain_pending (o : Oracle) (s : class_driver_t × World) :
    Option (Outcome (class_driver_t × World)) :=
  if s.1.unhandled_devices ≠ 0 then
    match drain_slots o 0 s.1.device (s.2.emit .lockTake) with
    | none => none
    | some (.abort r) => some (.abort ({ s.1 with unhandled_devices := 0, device := r.1 }, r.2))
    | some (.ok r) =>
      some (.ok ({ s.1 with unhandled_devices := 0, device := r.1 }, r.2.emit .lockGive))
  else some (.ok s)

/-- Modelled from the spec: what `usb_host_client_handle_events` of the host
library (not among the sources) delivers to the client while it runs: a client
event, handed to `client_event_cb`, or a transfer that reached a terminal
state, handed to the callback stored in the transfer. -/
inductive host_delivery where
  | client_event (event_msg : usb_host_client_event_msg_t)
  | transfer_done (transfer : usb_transfer_t)
deriving DecidableEq, Repr

/-- One delivery: `client_event_cb(event_msg, &driver_obj)` or
`transfer->callback(transfer)`, the latter with `s_driver_obj = &driver_obj`. -/
def deliver (o : Oracle) (x : host_delivery) (s : class_driver_t × World) :
    Option (Outcome (class_driver_t × World)) :=
  match x with
  | .client_event event_msg => some (.ok (client_event_cb event_msg s))
  | .transfer_done transfer =>
    match transfer.callback with
    | .null => some (.ok s)
    | .midi_transfer_cb =>
      (midi_transfer_cb o (some s.1) transfer s.2).map (Outcome.mapState (fun w => (s.1, w)))

/-- The deliveries of one call of `usb_host_client_handle_events`, in order. -/
def pump_deliveries (o : Oracle) : List host_delivery → class_driver_t × World →
    Option (Outcome (class_driver_t × World))
  | [], s => some (.ok s)
  | x :: xs, s =>
    match deliver o x s with
    | none => none
    | some (.abort s1) => some (.abort s1)
    | some (.ok s1) => pump_deliveries o xs s1

/-- The tail of an iteration: `usb_host_client_handle_events`, during which the
host makes the pending `deliveries` (client events and transfer completions),
then `vTaskDelay`. -/
def pump_events (o : Oracle) (deliveries : List host_delivery) (s : class_driver_t × World) :
    Option (Outcome (class_driver_t × World)) :=
  match pump_deliveries o deliveries (s.1, s.2.called (.client_handle_events s.1.client_hdl)) with
  | none => none
  | some (.abort s1) => some (.abort s1)
  | some (.ok s1) => some (.ok (s1.1, s1.2.emit (.taskDelay 100)))

/-- One iteration of the `while (1)` loop of `class_driver_task`, where the
host returns `dev_addr_list` (its first `num_devs` entries) and makes the
`deliveries` inside `usb_host_client_handle_events`. -/
def class_driver_task_iteration (o : Oracle) (dev_addr_list : List Nat)
    (deliveries : List host_delivery) (s : class_driver_t × World) :
    Option (Outcome (class_driver_t × World)) :=
  let w0 := s.2.called (.device_addr_list_fill DEV_MAX_COUNT)
  if (s.2.reply o).err ≠ ESP_OK then some (.abort (s.1, w0))
  else
    let T1 := discovery_pass s.1 dev_addr_list
    let w1 := (w0.emit .lockTake).emit .lockGive
    match drain_pending o (T1, w1) with
    | none => none
    | some (.abort r) => some (.abort r)
    | some (.ok r) => pump_events o deliveries r

/-- The tables reachable from the initial table by discovery passes, drains of
one slot that return, and disconnect notifications. -/
inductive Reachable : class_driver_t → Prop where
  | init (client_hdl mux_lock : Nat) : Reachable (driver_init client_hdl mux_lock)
  | discovery (T : class_driver_t) (dev_addr_list : List Nat) :
      Reachable T → dev_addr_list.length ≤ DEV_MAX_COUNT →
      Reachable (discovery_pass T dev_addr_list)
  | drain (T : class_driver_t) (o : Oracle) (i : Nat) (d : usb_device_t) (w : World)
      (s1 : DevState) :
      Reachable T → T.device[i]? = some d →
      class_driver_device_handle o i (d, w) = some (.ok s1) →
      Reachable { T with device := T.device.set i s1.1 }
  | disconnect (T : class_driver_t) (dev_hdl : Nat) (w : World) :
      Reachable T →
      Reachable (client_event_cb (.USB_HOST_CLIENT_EVENT_DEV_GONE dev_hdl) (T, w)).1

/-- No two distinct slots hold the same non-zero address. -/
def AddrUnique (device : List usb_device_t) : Prop :=
  ∀ i j : Nat, ∀ a b : usb_device_t, device[i]? = some a → device[j]? = some b →
    i ≠ j → a.dev_addr ≠ 0 → a.dev_addr ≠ b.dev_addr

/-- The lock discipline "no blocking host call while the lock is held", read
off a trace from the lock state `held`. -/
def noBlockingCallUnderLock : Bool → List Event → Bool
  | _, [] => true
  | _, .lockTake :: es => noBlockingCallUnderLock true es
  | _, .lockGive :: es => noBlockingCallUnderLock false es
  | held, e :: es => !(held && e.isBlockingHostCall) && noBlockingCallUnderLock held es

/-- The discipline of the poller up to the end of its drain block: takes and
gives alternate and every blocking host call is made while the lock is held.
The result is the lock state at the end of the trace, `none` when the
discipline is broken. -/
def blockingCallsUnderLock : Bool → List Event → Option Bool
  | held, [] => some held
  | held, .lockTake :: es => if held then none else blockingCallsUnderLock true es
  | held, .lockGive :: es => if held then blockingCallsUnderLock false es else none
  | held, e :: es =>
    if e.isBlockingHostCall && !held then none else blockingCallsUnderLock held es

/-- The discipline of the event pump: takes and gives alternate, no action
handler is entered, and the only blocking host call is
`usb_host_transfer_submit`, made while the lock is free.  The result is the
lock state at the end of the trace, `none` when the discipline is broken. -/
def pumpDiscipline : Bool → List Event → Option Bool
  | held, [] => some held
  | held, .lockTake :: es => if held then none else pumpDiscipline true es
  | held, .lockGive :: es => if held then pumpDiscipline false es else none
  | _, .enter _ :: _ => none
  | held, .transfer_submit _ :: es => if held then none else pumpDiscipline false es
  | held, e :: es => if e.isBlockingHostCall then none else pumpDiscipline held es

/-! ## Auxiliary notions used in the statements and proofs -/

/-- The world `w1` extends the trace of `w` by events that follow the
discipline `pumpDiscipline` from the lock state `h` to the lock state `h1`. -/
def Pumps (h h1 : Bool) (w w1 : World) : Prop :=
  ∃ evs : List Event, w1.trace = w.trace ++ evs ∧ pumpDiscipline h evs = some h1

/-- The events of the frame loop of `midi_transfer_cb`: buffer reads and queue
sends. -/
def Event.isDecoderEvent : Event → Bool
  | .bufRead _ => true
  | .queueSend _ _ => true
  | _ => false

/-- An address the discovery pass has nothing to do for: zero, tracked, or
untracked with no slot free. -/
def Settled (T : class_driver_t) (a : Nat) : Prop :=
  a = 0 ∨ already_handled T.device a = true ∨ allocate_slot T.device a = none

/-- The address of a slot after a handler: kept, or reset to zero. -/
def AddrKept (s s1 : DevState) : Prop :=
  s1.1.dev_addr = s.1.dev_addr ∨ s1.1.dev_addr = 0

/-- The value of `actions` after a snapshot `a` whose handlers all returned:
Close resets it, otherwise Open, FetchInfo and FetchConfig each leave their
successor. -/
def nextActions (a : Nat) : Nat :=
  if a &&& ACTION_CLOSE_DEV ≠ 0 then 0
  else
    ((if a &&& ACTION_OPEN_DEV ≠ 0 then ACTION_GET_DEV_INFO else 0) |||
      (if a &&& ACTION_GET_DEV_INFO ≠ 0 then ACTION_GET_CONFIG_DESC else 0)) |||
      (if a &&& ACTION_GET_CONFIG_DESC ≠ 0 then ACTION_CLAIM_INTERFACE else 0)

/-- A bound on the iterations the drain loop still makes from `actions = a`. -/
def drainRank (a : Nat) : Nat :=
  if a = 0 then 0
  else if a &&& ACTION_CLOSE_DEV ≠ 0 then 1
  else if a &&& ACTION_OPEN_DEV ≠ 0 then 4
  else if a &&& ACTION_GET_DEV_INFO ≠ 0 then 3
  else if a &&& ACTION_GET_CONFIG_DESC ≠ 0 then 2
  else 1

/-- The handlers a snapshot `a` runs when none of them aborts, in the order of
the `if` statements of `class_driver_device_handle`. -/
def snapshotHandlers (a : Nat) : List Handler :=
  (if a &&& ACTION_OPEN_DEV ≠ 0 then [Handler.action_open_dev] else []) ++
  ((if a &&& ACTION_GET_DEV_INFO ≠ 0 then [Handler.action_get_info] else []) ++
  ((if a &&& ACTION_GET_CONFIG_DESC ≠ 0 then [Handler.action_get_config_desc] else []) ++
  ((if a &&& ACTION_CLAIM_INTERFACE ≠ 0 then [Handler.action_claim_interface] else []) ++
  (if a &&& ACTION_CLOSE_DEV ≠ 0 then [Handler.action_close_dev] else []))))

/-- The handlers entered between `s` and the outcome `r` are an initial segment
of `hs`, and all of `hs` when `r` is not an abort. -/
def EntersInOrder (s : DevState) (r : Outcome DevState) (hs : List Handler) : Prop :=
  ∃ done : List Handler, entered r.state.2.trace = entered s.2.trace ++ done ∧
    done <+: hs ∧ ∀ s1, r = .ok s1 → done = hs

/-- The transfer of a free. -/
def Event.free? : Event → Option Nat
  | .transfer_free ptr => some ptr
  | _ => none

/-- The transfers freed in a trace, in order. -/
def freed (tr : List Event) : List Nat := tr.filterMap Event.free?

/-- The handle of a device close. -/
def Event.close? : Event → Option Nat
  | .device_close _ hdl => some hdl
  | _ => none

/-- The handles closed in a trace, in order. -/
def closed (tr : List Event) : List Nat := tr.filterMap Event.close?

/-- The world `w1` extends the trace of `w` by events that follow the
discipline `blockingCallsUnderLock` from the lock state `h` to the lock state
`h1`. -/
def Scans (h h1 : Bool) (w w1 : World) : Prop :=
  ∃ evs : List Event, w1.trace = w.trace ++ evs ∧ blockingCallsUnderLock h evs = some h1

/-- The index of a buffer read. -/
def Event.read? : Event → Option Nat
  | .bufRead i => some i
  | _ => none

/-- The buffer indices read in a trace, in order. -/
def bufReads (tr : List Event) : List Nat := tr.filterMap Event.read?

/-- The events that are calls into the host library, each of which takes one
reply from the oracle. -/
def Event.isHostCall : Event → Bool
  | .lockTake => false
  | .lockGive => false
  | .taskDelay _ => false
  | .queueSend _ _ => false
  | .enter _ => false
  | .bufRead _ => false
  | _ => true

/-- The number of host calls in a trace. -/
def hostCallCount (tr : List Event) : Nat := (tr.filter Event.isHostCall).length

/-- The transfer object as `action_claim_interface` configures it for the slot
at address `p` with handle `hdl`, allocated at address `ptr`. -/
def claimed_transfer (ptr hdl p : Nat) : usb_transfer_t :=
  { allocated_transfer ptr 64 with
    device_handle := hdl
    bEndpointAddress := 0x82
    callback := .midi_transfer_cb
    context := p
    num_bytes := 64 }

/-- The events of a run of `action_claim_interface` in which the claim, the
allocation and the submission succeed. -/
def claimSegment (client hdl ptr : Nat) : List Event :=
  [ .enter .action_claim_interface, .interface_claim client hdl 3 0,
    .transfer_alloc 64 0, .transfer_submit ptr ]

/-- The events `evs`, whose first host call has number `base`, contain a run of
`action_claim_interface` on the slot at address `p` in which interface_claim,
transfer_alloc and transfer_submit all returned `ESP_OK`, and `t` is the
transfer that run allocated and configured. -/
def ClaimedIn (o : Oracle) (p base : Nat) (evs : List Event) (t : usb_transfer_t) : Prop :=
  ∃ (pre post : List Event) (client hdl : Nat),
    evs = pre ++ (claimSegment client hdl t.ptr ++ post) ∧
    (o (base + hostCallCount pre)).err = ESP_OK ∧
    (o (base + hostCallCount pre + 1)).err = ESP_OK ∧
    (o (base + hostCallCount pre + 1)).out = t.ptr ∧
    (o (base + hostCallCount pre + 2)).err = ESP_OK ∧
    hdl ≠ 0 ∧
    t = claimed_transfer t.ptr hdl p

/-- Between `s` and `s1` the world grew by events whose host calls are counted,
and a transfer the slot holds in `s1` was either held in `s` or set by a
successful run of `action_claim_interface` in between. -/
def Provenance (o : Oracle) (p : Nat) (s s1 : DevState) : Prop :=
  ∃ evs : List Event, s1.2.trace = s.2.trace ++ evs ∧
    s1.2.calls = s.2.calls + hostCallCount evs ∧
    ∀ t, s1.1.midi_in_transfer = some t →
      s.1.midi_in_transfer = some t ∨ ClaimedIn o p s.2.calls evs t

/-- A slot that holds a transfer holds a handle. -/
def usb_device_t.transferHasHandle (d : usb_device_t) : Prop :=
  d.midi_in_transfer ≠ none → d.dev_hdl ≠ 0

/-- A slot without an address holds neither a handle nor a transfer. -/
def usb_device_t.freeIsClean (d : usb_device_t) : Prop :=
  d.dev_addr = 0 → d.dev_hdl = 0 ∧ d.midi_in_transfer = none

/-- Open is pending only on a slot without a transfer. -/
def usb_device_t.openBeforeTransfer (d : usb_device_t) : Prop :=
  d.actions &&& ACTION_OPEN_DEV ≠ 0 → d.midi_in_transfer = none

/-- The slot invariant behind transfer-implies-handle. -/
def SlotInv (d : usb_device_t) : Prop :=
  d.transferHasHandle ∧ d.freeIsClean ∧ d.openBeforeTransfer

/-- The tables and worlds reachable under the host `o` from the initial table
in the world `w0`: by the discovery section of the poller (the address-list
query succeeding, then the pass under the lock), by drains of one slot that
return, and by disconnect notifications. -/
inductive ReachableFrom (o : Oracle) (w0 : World) : class_driver_t × World → Prop where
  | init (client_hdl mux_lock : Nat) : ReachableFrom o w0 (driver_init client_hdl mux_lock, w0)
  | discovery (s : class_driver_t × World) (dev_addr_list : List Nat) :
      ReachableFrom o w0 s → dev_addr_list.length ≤ DEV_MAX_COUNT →
      (s.2.reply o).err = ESP_OK →
      ReachableFrom o w0
        (discovery_pass s.1 dev_addr_list,
         ((s.2.called (.device_addr_list_fill DEV_MAX_COUNT)).emit .lockTake).emit .lockGive)
  | drain (s : class_driver_t × World) (i : Nat) (d : usb_device_t) (s1 : DevState) :
      ReachableFrom o w0 s → s.1.device[i]? = some d →
      class_driver_device_handle o i (d, s.2) = some (.ok s1) →
      ReachableFrom o w0 ({ s.1 with device := s.1.device.set i s1.1 }, s1.2)
  | disconnect (s : class_driver_t × World) (dev_hdl : Nat) :
      ReachableFrom o w0 s →
      ReachableFrom o w0 (client_event_cb (.USB_HOST_CLIENT_EVENT_DEV_GONE dev_hdl) s)

/-- Every slot satisfies `SlotInv`, and a transfer held by slot `i` was set by a
successful run of `action_claim_interface` on slot `i` recorded in `evs`. -/
def SlotsOk (o : Oracle) (base : Nat) (evs : List Event) (devs : List usb_device_t) : Prop :=
  ∀ (i : Nat) (d : usb_device_t), devs[i]? = some d →
    SlotInv d ∧ ∀ t, d.midi_in_transfer = some t → ClaimedIn o i base evs t

/-- The invariant of the reachable tables and worlds: the world grew from `w0`
by counted events, every slot satisfies `SlotInv`, and a transfer held by slot
`i` was set by a successful run of `action_claim_interface` on slot `i`
recorded in those events. -/
def TableInv (o : Oracle) (w0 : World) (s : class_driver_t × World) : Prop :=
  ∃ evs : List Event, s.2.trace = w0.trace ++ evs ∧
    s.2.calls = w0.calls + hostCallCount evs ∧ SlotsOk o w0.calls evs s.1.device

/-- A step that keeps transfer-implies-handle. -/
def KeepsHandle (s s1 : DevState) : Prop :=
  s.1.transferHasHandle → s1.1.transferHasHandle

/-- The action bit of a handler. -/
def Handler.bit : Handler → Nat
  | .action_open_dev => ACTION_OPEN_DEV
  | .action_get_info => ACTION_GET_DEV_INFO
  | .action_get_config_desc => ACTION_GET_CONFIG_DESC
  | .action_claim_interface => ACTION_CLAIM_INTERFACE
  | .action_close_dev => ACTION_CLOSE_DEV

/-- The handler function behind a handler name, on the slot at address `p`. -/
def Handler.run (o : Oracle) (p : Nat) : Handler → DevState → Outcome DevState
  | .action_open_dev => ClassDriver.action_open_dev o
  | .action_get_info => ClassDriver.action_get_info o
  | .action_get_config_desc => ClassDriver.action_get_config_desc o
  | .action_claim_interface => ClassDriver.action_claim_interface o p
  | .action_close_dev => ClassDriver.action_close_dev o

/-- The `assert` and the `ESP_ERROR_CHECK` of a handler, read in the state `s`
in which the handler is entered.  Open: `assert(dev_addr != 0)` and the check
of `usb_host_device_open`.  FetchInfo and FetchConfig: `assert(dev_hdl != NULL)`
and the check of their one host call.  ClaimInterface: `assert(dev_hdl != NULL)`
only, its host calls are not checked.  Close: the check of
`usb_host_device_close`, made only when a handle is held, after the free of the
transfer if one is held. -/
def Handler.checks (o : Oracle) : Handler → DevState → Prop
  | .action_open_dev, s => s.1.dev_addr ≠ 0 ∧ (o s.2.calls).err = ESP_OK
  | .action_get_info, s => s.1.dev_hdl ≠ 0 ∧ (o s.2.calls).err = ESP_OK
  | .action_get_config_desc, s => s.1.dev_hdl ≠ 0 ∧ (o s.2.calls).err = ESP_OK
  | .action_claim_interface, s => s.1.dev_hdl ≠ 0
  | .action_close_dev, s =>
    s.1.dev_hdl ≠ 0 →
      (o (match s.1.midi_in_transfer with
          | some _ => s.2.calls + 1
          | none => s.2.calls)).err = ESP_OK

/-- The handlers in the order of the `if` statements of
`class_driver_device_handle`. -/
def allHandlers : List Handler :=
  [.action_open_dev, .action_get_info, .action_get_config_desc, .action_claim_interface,
   .action_close_dev]

/-- The handlers `hs` of the snapshot `a` run one after the other from `s`. -/
def runFrom (o : Oracle) (p a : Nat) : List Handler → DevState → Outcome DevState
  | [], s => .ok s
  | H :: hs, s => (whenSet a H.bit (H.run o p) s).andThen (runFrom o p a hs)

/-- Every handler among `hs` that is in the snapshot `a` passes its `assert`
and its `ESP_ERROR_CHECK` in the state in which it is entered, which is the
state the handlers before it left. -/
def ChecksPass (o : Oracle) (p a : Nat) : List Handler → DevState → Prop
  | [], _ => True
  | H :: hs, s =>
    if a &&& H.bit = 0 then ChecksPass o p a hs s
    else H.checks o s ∧ ChecksPass o p a hs (H.run o p s).state

/-! ## Concrete inputs used to evaluate the definitions -/

/-- A host in which every call succeeds; handles and addresses it hands out
are `7`. -/
def hostOk : Oracle := fun _ => { err := ESP_OK, out := 7 }

/-- A driver object with a sink bound (queue handle `1`). -/
def exDriver : class_driver_t := { driver_init 11 12 with midi_queue := 1 }

/-- A completed transfer whose payload is the single frame `09 00 3C 00`. -/
def exNoteOnTransfer : usb_transfer_t :=
  { allocated_transfer 7 64 with
    data_buffer := [0x09, 0x00, 0x3C, 0x00]
    actual_num_bytes := 4
    num_bytes := 64
    callback := .midi_transfer_cb }

/-- The empty world. -/
def World.start : World := { trace := [], calls := 0 }

/-- A table with a device open in slot 1 (handle `7`, some actions pending) and
another in slot 2 (handle `9`). -/
def exTable : class_driver_t :=
  { driver_init 11 12 with
    device :=
      [ { client_hdl := 11, dev_addr := 0, dev_hdl := 0, actions := 0, midi_in_transfer := none },
        { client_hdl := 11, dev_addr := 5, dev_hdl := 7, actions := ACTION_CLAIM_INTERFACE,
          midi_in_transfer := none },
        { client_hdl := 11, dev_addr := 6, dev_hdl := 9, actions := 0,
          midi_in_transfer := none } ] }

/-- The table after a first discovery pass that reports the addresses 5 and 6. -/
def exDiscovered : class_driver_t := discovery_pass (driver_init 11 12) [5, 6, 5, 0]

/-- The slot of the device at address 5 once the lifecycle chain has run on
`hostOk` for the slot at address `0`. -/
def exStreamingSlot : usb_device_t :=
  { client_hdl := 11, dev_addr := 5, dev_hdl := 7, actions := 0,
    midi_in_transfer := some
      { allocated_transfer 7 64 with
        device_handle := 7
        bEndpointAddress := 0x82
        callback := .midi_transfer_cb
        context := 0
        num_bytes := 64 } }

/-- The world after the lifecycle chain has run on `hostOk` from the empty
world. -/
def exStreamingWorld : World :=
  { trace :=
      [ .enter .action_open_dev, .device_open 11 5,
        .enter .action_get_info, .device_info 7,
        .enter .action_get_config_desc, .get_active_config_descriptor 7,
        .enter .action_claim_interface, .interface_claim 11 7 3 0,
        .transfer_alloc 64 0, .transfer_submit 7 ]
    calls := 6 }

/-- The table `exDiscovered` after the drain of slot 0 and the departure of the
device behind handle `7`. -/
def exDeparted : class_driver_t :=
  (client_event_cb (.USB_HOST_CLIENT_EVENT_DEV_GONE 7)
    ({ exDiscovered with device := exDiscovered.device.set 0 exStreamingSlot },
      World.start)).1

/-- A host whose call number `k` fails with `ESP_FAIL` (-1 as an `esp_err_t`)
while every other call succeeds. -/
def hostFailsAt (k : Nat) : Oracle :=
  fun n => if n = k then { err := 4294967295, out := 0 } else { err := ESP_OK, out := 7 }

/-- A slot with an open device, all descriptors fetched, ClaimInterface
pending. -/
def exClaimingSlot : usb_device_t :=
  { client_hdl := 11, dev_addr := 5, dev_hdl := 7, actions := ACTION_CLAIM_INTERFACE,
    midi_in_transfer := none }

/-- A slot with an address and no handle on which FetchInfo and Close are
pending together. -/
def exInfoCloseSlot : usb_device_t :=
  { client_hdl := 11, dev_addr := 5, dev_hdl := 0,
    actions := ACTION_GET_DEV_INFO ||| ACTION_CLOSE_DEV, midi_in_transfer := none }

/-- The trace of the first iteration of the poller on the initial table when
the host reports one device at address 5 and every host call succeeds. -/
def exFirstIterationTrace : List Event :=
  [ .device_addr_list_fill 8, .lockTake, .lockGive, .lockTake,
    .enter .action_open_dev, .device_open 11 5,
    .enter .action_get_info, .device_info 7,
    .enter .action_get_config_desc, .get_active_config_descriptor 7,
    .enter .action_claim_interface, .interface_claim 11 7 3 0,
    .transfer_alloc 64 0, .transfer_submit 7,
    .lockGive, .client_handle_events 11, .taskDelay 100 ]

/-- A completed transfer that returned one byte, `09`, into a buffer that still
holds `3C` at index 2. -/
def exShortTransfer : usb_transfer_t :=
  { exNoteOnTransfer with data_buffer := [0x09, 0x00, 0x3C, 0x00], actual_num_bytes := 1 }

/-- The same one-byte transfer into a buffer that holds `00` at index 2. -/
def exShortTransferClean : usb_transfer_t :=
  { exNoteOnTransfer with data_buffer := [0x09, 0x00, 0x00, 0x00], actual_num_bytes := 1 }

/-- A slot with an address and no handle on which Open and FetchInfo are
pending together. -/
def exOpenInfoSlot : usb_device_t :=
  { client_hdl := 11, dev_addr := 5, dev_hdl := 0,
    actions := ACTION_OPEN_DEV ||| ACTION_GET_DEV_INFO, midi_in_transfer := none }

/-- A slot with an address on which Open is pending, as discovery leaves it. -/
def exOpenSlot : usb_device_t :=
  { client_hdl := 11, dev_addr := 5, dev_hdl := 0, actions := ACTION_OPEN_DEV,
    midi_in_transfer := none }

/-- The world after the discovery section of the first iteration on `hostOk`. -/
def exDiscoveryWorld : World :=
  ((World.start.called (.device_addr_list_fill DEV_MAX_COUNT)).emit .lockTake).emit .lockGive

/-- The world after the lifecycle chain has then run on slot 0. -/
def exFirstDrainWorld : World :=
  { trace := exDiscoveryWorld.trace ++ exStreamingWorld.trace, calls := 7 }

/-- Table and world after the discovery of a device at address 5 and the drain
of slot 0, on `hostOk` from the empty world. -/
def exAfterFirstDrain : class_driver_t × World :=
  ({ discovery_pass (driver_init 11 12) [5] with
      device := (discovery_pass (driver_init 11 12) [5]).device.set 0 exStreamingSlot },
   exFirstDrainWorld)

/-- A slot with an address on which all five actions are pending. -/
def exAllPendingSlot : usb_device_t :=
  { client_hdl := 11, dev_addr := 5, dev_hdl := 0, actions := 31, midi_in_transfer := none }

/-- A slot with an address on which Open and Close are pending together. -/
def exOpenCloseSlot : usb_device_t :=
  { client_hdl := 11, dev_addr := 5, dev_hdl := 0,
    actions := ACTION_OPEN_DEV ||| ACTION_CLOSE_DEV, midi_in_transfer := none }

/-- The slot of `exAllPendingSlot` once it is unoccupied. -/
def exUnoccupiedSlot : usb_device_t :=
  { client_hdl := 11, dev_addr := 0, dev_hdl := 0, actions := 0, midi_in_transfer := none }

/-- The trace of an iteration on `exDriver` in which nothing is discovered and
the host delivers the completed transfer `exNoteOnTransfer`. -/
def exRearmTrace : List Event :=
  [ .device_addr_list_fill 8, .lockTake, .lockGive, .client_handle_events 11,
    .bufRead 0, .bufRead 2, .bufRead 2, .queueSend 1 60, .transfer_submit 7,
    .taskDelay 100 ]

/-! ## Theorems: stream completion callback -/

theorem pushed_append (a b : List Event) : pushed (a ++ b) = pushed a ++ pushed b := by
  simp [pushed]

theorem submitted_append (a b : List Event) :
    submitted (a ++ b) = submitted a ++ submitted b := by
  simp [submitted]

theorem submitted_midi_frame (sink : Option class_driver_t) (t : usb_transfer_t) (i : Nat) :
    submitted (midi_frame sink t i) = [] := by
  unfold midi_frame
  split
  · split
    · cases sink with
      | none => simp [submitted, Event.submit?]
      | some drv =>
        by_cases hq : drv.midi_queue = 0 <;> simp [hq, submitted, Event.submit?]
    · simp [submitted, Event.submit?]
  · simp [submitted, Event.submit?]

/-- The frame loop returns whenever its fuel covers the bytes left, and it
submits nothing. -/
theorem midi_frame_loop_returns (sink : Option class_driver_t) (t : usb_transfer_t) :
    ∀ (fuel i : Nat), (t.actual_num_bytes - (i : Int)).toNat ≤ fuel →
      ∃ evs, midi_frame_loop sink t fuel i = some evs ∧ submitted evs = [] := by
  intro fuel
  induction fuel with
  | zero =>
    intro i h
    unfold midi_frame_loop
    have : ¬ ((i : Int) < t.actual_num_bytes) := by omega
    simp [this, submitted]
  | succ f ih =>
    intro i h
    unfold midi_frame_loop
    by_cases hlt : (i : Int) < t.actual_num_bytes
    · obtain ⟨evs, he, hs⟩ := ih (i + 4) (by push_cast; omega)
      simp [hlt, he, submitted_append, hs, submitted_midi_frame]
    · simp [hlt, submitted]

theorem low_nibble (n : Nat) : n &&& 0x0F = n % 16 := by
  have h := Nat.and_pow_two_sub_one_eq_mod n 4
  simpa using h

theorem byte_at (t : usb_transfer_t) (pre tail : List Nat) (b : Nat)
    (hbuf : t.data_buffer = pre ++ b :: tail) (hb : b < 256) :
    t.byte pre.length = b := by
  unfold usb_transfer_t.byte
  rw [hbuf]
  have hget : (pre ++ b :: tail).getD pre.length 0 = b := by
    rw [List.getD_eq_getElem?_getD, List.getElem?_append_right (Nat.le_refl _)]
    simp
  rw [hget, Nat.mod_eq_of_lt hb]

theorem pushed_midi_frame (drv : class_driver_t) (t : usb_transfer_t) (i b0 b2 : Nat)
    (hq : drv.midi_queue ≠ 0) (h0 : t.byte i = b0) (h2 : t.byte (i + 2) = b2) :
    pushed (midi_frame (some drv) t i) = if b0 % 16 = 9 ∧ b2 ≠ 0 then [b2] else [] := by
  unfold midi_frame
  rw [h0, h2, low_nibble]
  by_cases c0 : b0 % 16 = 9
  · by_cases c2 : b2 = 0
    · simp [c0, c2, pushed, Event.note?]
    · have : b2 > 0 := Nat.pos_of_ne_zero c2
      simp [c0, c2, this, hq, pushed, Event.note?]
  · simp [c0, pushed, Event.note?]

/-- Decoding of a payload of whole frames that starts at offset `pre.length`. -/
theorem midi_frame_loop_decodes (drv : class_driver_t) (t : usb_transfer_t)
    (hq : drv.midi_queue ≠ 0) :
    ∀ (frames : List Frame) (pre tail : List Nat) (fuel : Nat),
      frames.length ≤ fuel →
      t.data_buffer = pre ++ (Frame.encode frames ++ tail) →
      t.actual_num_bytes = ((pre.length + 4 * frames.length : Nat) : Int) →
      (∀ f ∈ frames, f.b0 < 256 ∧ f.b2 < 256) →
      ∃ evs, midi_frame_loop (some drv) t fuel pre.length = some evs ∧
        pushed evs = Frame.noteOns frames := by
  intro frames
  induction frames with
  | nil =>
    intro pre tail fuel _ _ hn _
    unfold midi_frame_loop
    have : ¬ ((pre.length : Int) < t.actual_num_bytes) := by
      rw [hn]; push_cast; simp
    simp [this, pushed, Frame.noteOns]
  | cons f fs ih =>
    intro pre tail fuel hfuel hbuf hn hbytes
    obtain ⟨k, rfl⟩ : ∃ k, fuel = k + 1 := ⟨fuel - 1, by simp at hfuel; omega⟩
    have hlt : (pre.length : Int) < t.actual_num_bytes := by
      rw [hn]; push_cast; simp
    have hf := hbytes f (List.mem_cons_self _ _)
    have hb0 : t.byte pre.length = f.b0 :=
      byte_at t pre (f.b1 :: f.b2 :: f.b3 :: (Frame.encode fs ++ tail)) f.b0
        (by simpa [Frame.encode] using hbuf) hf.1
    have hb2 : t.byte (pre.length + 2) = f.b2 := by
      have := byte_at t (pre ++ [f.b0, f.b1]) (f.b3 :: (Frame.encode fs ++ tail)) f.b2
        (by simpa [Frame.encode] using hbuf) hf.2
      simpa using this
    obtain ⟨evs, he, hp⟩ := ih (pre ++ [f.b0, f.b1, f.b2, f.b3]) tail k
      (by simp at hfuel; omega) (by simpa [Frame.encode] using hbuf)
      (by rw [hn]; simp; omega)
      (fun g hg => hbytes g (List.mem_cons_of_mem _ hg))
    have he4 : midi_frame_loop (some drv) t k (pre.length + 4) = some evs := by
      simpa using he
    unfold midi_frame_loop
    simp only [hlt, if_true, he4]
    refine ⟨_, rfl, ?_⟩
    rw [pushed_append, pushed_midi_frame drv t pre.length f.b0 f.b2 hq hb0 hb2, hp]
    by_cases c : f.b0 % 16 = 9 ∧ f.b2 ≠ 0 <;> simp [Frame.noteOns, c]

theorem noteOns_all (frames : List Frame) (h : ∀ f ∈ frames, f.b0 % 16 = 9 ∧ f.b2 ≠ 0) :
    Frame.noteOns frames = frames.map Frame.b2 := by
  induction frames with
  | nil => rfl
  | cons f fs ih =>
    have hf := h f (List.mem_cons_self _ _)
    simp [Frame.noteOns, hf, ih (fun g hg => h g (List.mem_cons_of_mem _ hg))]

theorem checked_submit_trace (o : Oracle) (ptr : Nat) (w : World) :
    (checked_submit o ptr w).state = w.called (.transfer_submit ptr) := by
  unfold checked_submit
  split <;> rfl

/-- C1: for a Completed transfer whose payload is exactly the frames `frames`
(`actual_num_bytes = 4 * N`, bytes 0 and 2 of every frame being bytes) and a
bound sink, `midi_transfer_cb` returns and the values it pushes to the sink are
exactly, in frame order, byte 2 of every frame whose byte 0 has low nibble 9
and whose byte 2 is not zero; when all frames qualify these are the bytes 2 of
all frames. -/
theorem midi_transfer_cb_decodes_frames (o : Oracle) (drv : class_driver_t)
    (t : usb_transfer_t) (w : World) (frames : List Frame) (tail : List Nat)
    (hq : drv.midi_queue ≠ 0)
    (hs : t.status = .USB_TRANSFER_STATUS_COMPLETED)
    (hbuf : t.data_buffer = Frame.encode frames ++ tail)
    (hn : t.actual_num_bytes = ((4 * frames.length : Nat) : Int))
    (hbytes : ∀ f ∈ frames, f.b0 < 256 ∧ f.b2 < 256) :
    ∃ r, midi_transfer_cb o (some drv) t w = some r ∧
      pushed r.state.trace = pushed w.trace ++ Frame.noteOns frames ∧
      ((∀ f ∈ frames, f.b0 % 16 = 9 ∧ f.b2 ≠ 0) →
        pushed r.state.trace = pushed w.trace ++ frames.map Frame.b2) := by
  obtain ⟨evs, he, hp⟩ := midi_frame_loop_decodes drv t hq frames [] tail
    t.actual_num_bytes.toNat (by rw [hn]; simp; omega) (by simpa using hbuf)
    (by simpa using hn) hbytes
  have he0 : midi_frame_loop (some drv) t t.actual_num_bytes.toNat 0 = some evs := by
    simpa using he
  have hcb : midi_transfer_cb o (some drv) t w
      = some (checked_submit o t.ptr { w with trace := w.trace ++ evs }) := by
    unfold midi_transfer_cb
    simp only [hs, if_true, he0]
  have hpush : pushed (checked_submit o t.ptr { w with trace := w.trace ++ evs }).state.trace
      = pushed w.trace ++ Frame.noteOns frames := by
    rw [checked_submit_trace]
    show pushed ((w.trace ++ evs) ++ [Event.transfer_submit t.ptr]) = _
    rw [pushed_append, pushed_append, hp]
    simp [pushed, Event.note?]
  refine ⟨_, hcb, hpush, ?_⟩
  intro hall
  rw [hpush, noteOns_all frames hall]

/-- C1, witness: the payload `09 00 3C 00` pushes exactly the note 60. -/
theorem midi_transfer_cb_decodes_frames_witness :
    (∃ r, midi_transfer_cb hostOk (some exDriver) exNoteOnTransfer World.start = some r ∧
      pushed r.state.trace = pushed World.start.trace ++ Frame.noteOns [⟨0x09, 0x00, 0x3C, 0x00⟩] ∧
      ((∀ f ∈ [(⟨0x09, 0x00, 0x3C, 0x00⟩ : Frame)], f.b0 % 16 = 9 ∧ f.b2 ≠ 0) →
        pushed r.state.trace
          = pushed World.start.trace ++ [(⟨0x09, 0x00, 0x3C, 0x00⟩ : Frame)].map Frame.b2)) ∧
    (midi_transfer_cb hostOk (some exDriver) exNoteOnTransfer World.start).map
      (fun r => pushed r.state.trace) = some [60] :=
  ⟨midi_transfer_cb_decodes_frames hostOk exDriver exNoteOnTransfer World.start
    [⟨0x09, 0x00, 0x3C, 0x00⟩] [] (by decide) rfl rfl rfl (by decide), by decide⟩

/-- C4: one invocation of `midi_transfer_cb`, for every status, payload and
sink state.  When the status is neither NO_DEVICE nor CANCELED the callback
returns or aborts after exactly one `usb_host_transfer_submit` of the same
transfer, which is the last event, after everything the frame loop did (which
runs only for Completed and submits nothing).  When the status is NO_DEVICE or
CANCELED the world is unchanged: no submit, no push. -/
theorem midi_transfer_cb_rearm (o : Oracle) (sink : Option class_driver_t)
    (t : usb_transfer_t) (w : World) :
    (t.status ≠ .USB_TRANSFER_STATUS_NO_DEVICE ∧ t.status ≠ .USB_TRANSFER_STATUS_CANCELED →
      ∃ r evs, midi_transfer_cb o sink t w = some r ∧
        r.state = { trace := w.trace ++ evs ++ [.transfer_submit t.ptr], calls := w.calls + 1 } ∧
        submitted evs = [] ∧
        submitted r.state.trace = submitted w.trace ++ [t.ptr] ∧
        (t.status ≠ .USB_TRANSFER_STATUS_COMPLETED → evs = [])) ∧
    (t.status = .USB_TRANSFER_STATUS_NO_DEVICE ∨ t.status = .USB_TRANSFER_STATUS_CANCELED →
      midi_transfer_cb o sink t w = some (.ok w)) := by
  constructor
  · intro hst
    by_cases hc : t.status = .USB_TRANSFER_STATUS_COMPLETED
    · obtain ⟨evs, he, hsub⟩ := midi_frame_loop_returns sink t t.actual_num_bytes.toNat 0
        (by simp)
      refine ⟨checked_submit o t.ptr { w with trace := w.trace ++ evs }, evs, ?_, ?_, hsub, ?_, ?_⟩
      · unfold midi_transfer_cb
        simp only [hc, if_true, he]
      · rw [checked_submit_trace]; simp [World.called]
      · rw [checked_submit_trace]
        show submitted ((w.trace ++ evs) ++ [Event.transfer_submit t.ptr]) = _
        rw [submitted_append, submitted_append, hsub]
        simp [submitted, Event.submit?]
      · intro h; exact absurd hc h
    · refine ⟨checked_submit o t.ptr w, [], ?_, ?_, rfl, ?_, fun _ => rfl⟩
      · unfold midi_transfer_cb
        simp [hc, hst.1, hst.2]
      · rw [checked_submit_trace]; simp [World.called]
      · rw [checked_submit_trace]
        simp [World.called, submitted_append, submitted, Event.submit?]
  · intro hst
    unfold midi_transfer_cb
    rcases hst with h | h <;> simp [h]

/-- C4, witness: a completed note-on transfer is resubmitted after the push, a
canceled one is left alone. -/
theorem midi_transfer_cb_rearm_witness :
    (∃ r evs, midi_transfer_cb hostOk (some exDriver) exNoteOnTransfer World.start = some r ∧
        r.state = { trace := World.start.trace ++ evs ++ [.transfer_submit exNoteOnTransfer.ptr],
                    calls := World.start.calls + 1 } ∧
        submitted evs = [] ∧
        submitted r.state.trace = submitted World.start.trace ++ [exNoteOnTransfer.ptr] ∧
        (exNoteOnTransfer.status ≠ .USB_TRANSFER_STATUS_COMPLETED → evs = [])) ∧
    midi_transfer_cb hostOk (some exDriver)
      { exNoteOnTransfer with status := .USB_TRANSFER_STATUS_CANCELED } World.start
      = some (.ok World.start) :=
  ⟨(midi_transfer_cb_rearm hostOk (some exDriver) exNoteOnTransfer World.start).1
      ⟨by decide, by decide⟩,
    (midi_transfer_cb_rearm hostOk (some exDriver)
      { exNoteOnTransfer with status := .USB_TRANSFER_STATUS_CANCELED } World.start).2
      (Or.inr rfl)⟩

/-! ## Theorems: disconnect notification -/

theorem mark_gone_first (h : Nat) (d : usb_device_t) (post : List usb_device_t)
    (hd : d.dev_hdl = h) :
    ∀ pre : List usb_device_t, (∀ x ∈ pre, x.dev_hdl ≠ h) →
      mark_gone (pre ++ d :: post) h
        = some (pre ++ { d with actions := ACTION_CLOSE_DEV } :: post) := by
  intro pre
  induction pre with
  | nil => intro _; simp [mark_gone, hd]
  | cons x xs ih =>
    intro hpre
    have hx : x.dev_hdl ≠ h := hpre x (List.mem_cons_self _ _)
    have := ih (fun y hy => hpre y (List.mem_cons_of_mem _ hy))
    simp [mark_gone, hx, this]

theorem mark_gone_none (h : Nat) :
    ∀ devs : List usb_device_t, (∀ x ∈ devs, x.dev_hdl ≠ h) → mark_gone devs h = none := by
  intro devs
  induction devs with
  | nil => intro _; rfl
  | cons x xs ih =>
    intro hall
    have hx : x.dev_hdl ≠ h := hall x (List.mem_cons_self _ _)
    have := ih (fun y hy => hall y (List.mem_cons_of_mem _ hy))
    simp [mark_gone, hx, this]

/-- C5: `client_event_cb` on DEV_GONE for the handle `h`.  The first slot whose
`dev_hdl` is `h` gets `actions = ACTION_CLOSE_DEV` (whatever was pending) and
`unhandled_devices` is set; the other fields of that slot, every other slot and
the rest of the driver object are unchanged, and the only calls made are the
take and the give of the lock.  When no handle matches, the table and the flag
are unchanged. -/
theorem client_event_cb_dev_gone (T : class_driver_t) (w : World) (h : Nat) :
    (∀ (pre post : List usb_device_t) (d : usb_device_t),
      T.device = pre ++ d :: post → (∀ x ∈ pre, x.dev_hdl ≠ h) → d.dev_hdl = h →
      client_event_cb (.USB_HOST_CLIENT_EVENT_DEV_GONE h) (T, w)
        = ({ T with
              device := pre ++ { d with actions := ACTION_CLOSE_DEV } :: post
              unhandled_devices := 1 },
           { trace := w.trace ++ [.lockTake, .lockGive], calls := w.calls })) ∧
    ((∀ x ∈ T.device, x.dev_hdl ≠ h) →
      client_event_cb (.USB_HOST_CLIENT_EVENT_DEV_GONE h) (T, w)
        = (T, { trace := w.trace ++ [.lockTake, .lockGive], calls := w.calls })) := by
  constructor
  · intro pre post d hdev hpre hd
    have hm := mark_gone_first h d post hd pre hpre
    rw [← hdev] at hm
    simp [client_event_cb, hm, World.emit]
  · intro hall
    simp [client_event_cb, mark_gone_none h T.device hall, World.emit]

/-- C5, witness: in `exTable` the device with handle `7` in slot 1 goes away
and its pending ClaimInterface is replaced by Close; a handle no slot holds
changes nothing. -/
theorem client_event_cb_dev_gone_witness :
    client_event_cb (.USB_HOST_CLIENT_EVENT_DEV_GONE 7) (exTable, World.start)
      = ({ exTable with
            device :=
              [ { client_hdl := 11, dev_addr := 0, dev_hdl := 0, actions := 0,
                  midi_in_transfer := none } ] ++
              { ({ client_hdl := 11, dev_addr := 5, dev_hdl := 7,
                   actions := ACTION_CLAIM_INTERFACE,
                   midi_in_transfer := none } : usb_device_t) with
                actions := ACTION_CLOSE_DEV } ::
              [ { client_hdl := 11, dev_addr := 6, dev_hdl := 9, actions := 0,
                  midi_in_transfer := none } ]
            unhandled_devices := 1 },
         { trace := World.start.trace ++ [.lockTake, .lockGive], calls := World.start.calls }) ∧
    client_event_cb (.USB_HOST_CLIENT_EVENT_DEV_GONE 8) (exTable, World.start)
      = (exTable, { trace := World.start.trace ++ [.lockTake, .lockGive],
                    calls := World.start.calls }) :=
  ⟨(client_event_cb_dev_gone exTable World.start 7).1 _ _ _ rfl (by decide) rfl,
   (client_event_cb_dev_gone exTable World.start 8).2 (by decide)⟩

/-! ## Theorems: discovery pass -/

theorem already_handled_iff (devs : List usb_device_t) (a : Nat) :
    already_handled devs a = true ↔ ∃ d ∈ devs, d.dev_addr = a := by
  simp [already_handled]

theorem allocate_slot_first (a : Nat) (d : usb_device_t) (post : List usb_device_t)
    (hd : d.dev_addr = 0) :
    ∀ pre : List usb_device_t, (∀ x ∈ pre, x.dev_addr ≠ 0) →
      allocate_slot (pre ++ d :: post) a
        = some (pre ++ { d with dev_addr := a, actions := d.actions ||| ACTION_OPEN_DEV }
            :: post) := by
  intro pre
  induction pre with
  | nil => intro _; simp [allocate_slot, hd]
  | cons x xs ih =>
    intro hpre
    have hx : x.dev_addr ≠ 0 := hpre x (List.mem_cons_self _ _)
    have := ih (fun y hy => hpre y (List.mem_cons_of_mem _ hy))
    simp [allocate_slot, hx, this]

theorem allocate_slot_none_iff (a : Nat) :
    ∀ devs : List usb_device_t, allocate_slot devs a = none ↔ ∀ x ∈ devs, x.dev_addr ≠ 0 := by
  intro devs
  induction devs with
  | nil => simp [allocate_slot]
  | cons x xs ih =>
    by_cases hx : x.dev_addr = 0
    · simp [allocate_slot, hx]
    · simp [allocate_slot, hx, ih]

/-- What a successful allocation does to membership: every slot of the result
is an old slot or carries the new address; every old slot with a non-zero
address is kept, and the new address is present. -/
theorem allocate_slot_some (a : Nat) :
    ∀ devs ds : List usb_device_t, allocate_slot devs a = some ds →
      (∀ x ∈ ds, x ∈ devs ∨ x.dev_addr = a) ∧
      (∀ x ∈ devs, x.dev_addr ≠ 0 → x ∈ ds) ∧
      (∃ x ∈ ds, x.dev_addr = a) ∧
      ds.length = devs.length := by
  intro devs
  induction devs with
  | nil => intro ds h; simp [allocate_slot] at h
  | cons d rest ih =>
    intro ds h
    by_cases hd : d.dev_addr = 0
    · simp [allocate_slot, hd] at h
      subst h
      refine ⟨?_, ?_, ?_, by simp⟩
      · intro x hx
        rcases List.mem_cons.1 hx with rfl | hx
        · right; rfl
        · left; exact List.mem_cons_of_mem _ hx
      · intro x hx hne
        rcases List.mem_cons.1 hx with rfl | hx
        · exact absurd hd hne
        · exact List.mem_cons_of_mem _ hx
      · exact ⟨_, List.mem_cons_self _ _, rfl⟩
    · simp only [allocate_slot, hd, if_false] at h
      cases hr : allocate_slot rest a with
      | none => simp [hr] at h
      | some r =>
        simp [hr] at h
        subst h
        obtain ⟨h1, h2, ⟨y, hy, hya⟩, h4⟩ := ih r hr
        refine ⟨?_, ?_, ⟨y, List.mem_cons_of_mem _ hy, hya⟩, by simp [h4]⟩
        · intro x hx
          rcases List.mem_cons.1 hx with rfl | hx
          · left; exact List.mem_cons_self _ _
          · rcases h1 x hx with h | h
            · left; exact List.mem_cons_of_mem _ h
            · right; exact h
        · intro x hx hne
          rcases List.mem_cons.1 hx with rfl | hx
          · exact List.mem_cons_self _ _
          · exact List.mem_cons_of_mem _ (h2 x hx hne)


theorem discover_one_of_settled (T : class_driver_t) (a : Nat) (h : Settled T a) :
    discover_one T a = T := by
  unfold discover_one
  rcases h with h | h | h
  · simp [h]
  · simp [h]
  · simp [h]

theorem discover_one_settles (T : class_driver_t) (a : Nat) :
    Settled (discover_one T a) a := by
  unfold discover_one
  by_cases h0 : a = 0
  · simp only [h0, if_true]; exact Or.inl rfl
  · by_cases hh : already_handled T.device a = true
    · simp only [h0, hh, if_true, if_false]; exact Or.inr (Or.inl hh)
    · cases hal : allocate_slot T.device a with
      | none =>
        simp only [h0, hh, if_false]
        exact Or.inr (Or.inr hal)
      | some ds =>
        simp only [h0, hh, if_false]
        obtain ⟨_, _, hex, _⟩ := allocate_slot_some a T.device ds hal
        exact Or.inr (Or.inl ((already_handled_iff ds a).2 hex))

theorem settled_discover_one (T : class_driver_t) (a b : Nat) (h : Settled T a) :
    Settled (discover_one T b) a := by
  unfold discover_one
  by_cases h0 : b = 0
  · simpa only [h0, if_true] using h
  · by_cases hh : already_handled T.device b = true
    · simpa only [h0, hh, if_true, if_false] using h
    · cases hal : allocate_slot T.device b with
      | none => simpa only [h0, hh, if_false] using h
      | some ds =>
        simp only [h0, hh, if_false]
        obtain ⟨_, hkeep, _, _⟩ := allocate_slot_some b T.device ds hal
        by_cases ha0 : a = 0
        · exact Or.inl ha0
        · rcases h with h | h | h
          · exact absurd h ha0
          · obtain ⟨x, hx, hxa⟩ := (already_handled_iff T.device a).1 h
            exact Or.inr (Or.inl ((already_handled_iff ds a).2
              ⟨x, hkeep x hx (by rw [hxa]; exact ha0), hxa⟩))
          · have hb : allocate_slot T.device b = none :=
              (allocate_slot_none_iff b T.device).2 ((allocate_slot_none_iff a T.device).1 h)
            rw [hb] at hal
            cases hal

theorem settled_discovery_pass (l : List Nat) :
    ∀ (T : class_driver_t) (a : Nat), Settled T a → Settled (discovery_pass T l) a := by
  induction l with
  | nil => intro T a h; exact h
  | cons b bs ih =>
    intro T a h
    exact ih (discover_one T b) a (settled_discover_one T a b h)

theorem discovery_pass_settles (l : List Nat) :
    ∀ (T : class_driver_t), ∀ a ∈ l, Settled (discovery_pass T l) a := by
  induction l with
  | nil => intro T a ha; cases ha
  | cons b bs ih =>
    intro T a ha
    rcases List.mem_cons.1 ha with rfl | ha
    · exact settled_discovery_pass bs (discover_one T a) a (discover_one_settles T a)
    · exact ih (discover_one T b) a ha

theorem discovery_pass_of_settled (l : List Nat) :
    ∀ (T : class_driver_t), (∀ a ∈ l, Settled T a) → discovery_pass T l = T := by
  induction l with
  | nil => intro T _; rfl
  | cons b bs ih =>
    intro T h
    show discovery_pass (discover_one T b) bs = T
    rw [discover_one_of_settled T b (h b (List.mem_cons_self _ _))]
    exact ih T (fun a ha => h a (List.mem_cons_of_mem _ ha))

/-- C6: the discovery pass does not re-allocate tracked addresses.  For one
entry of the address list: an address that is zero or is the `dev_addr` of some
slot changes nothing; an untracked non-zero address is written to the first
slot with `dev_addr = 0`, with `ACTION_OPEN_DEV` OR-ed into that slot's actions
and `unhandled_devices` set, everything else unchanged.  The pass is
idempotent: running it twice with the same list gives the table of running it
once. -/
theorem discovery_pass_idempotent (T : class_driver_t) :
    (∀ a : Nat, (a = 0 ∨ ∃ d ∈ T.device, d.dev_addr = a) → discover_one T a = T) ∧
    (∀ (a : Nat) (pre post : List usb_device_t) (d : usb_device_t),
      a ≠ 0 → (∀ x ∈ T.device, x.dev_addr ≠ a) →
      T.device = pre ++ d :: post → (∀ x ∈ pre, x.dev_addr ≠ 0) → d.dev_addr = 0 →
      discover_one T a
        = { T with
            device := pre ++ { d with dev_addr := a, actions := d.actions ||| ACTION_OPEN_DEV }
              :: post
            unhandled_devices := 1 }) ∧
    (∀ dev_addr_list : List Nat,
      discovery_pass (discovery_pass T dev_addr_list) dev_addr_list
        = discovery_pass T dev_addr_list) := by
  refine ⟨?_, ?_, ?_⟩
  · intro a h
    apply discover_one_of_settled
    rcases h with h | h
    · exact Or.inl h
    · exact Or.inr (Or.inl ((already_handled_iff T.device a).2 h))
  · intro a pre post d ha hun hdev hpre hd
    have hnot : ¬ already_handled T.device a = true := by
      rw [already_handled_iff]
      rintro ⟨x, hx, hxa⟩
      exact hun x hx hxa
    have hal := allocate_slot_first a d post hd pre hpre
    rw [← hdev] at hal
    simp [discover_one, ha, hnot, hal]
  · intro l
    exact discovery_pass_of_settled l _ (discovery_pass_settles l T)

/-- C6, witness: on `exTable` the tracked address 5 changes nothing, the new
address 9 goes to slot 0, and the list `[5, 9, 0, 9]` twice is the list once. -/
theorem discovery_pass_idempotent_witness :
    discover_one exTable 5 = exTable ∧
    discover_one exTable 9
      = { exTable with
          device := [] ++
            { ({ client_hdl := 11, dev_addr := 0, dev_hdl := 0, actions := 0,
                 midi_in_transfer := none } : usb_device_t) with
              dev_addr := 9, actions := 0 ||| ACTION_OPEN_DEV } ::
            [ { client_hdl := 11, dev_addr := 5, dev_hdl := 7, actions := ACTION_CLAIM_INTERFACE,
                midi_in_transfer := none },
              { client_hdl := 11, dev_addr := 6, dev_hdl := 9, actions := 0,
                midi_in_transfer := none } ]
          unhandled_devices := 1 } ∧
    discovery_pass (discovery_pass exTable [5, 9, 0, 9]) [5, 9, 0, 9]
      = discovery_pass exTable [5, 9, 0, 9] :=
  ⟨(discovery_pass_idempotent exTable).1 5 (Or.inr (by decide)),
   (discovery_pass_idempotent exTable).2.1 9 [] _ _ (by decide) (by decide) rfl (by decide) rfl,
   (discovery_pass_idempotent exTable).2.2 [5, 9, 0, 9]⟩

/-! ## Theorems: lifecycle handlers, general lemmas -/

theorem andThen_ok {σ : Type} (x : Outcome σ) (f : σ → Outcome σ) (s1 : σ)
    (h : x.andThen f = .ok s1) : ∃ s0, x = .ok s0 ∧ f s0 = .ok s1 := by
  cases x with
  | ok s0 => exact ⟨s0, rfl, h⟩
  | abort s0 => simp [Outcome.andThen] at h

theorem andThen_rel {σ : Type} (P : σ → σ → Prop)
    (htrans : ∀ a b c, P a b → P b c → P a c) (x : Outcome σ) (f : σ → Outcome σ) (s : σ)
    (hx : P s x.state) (hf : ∀ s0, P s0 (f s0).state) : P s (x.andThen f).state := by
  cases x with
  | ok s0 => exact htrans _ _ _ hx (hf s0)
  | abort s0 => exact hx

theorem whenSet_rel (P : DevState → DevState → Prop) (hrefl : ∀ s, P s s)
    (a bit : Nat) (f : DevState → Outcome DevState) (hf : ∀ s, P s (f s).state)
    (s : DevState) : P s (whenSet a bit f s).state := by
  unfold whenSet
  split
  · exact hf s
  · exact hrefl s

/-- A reflexive and transitive relation between states that every handler
respects is respected by a snapshot. -/
theorem handle_snapshot_rel (P : DevState → DevState → Prop) (hrefl : ∀ s, P s s)
    (htrans : ∀ a b c, P a b → P b c → P a c) (o : Oracle) (p : Nat)
    (h1 : ∀ s, P s (action_open_dev o s).state)
    (h2 : ∀ s, P s (action_get_info o s).state)
    (h3 : ∀ s, P s (action_get_config_desc o s).state)
    (h4 : ∀ s, P s (action_claim_interface o p s).state)
    (h5 : ∀ s, P s (action_close_dev o s).state)
    (a : Nat) (s : DevState) : P s (handle_snapshot o p a s).state := by
  unfold handle_snapshot
  refine andThen_rel P htrans _ _ s ?_ (whenSet_rel P hrefl a _ _ h5)
  refine andThen_rel P htrans _ _ s ?_ (whenSet_rel P hrefl a _ _ h4)
  refine andThen_rel P htrans _ _ s ?_ (whenSet_rel P hrefl a _ _ h3)
  refine andThen_rel P htrans _ _ s ?_ (whenSet_rel P hrefl a _ _ h2)
  exact whenSet_rel P hrefl a _ _ h1 s

/-- Such a relation, when clearing `actions` respects it too, relates the
state before a drain to the state it returns or aborts with. -/
theorem device_handle_loop_rel (P : DevState → DevState → Prop) (hrefl : ∀ s, P s s)
    (htrans : ∀ a b c, P a b → P b c → P a c) (o : Oracle) (p : Nat)
    (hclear : ∀ s : DevState, P s ({ s.1 with actions := 0 }, s.2))
    (h1 : ∀ s, P s (action_open_dev o s).state)
    (h2 : ∀ s, P s (action_get_info o s).state)
    (h3 : ∀ s, P s (action_get_config_desc o s).state)
    (h4 : ∀ s, P s (action_claim_interface o p s).state)
    (h5 : ∀ s, P s (action_close_dev o s).state) :
    ∀ (fuel : Nat) (s : DevState) (r : Outcome DevState),
      class_driver_device_handle_loop o p fuel s = some r → P s r.state := by
  intro fuel
  induction fuel with
  | zero =>
    intro s r h
    unfold class_driver_device_handle_loop at h
    by_cases ha : s.1.actions = 0
    · simp [ha] at h; subst h; exact hrefl s
    · simp [ha] at h
  | succ f ih =>
    intro s r h
    unfold class_driver_device_handle_loop at h
    by_cases ha : s.1.actions = 0
    · simp [ha] at h; subst h; exact hrefl s
    · simp only [ne_eq, ha, not_false_eq_true, if_true] at h
      have hsnap := handle_snapshot_rel P hrefl htrans o p h1 h2 h3 h4 h5 s.1.actions
        ({ s.1 with actions := 0 }, s.2)
      cases hr : handle_snapshot o p s.1.actions ({ s.1 with actions := 0 }, s.2) with
      | ok s1 =>
        rw [hr] at h hsnap
        exact htrans _ _ _ (hclear s) (htrans _ _ _ hsnap (ih s1 r h))
      | abort s1 =>
        rw [hr] at h hsnap
        simp at h
        subst h
        exact htrans _ _ _ (hclear s) hsnap

theorem action_open_dev_ok (o : Oracle) (s s1 : DevState)
    (h : action_open_dev o s = .ok s1) :
    s1.1.actions = s.1.actions ||| ACTION_GET_DEV_INFO := by
  unfold action_open_dev at h
  simp only at h
  split at h
  · cases h
  · split at h
    · cases h
    · cases h; rfl

theorem action_get_info_ok (o : Oracle) (s s1 : DevState)
    (h : action_get_info o s = .ok s1) :
    s1.1.actions = s.1.actions ||| ACTION_GET_CONFIG_DESC := by
  unfold action_get_info at h
  simp only at h
  split at h
  · cases h
  · split at h
    · cases h
    · cases h; rfl

theorem action_get_config_desc_ok (o : Oracle) (s s1 : DevState)
    (h : action_get_config_desc o s = .ok s1) :
    s1.1.actions = s.1.actions ||| ACTION_CLAIM_INTERFACE := by
  unfold action_get_config_desc at h
  simp only at h
  split at h
  · cases h
  · split at h
    · cases h
    · cases h; rfl

theorem action_claim_interface_actions (o : Oracle) (p : Nat) (s : DevState) :
    (action_claim_interface o p s).state.1.actions = s.1.actions := by
  unfold action_claim_interface
  simp only
  split
  · rfl
  · split
    · rfl
    · split
      · rfl
      · split <;> rfl

theorem action_close_dev_ok (o : Oracle) (s s1 : DevState)
    (h : action_close_dev o s = .ok s1) :
    s1.1.dev_addr = 0 ∧ s1.1.dev_hdl = 0 ∧ s1.1.midi_in_transfer = none ∧ s1.1.actions = 0 := by
  unfold action_close_dev at h
  simp only at h
  have hfree : ∀ s0 : DevState, (close_free_transfer s0).1.midi_in_transfer = none := by
    intro s0
    unfold close_free_transfer
    split
    · rfl
    · assumption
  split at h
  · split at h
    · cases h
    · cases h; exact ⟨rfl, rfl, hfree _, rfl⟩
  · cases h; exact ⟨rfl, rfl, hfree _, rfl⟩

theorem whenSet_ok (a bit : Nat) (f : DevState → Outcome DevState) (s s1 : DevState)
    (h : whenSet a bit f s = .ok s1) :
    (a &&& bit ≠ 0 ∧ f s = .ok s1) ∨ (a &&& bit = 0 ∧ s1 = s) := by
  unfold whenSet at h
  by_cases hb : a &&& bit = 0
  · right; simp [hb] at h; exact ⟨hb, h.symm⟩
  · left; simp [hb] at h; exact ⟨hb, h⟩

/-- The value of `actions` after a snapshot that was not aborted. -/
theorem handle_snapshot_ok_actions (o : Oracle) (p a : Nat) (s s5 : DevState)
    (h0 : s.1.actions = 0) (h : handle_snapshot o p a s = .ok s5) :
    s5.1.actions = nextActions a := by
  unfold handle_snapshot at h
  obtain ⟨s4, h, h5⟩ := andThen_ok _ _ _ h
  obtain ⟨s3, h, h4⟩ := andThen_ok _ _ _ h
  obtain ⟨s2, h, h3⟩ := andThen_ok _ _ _ h
  obtain ⟨s1, h1, h2⟩ := andThen_ok _ _ _ h
  have e1 : s1.1.actions = if a &&& ACTION_OPEN_DEV ≠ 0 then ACTION_GET_DEV_INFO else 0 := by
    rcases whenSet_ok _ _ _ _ _ h1 with ⟨hb, hf⟩ | ⟨hb, rfl⟩
    · rw [action_open_dev_ok o s s1 hf, h0]; simp [hb]
    · simp [hb, h0]
  have e2 : s2.1.actions = s1.1.actions |||
      (if a &&& ACTION_GET_DEV_INFO ≠ 0 then ACTION_GET_CONFIG_DESC else 0) := by
    rcases whenSet_ok _ _ _ _ _ h2 with ⟨hb, hf⟩ | ⟨hb, rfl⟩
    · rw [action_get_info_ok o s1 s2 hf]; simp [hb]
    · simp [hb]
  have e3 : s3.1.actions = s2.1.actions |||
      (if a &&& ACTION_GET_CONFIG_DESC ≠ 0 then ACTION_CLAIM_INTERFACE else 0) := by
    rcases whenSet_ok _ _ _ _ _ h3 with ⟨hb, hf⟩ | ⟨hb, rfl⟩
    · rw [action_get_config_desc_ok o s2 s3 hf]; simp [hb]
    · simp [hb]
  have e4 : s4.1.actions = s3.1.actions := by
    rcases whenSet_ok _ _ _ _ _ h4 with ⟨_, hf⟩ | ⟨_, rfl⟩
    · have := action_claim_interface_actions o p s3
      rw [hf] at this
      exact this
    · rfl
  unfold nextActions
  rcases whenSet_ok _ _ _ _ _ h5 with ⟨hb, hf⟩ | ⟨hb, rfl⟩
  · simp [hb, (action_close_dev_ok o s4 s5 hf).2.2.2]
  · simp [hb, e4, e3, e2, e1]

theorem drainRank_next (a : Nat) (ha : a ≠ 0) : drainRank (nextActions a) + 1 ≤ drainRank a := by
  unfold nextActions drainRank
  by_cases h16 : a &&& ACTION_CLOSE_DEV = 0 <;> by_cases h1 : a &&& ACTION_OPEN_DEV = 0 <;>
    by_cases h2 : a &&& ACTION_GET_DEV_INFO = 0 <;>
    by_cases h4 : a &&& ACTION_GET_CONFIG_DESC = 0 <;>
    simp [ha, h16, h1, h2, h4] <;> decide

theorem drainRank_le (a : Nat) : drainRank a ≤ 4 := by
  unfold drainRank
  split
  · omega
  · split
    · omega
    · split
      · omega
      · split
        · omega
        · split <;> omega

/-- The drain loop returns or aborts whenever its fuel covers the rank of the
pending actions. -/
theorem device_handle_loop_returns (o : Oracle) (p : Nat) :
    ∀ (fuel : Nat) (s : DevState), drainRank s.1.actions ≤ fuel →
      ∃ r, class_driver_device_handle_loop o p fuel s = some r := by
  intro fuel
  induction fuel with
  | zero =>
    intro s h
    have ha : s.1.actions = 0 := by
      by_contra hne
      have := drainRank_next s.1.actions hne
      omega
    unfold class_driver_device_handle_loop
    simp [ha]
  | succ f ih =>
    intro s h
    unfold class_driver_device_handle_loop
    by_cases ha : s.1.actions = 0
    · simp [ha]
    · simp only [ne_eq, ha, not_false_eq_true, if_true]
      cases hr : handle_snapshot o p s.1.actions ({ s.1 with actions := 0 }, s.2) with
      | abort s1 => exact ⟨_, rfl⟩
      | ok s1 =>
        have hn := handle_snapshot_ok_actions o p s.1.actions _ s1 rfl hr
        have := drainRank_next s.1.actions ha
        exact ih s1 (by rw [hn]; omega)

/-- `class_driver_device_handle` returns or aborts for every slot, every world
and every sequence of host results. -/
theorem class_driver_device_handle_returns (o : Oracle) (p : Nat) (s : DevState) :
    ∃ r, class_driver_device_handle o p s = some r :=
  device_handle_loop_returns o p 4 s (drainRank_le _)

/-! ## Theorems: address uniqueness -/

/-- Overwriting one slot keeps addresses unique when the new slot keeps the
address, has address zero, or has an address no slot holds. -/
theorem addrUnique_set (devs : List usb_device_t) (i : Nat) (d x : usb_device_t)
    (hu : AddrUnique devs) (hd : devs[i]? = some d)
    (hx : x.dev_addr = d.dev_addr ∨ x.dev_addr = 0 ∨ ∀ y ∈ devs, y.dev_addr ≠ x.dev_addr) :
    AddrUnique (devs.set i x) := by
  intro j k a b hj hk hjk ha
  rw [List.getElem?_set] at hj hk
  by_cases hij : i = j
  · subst hij
    have hik : ¬ i = k := hjk
    simp only [hik, if_false] at hk
    simp only [if_true] at hj
    split at hj
    · cases hj
      rcases hx with hx | hx | hx
      · rw [hx]
        exact hu i k d b hd hk hjk (by rw [← hx]; exact ha)
      · exact absurd hx ha
      · exact fun e => hx b (List.getElem?_mem hk) e.symm
    · cases hj
  · simp only [hij, if_false] at hj
    by_cases hik : i = k
    · subst hik
      simp only [if_true] at hk
      split at hk
      · cases hk
        rcases hx with hx | hx | hx
        · rw [hx]
          exact hu j i a d hj hd hjk ha
        · rw [hx]; exact ha
        · exact hx a (List.getElem?_mem hj)
      · cases hk
    · simp only [hik, if_false] at hk
      exact hu j k a b hj hk hjk ha

theorem allocate_slot_eq_set (a : Nat) :
    ∀ devs ds : List usb_device_t, allocate_slot devs a = some ds →
      ∃ (i : Nat) (d : usb_device_t), devs[i]? = some d ∧
        ds = devs.set i { d with dev_addr := a, actions := d.actions ||| ACTION_OPEN_DEV } := by
  intro devs
  induction devs with
  | nil => intro ds h; simp [allocate_slot] at h
  | cons d rest ih =>
    intro ds h
    by_cases hd : d.dev_addr = 0
    · simp only [allocate_slot, if_pos hd, Option.some.injEq] at h
      exact ⟨0, d, by simp, by simp [← h]⟩
    · simp only [allocate_slot, hd, if_false] at h
      cases hr : allocate_slot rest a with
      | none => simp [hr] at h
      | some r =>
        simp [hr] at h
        obtain ⟨i, e, he, hset⟩ := ih r hr
        exact ⟨i + 1, e, by simpa using he, by simp [← h, hset]⟩

theorem mark_gone_eq_set (hdl : Nat) :
    ∀ devs ds : List usb_device_t, mark_gone devs hdl = some ds →
      ∃ (i : Nat) (d : usb_device_t), devs[i]? = some d ∧
        ds = devs.set i { d with actions := ACTION_CLOSE_DEV } := by
  intro devs
  induction devs with
  | nil => intro ds h; simp [mark_gone] at h
  | cons d rest ih =>
    intro ds h
    by_cases hd : d.dev_hdl = hdl
    · simp only [mark_gone, if_pos hd, Option.some.injEq] at h
      exact ⟨0, d, by simp, by simp [← h]⟩
    · simp only [mark_gone, hd, if_false] at h
      cases hr : mark_gone rest hdl with
      | none => simp [hr] at h
      | some r =>
        simp [hr] at h
        obtain ⟨i, e, he, hset⟩ := ih r hr
        exact ⟨i + 1, e, by simpa using he, by simp [← h, hset]⟩

theorem addrUnique_discover_one (T : class_driver_t) (a : Nat) (hu : AddrUnique T.device) :
    AddrUnique (discover_one T a).device := by
  unfold discover_one
  by_cases h0 : a = 0
  · simpa only [h0, if_true] using hu
  · by_cases hh : already_handled T.device a = true
    · simpa only [h0, hh, if_true, if_false] using hu
    · cases hal : allocate_slot T.device a with
      | none => simpa only [h0, hh, if_false] using hu
      | some ds =>
        simp only [h0, hh, if_false]
        obtain ⟨i, d, hd, rfl⟩ := allocate_slot_eq_set a T.device ds hal
        refine addrUnique_set T.device i d _ hu hd (Or.inr (Or.inr ?_))
        intro y hy hya
        exact hh ((already_handled_iff T.device a).2 ⟨y, hy, hya⟩)

theorem addrUnique_discovery_pass (l : List Nat) :
    ∀ T : class_driver_t, AddrUnique T.device → AddrUnique (discovery_pass T l).device := by
  induction l with
  | nil => intro T h; exact h
  | cons b bs ih => intro T h; exact ih (discover_one T b) (addrUnique_discover_one T b h)

theorem addrUnique_client_event_cb (msg : usb_host_client_event_msg_t)
    (s : class_driver_t × World) (hu : AddrUnique s.1.device) :
    AddrUnique (client_event_cb msg s).1.device := by
  unfold client_event_cb
  cases msg with
  | USB_HOST_CLIENT_EVENT_NEW_DEV a => exact hu
  | USB_HOST_CLIENT_EVENT_DEV_GONE hdl =>
    simp only
    cases hm : mark_gone s.1.device hdl with
    | none => exact hu
    | some ds =>
      obtain ⟨i, d, hd, rfl⟩ := mark_gone_eq_set hdl s.1.device ds hm
      exact addrUnique_set s.1.device i d _ hu hd (Or.inl rfl)


theorem addrKept_trans (a b c : DevState) (h1 : AddrKept a b) (h2 : AddrKept b c) :
    AddrKept a c := by
  unfold AddrKept at *
  rcases h2 with h2 | h2
  · rw [h2]; exact h1
  · exact Or.inr h2

theorem addrKept_open (o : Oracle) (s : DevState) : AddrKept s (action_open_dev o s).state := by
  unfold action_open_dev AddrKept
  simp only
  split
  · exact Or.inl rfl
  · split <;> exact Or.inl rfl

theorem addrKept_get_info (o : Oracle) (s : DevState) :
    AddrKept s (action_get_info o s).state := by
  unfold action_get_info AddrKept
  simp only
  split
  · exact Or.inl rfl
  · split <;> exact Or.inl rfl

theorem addrKept_get_config_desc (o : Oracle) (s : DevState) :
    AddrKept s (action_get_config_desc o s).state := by
  unfold action_get_config_desc AddrKept
  simp only
  split
  · exact Or.inl rfl
  · split <;> exact Or.inl rfl

theorem addrKept_claim_interface (o : Oracle) (p : Nat) (s : DevState) :
    AddrKept s (action_claim_interface o p s).state := by
  unfold action_claim_interface AddrKept
  simp only
  split
  · exact Or.inl rfl
  · split
    · exact Or.inl rfl
    · split
      · exact Or.inl rfl
      · split <;> exact Or.inl rfl

theorem close_free_transfer_slot (s : DevState) :
    (close_free_transfer s).1 = { s.1 with midi_in_transfer := none } := by
  unfold close_free_transfer
  split
  · rfl
  · rename_i h; rw [← h]

theorem addrKept_close (o : Oracle) (s : DevState) :
    AddrKept s (action_close_dev o s).state := by
  unfold action_close_dev AddrKept
  simp only
  split
  · split
    · left
      show (close_free_transfer _).1.dev_addr = _
      rw [close_free_transfer_slot]
    · exact Or.inr rfl
  · exact Or.inr rfl

/-- A drain keeps the address of the slot or resets it to zero. -/
theorem addrKept_device_handle (o : Oracle) (p : Nat) (s : DevState) (r : Outcome DevState)
    (h : class_driver_device_handle o p s = some r) : AddrKept s r.state :=
  device_handle_loop_rel AddrKept (fun _ => Or.inl rfl) addrKept_trans o p
    (fun _ => Or.inl rfl) (addrKept_open o) (addrKept_get_info o)
    (addrKept_get_config_desc o) (addrKept_claim_interface o p) (addrKept_close o) 4 s r h

/-- C2: address uniqueness is an invariant of the reachable tables.  Starting
from the all-zero table, after any sequence of discovery passes (any address
list of at most 8 entries), drains of one slot by
`class_driver_device_handle` and disconnect notifications by
`client_event_cb`, no two distinct slots hold the same non-zero `dev_addr`. -/
theorem reachable_addr_unique (T : class_driver_t) (h : Reachable T) :
    AddrUnique T.device := by
  induction h with
  | init c m =>
    intro i j a b hi _ _ ha
    have hmem := List.getElem?_mem hi
    have : a.dev_addr = 0 := by
      rw [List.eq_of_mem_replicate hmem]
    exact absurd this ha
  | discovery T l _ _ ih => exact addrUnique_discovery_pass l T ih
  | drain T o i d w s1 _ hd hrun ih =>
    have hk := addrKept_device_handle o i (d, w) (.ok s1) hrun
    refine addrUnique_set T.device i d s1.1 ih hd ?_
    rcases hk with hk | hk
    · exact Or.inl hk
    · exact Or.inr (Or.inl hk)
  | disconnect T hdl w _ ih =>
    exact addrUnique_client_event_cb _ (T, w) ih

/-- C2, witness: discovery of the addresses 5 and 6, the drain of slot 0 on a
host where every call succeeds, then the departure of that device. -/
theorem reachable_addr_unique_witness :
    Reachable exDeparted ∧ AddrUnique exDeparted.device :=
  have hr : Reachable exDeparted :=
    Reachable.disconnect _ 7 World.start
      (Reachable.drain exDiscovered hostOk 0
        { client_hdl := 11, dev_addr := 5, dev_hdl := 0, actions := ACTION_OPEN_DEV,
          midi_in_transfer := none }
        World.start (exStreamingSlot, exStreamingWorld)
        (Reachable.discovery _ _ (Reachable.init 11 12) (by decide)) (by decide) (by decide))
  ⟨hr, reachable_addr_unique exDeparted hr⟩

/-! ## Theorems: lifecycle state machine -/

theorem entered_append (a b : List Event) : entered (a ++ b) = entered a ++ entered b := by
  simp [entered]

theorem entersInOrder_andThen (s : DevState) (x : Outcome DevState)
    (f : DevState → Outcome DevState) (l1 l2 : List Handler)
    (hx : EntersInOrder s x l1) (hf : ∀ s1, EntersInOrder s1 (f s1) l2) :
    EntersInOrder s (x.andThen f) (l1 ++ l2) := by
  obtain ⟨d1, he1, hp1, hall1⟩ := hx
  cases x with
  | abort s1 =>
    refine ⟨d1, he1, ?_, ?_⟩
    · obtain ⟨t, rfl⟩ := hp1
      exact ⟨t ++ l2, by simp⟩
    · intro s2 h; simp [Outcome.andThen] at h
  | ok s1 =>
    obtain ⟨d2, he2, hp2, hall2⟩ := hf s1
    have hd1 : d1 = l1 := hall1 s1 rfl
    subst hd1
    refine ⟨d1 ++ d2, ?_, ?_, ?_⟩
    · show entered (f s1).state.2.trace = _
      rw [he2]
      simp only [Outcome.state] at he1
      rw [he1, List.append_assoc]
    · obtain ⟨t, rfl⟩ := hp2
      exact ⟨t, by simp⟩
    · intro s2 h
      rw [hall2 s2 h]

theorem entersInOrder_whenSet (a bit : Nat) (f : DevState → Outcome DevState) (H : Handler)
    (hf : ∀ s, entered (f s).state.2.trace = entered s.2.trace ++ [H]) (s : DevState) :
    EntersInOrder s (whenSet a bit f s) (if a &&& bit ≠ 0 then [H] else []) := by
  unfold whenSet
  by_cases hb : a &&& bit = 0
  · simp only [hb, ne_eq, not_true_eq_false, if_false]
    exact ⟨[], by simp [Outcome.state], List.prefix_refl _, fun _ _ => rfl⟩
  · simp only [ne_eq, hb, not_false_eq_true, if_true]
    exact ⟨[H], hf s, List.prefix_refl _, fun _ _ => rfl⟩

theorem entered_open (o : Oracle) (s : DevState) :
    entered (action_open_dev o s).state.2.trace
      = entered s.2.trace ++ [Handler.action_open_dev] := by
  unfold action_open_dev
  simp only
  split
  · simp [Outcome.state, World.emit, entered, Event.handler?]
  · split <;> simp [Outcome.state, World.emit, World.called, entered, Event.handler?]

theorem entered_get_info (o : Oracle) (s : DevState) :
    entered (action_get_info o s).state.2.trace
      = entered s.2.trace ++ [Handler.action_get_info] := by
  unfold action_get_info
  simp only
  split
  · simp [Outcome.state, World.emit, entered, Event.handler?]
  · split <;> simp [Outcome.state, World.emit, World.called, entered, Event.handler?]

theorem entered_get_config_desc (o : Oracle) (s : DevState) :
    entered (action_get_config_desc o s).state.2.trace
      = entered s.2.trace ++ [Handler.action_get_config_desc] := by
  unfold action_get_config_desc
  simp only
  split
  · simp [Outcome.state, World.emit, entered, Event.handler?]
  · split <;> simp [Outcome.state, World.emit, World.called, entered, Event.handler?]

theorem entered_claim_interface (o : Oracle) (p : Nat) (s : DevState) :
    entered (action_claim_interface o p s).state.2.trace
      = entered s.2.trace ++ [Handler.action_claim_interface] := by
  unfold action_claim_interface
  simp only
  split
  · simp [Outcome.state, World.emit, entered, Event.handler?]
  · split
    · simp [Outcome.state, World.emit, World.called, entered, Event.handler?]
    · split
      · simp [Outcome.state, World.emit, World.called, entered, Event.handler?]
      · split <;> simp [Outcome.state, World.emit, World.called, entered, Event.handler?]

theorem entered_close_free_transfer (s : DevState) :
    entered (close_free_transfer s).2.trace = entered s.2.trace := by
  unfold close_free_transfer
  split
  · simp [World.called, entered, Event.handler?]
  · rfl

theorem entered_close (o : Oracle) (s : DevState) :
    entered (action_close_dev o s).state.2.trace
      = entered s.2.trace ++ [Handler.action_close_dev] := by
  have hf := entered_close_free_transfer (s.1, s.2.emit (.enter .action_close_dev))
  have he : entered (s.2.emit (.enter .action_close_dev)).trace
      = entered s.2.trace ++ [Handler.action_close_dev] := by
    simp [World.emit, entered, Event.handler?]
  unfold action_close_dev
  simp only
  split
  · split
    · simp only [Outcome.state, World.called, entered_append]
      rw [hf, he]
      simp [entered, Event.handler?]
    · simp only [Outcome.state, World.called, entered_append]
      rw [hf, he]
      simp [entered, Event.handler?]
  · simp only [Outcome.state]
    rw [hf, he]

/-- The handlers of a snapshot run in the order Open, FetchInfo, FetchConfig,
ClaimInterface, Close; an abort cuts the sequence short. -/
theorem handle_snapshot_order (o : Oracle) (p a : Nat) (s : DevState) :
    EntersInOrder s (handle_snapshot o p a s) (snapshotHandlers a) := by
  unfold handle_snapshot snapshotHandlers
  have e1 := entersInOrder_whenSet a ACTION_OPEN_DEV _ _ (entered_open o)
  have e2 := entersInOrder_whenSet a ACTION_GET_DEV_INFO _ _ (entered_get_info o)
  have e3 := entersInOrder_whenSet a ACTION_GET_CONFIG_DESC _ _ (entered_get_config_desc o)
  have e4 := entersInOrder_whenSet a ACTION_CLAIM_INTERFACE _ _ (entered_claim_interface o p)
  have e5 := entersInOrder_whenSet a ACTION_CLOSE_DEV _ _ (entered_close o)
  have h := entersInOrder_andThen s _ _ _ _
    (entersInOrder_andThen s _ _ _ _
      (entersInOrder_andThen s _ _ _ _
        (entersInOrder_andThen s _ _ _ _ (e1 s) e2) e3) e4) e5
  simpa only [List.append_assoc] using h

theorem andThen_pure {σ : Type} (x : Outcome σ) : x.andThen Outcome.ok = x := by
  cases x <;> rfl

theorem ok_andThen {σ : Type} (s : σ) (f : σ → Outcome σ) : (Outcome.ok s).andThen f = f s :=
  rfl

theorem whenSet_unset (a bit : Nat) (f : DevState → Outcome DevState) (h : a &&& bit = 0) :
    whenSet a bit f = Outcome.ok := by
  funext s
  simp [whenSet, h]

theorem whenSet_set (a bit : Nat) (f : DevState → Outcome DevState) (h : a &&& bit ≠ 0) :
    whenSet a bit f = f := by
  funext s
  simp [whenSet, h]

theorem handle_snapshot_open (o : Oracle) (p : Nat) (s : DevState) :
    handle_snapshot o p ACTION_OPEN_DEV s = action_open_dev o s := by
  unfold handle_snapshot
  rw [whenSet_set _ _ _ (by decide), whenSet_unset _ _ _ (by decide),
    whenSet_unset _ _ _ (by decide), whenSet_unset _ _ _ (by decide),
    whenSet_unset _ _ _ (by decide)]
  simp only [andThen_pure]

theorem handle_snapshot_get_info (o : Oracle) (p : Nat) (s : DevState) :
    handle_snapshot o p ACTION_GET_DEV_INFO s = action_get_info o s := by
  unfold handle_snapshot
  rw [whenSet_unset _ ACTION_OPEN_DEV _ (by decide), whenSet_set _ _ _ (by decide),
    whenSet_unset _ _ _ (by decide), whenSet_unset _ _ _ (by decide),
    whenSet_unset _ _ _ (by decide)]
  simp only [andThen_pure, ok_andThen]

theorem handle_snapshot_get_config_desc (o : Oracle) (p : Nat) (s : DevState) :
    handle_snapshot o p ACTION_GET_CONFIG_DESC s = action_get_config_desc o s := by
  unfold handle_snapshot
  rw [whenSet_unset _ ACTION_OPEN_DEV _ (by decide),
    whenSet_unset _ ACTION_GET_DEV_INFO _ (by decide), whenSet_set _ _ _ (by decide),
    whenSet_unset _ _ _ (by decide), whenSet_unset _ _ _ (by decide)]
  simp only [andThen_pure, ok_andThen]

theorem handle_snapshot_claim_interface (o : Oracle) (p : Nat) (s : DevState) :
    handle_snapshot o p ACTION_CLAIM_INTERFACE s = action_claim_interface o p s := by
  unfold handle_snapshot
  rw [whenSet_unset _ ACTION_OPEN_DEV _ (by decide),
    whenSet_unset _ ACTION_GET_DEV_INFO _ (by decide),
    whenSet_unset _ ACTION_GET_CONFIG_DESC _ (by decide), whenSet_set _ _ _ (by decide),
    whenSet_unset _ _ _ (by decide)]
  simp only [andThen_pure, ok_andThen]

theorem handle_snapshot_close (o : Oracle) (p : Nat) (s : DevState) :
    handle_snapshot o p ACTION_CLOSE_DEV s = action_close_dev o s := by
  unfold handle_snapshot
  rw [whenSet_unset _ ACTION_OPEN_DEV _ (by decide),
    whenSet_unset _ ACTION_GET_DEV_INFO _ (by decide),
    whenSet_unset _ ACTION_GET_CONFIG_DESC _ (by decide),
    whenSet_unset _ ACTION_CLAIM_INTERFACE _ (by decide), whenSet_set _ _ _ (by decide)]
  simp only [ok_andThen]

theorem device_handle_loop_succ (o : Oracle) (p f : Nat) (s : DevState)
    (h : s.1.actions ≠ 0) :
    class_driver_device_handle_loop o p (f + 1) s
      = match handle_snapshot o p s.1.actions ({ s.1 with actions := 0 }, s.2) with
        | .ok s1 => class_driver_device_handle_loop o p f s1
        | .abort s1 => some (.abort s1) := by
  conv => lhs; unfold class_driver_device_handle_loop
  simp only [ne_eq, h, not_false_eq_true, if_true]

theorem device_handle_loop_done (o : Oracle) (p f : Nat) (s : DevState)
    (h : s.1.actions = 0) :
    class_driver_device_handle_loop o p f s = some (.ok s) := by
  unfold class_driver_device_handle_loop
  simp [h]

theorem action_open_dev_success (o : Oracle) (d : usb_device_t) (w : World)
    (haddr : d.dev_addr ≠ 0) (h : (o w.calls).err = ESP_OK) :
    action_open_dev o (d, w) = .ok
      ({ d with dev_hdl := (o w.calls).out, actions := d.actions ||| ACTION_GET_DEV_INFO },
       { trace := w.trace ++ [.enter .action_open_dev, .device_open d.client_hdl d.dev_addr],
         calls := w.calls + 1 }) := by
  simp [action_open_dev, World.emit, World.called, World.reply, haddr, h]

theorem action_get_info_success (o : Oracle) (d : usb_device_t) (w : World)
    (hhdl : d.dev_hdl ≠ 0) (h : (o w.calls).err = ESP_OK) :
    action_get_info o (d, w) = .ok
      ({ d with actions := d.actions ||| ACTION_GET_CONFIG_DESC },
       { trace := w.trace ++ [.enter .action_get_info, .device_info d.dev_hdl],
         calls := w.calls + 1 }) := by
  simp [action_get_info, World.emit, World.called, World.reply, hhdl, h]

theorem action_get_config_desc_success (o : Oracle) (d : usb_device_t) (w : World)
    (hhdl : d.dev_hdl ≠ 0) (h : (o w.calls).err = ESP_OK) :
    action_get_config_desc o (d, w) = .ok
      ({ d with actions := d.actions ||| ACTION_CLAIM_INTERFACE },
       { trace := w.trace ++
           [.enter .action_get_config_desc, .get_active_config_descriptor d.dev_hdl],
         calls := w.calls + 1 }) := by
  simp [action_get_config_desc, World.emit, World.called, World.reply, hhdl, h]

theorem action_claim_interface_success (o : Oracle) (p : Nat) (d : usb_device_t) (w : World)
    (hhdl : d.dev_hdl ≠ 0) (h0 : (o w.calls).err = ESP_OK)
    (h1 : (o (w.calls + 1)).err = ESP_OK) (h2 : (o (w.calls + 2)).err = ESP_OK) :
    action_claim_interface o p (d, w) = .ok
      ({ d with
          midi_in_transfer := some
            { allocated_transfer (o (w.calls + 1)).out 64 with
              device_handle := d.dev_hdl
              bEndpointAddress := 0x82
              callback := .midi_transfer_cb
              context := p
              num_bytes := 64 } },
       { trace := w.trace ++
           [.enter .action_claim_interface, .interface_claim d.client_hdl d.dev_hdl 3 0,
            .transfer_alloc 64 0, .transfer_submit (o (w.calls + 1)).out],
         calls := w.calls + 3 }) := by
  simp [action_claim_interface, World.emit, World.called, World.reply, hhdl, h0, h1, h2,
    allocated_transfer]

/-- C7: the lifecycle chain.  For a slot with an address, no handle, no
transfer and `actions = ACTION_OPEN_DEV`, when the six host calls succeed (and
the opened handle is not NULL), one call of `class_driver_device_handle`
returns after the host calls device_open(dev_addr), device_info,
get_active_config_descriptor, interface_claim(interface 3), transfer_alloc(64),
transfer_submit, in this order, with `actions = 0`, `dev_hdl` the opened handle
and `midi_in_transfer` the allocated transfer configured with endpoint 0x82,
`num_bytes` 64, callback `midi_transfer_cb` and the slot as context.  In every
snapshot the handlers of the set bits are entered in the order Open, FetchInfo,
FetchConfig, ClaimInterface, Close: all of them when the snapshot is not
aborted, an initial segment of them otherwise. -/
theorem lifecycle_chain (o : Oracle) (p : Nat) :
    (∀ (d : usb_device_t) (w : World),
      d.dev_addr ≠ 0 → d.dev_hdl = 0 → d.midi_in_transfer = none →
      d.actions = ACTION_OPEN_DEV →
      (∀ n, n < 6 → (o (w.calls + n)).err = ESP_OK) → (o w.calls).out ≠ 0 →
      class_driver_device_handle o p (d, w) = some (.ok
        ({ d with
            dev_hdl := (o w.calls).out
            actions := 0
            midi_in_transfer := some
              { allocated_transfer (o (w.calls + 4)).out 64 with
                device_handle := (o w.calls).out
                bEndpointAddress := 0x82
                callback := .midi_transfer_cb
                context := p
                num_bytes := 64 } },
         { trace := w.trace ++
             [ .enter .action_open_dev, .device_open d.client_hdl d.dev_addr,
               .enter .action_get_info, .device_info (o w.calls).out,
               .enter .action_get_config_desc,
               .get_active_config_descriptor (o w.calls).out,
               .enter .action_claim_interface,
               .interface_claim d.client_hdl (o w.calls).out 3 0,
               .transfer_alloc 64 0, .transfer_submit (o (w.calls + 4)).out ]
           calls := w.calls + 6 }))) ∧
    (∀ (a : Nat) (s : DevState), ∃ done : List Handler,
      entered (handle_snapshot o p a s).state.2.trace = entered s.2.trace ++ done ∧
      done <+: snapshotHandlers a ∧
      ∀ s1, handle_snapshot o p a s = .ok s1 → done = snapshotHandlers a) := by
  refine ⟨?_, fun a s => handle_snapshot_order o p a s⟩
  intro d w haddr hhdl htr hact hok hopen
  have h0 : (o w.calls).err = ESP_OK := hok 0 (by omega)
  have h1 : (o (w.calls + 1)).err = ESP_OK := hok 1 (by omega)
  have h2 : (o (w.calls + 1 + 1)).err = ESP_OK := hok 2 (by omega)
  have h3 : (o (w.calls + 1 + 1 + 1)).err = ESP_OK := hok 3 (by omega)
  have h4 : (o (w.calls + 1 + 1 + 1 + 1)).err = ESP_OK := hok 4 (by omega)
  have h5 : (o (w.calls + 1 + 1 + 1 + 2)).err = ESP_OK := hok 5 (by omega)
  obtain ⟨c, addr, hdl, act, tr⟩ := d
  obtain ⟨trace, calls⟩ := w
  simp only at haddr hhdl htr hact h0 h1 h2 h3 h4 h5 hopen
  subst hhdl htr hact
  have e1 : 0 ||| ACTION_GET_DEV_INFO = ACTION_GET_DEV_INFO := by decide
  have e2 : 0 ||| ACTION_GET_CONFIG_DESC = ACTION_GET_CONFIG_DESC := by decide
  have e3 : 0 ||| ACTION_CLAIM_INTERFACE = ACTION_CLAIM_INTERFACE := by decide
  have n1 : ACTION_OPEN_DEV ≠ 0 := by decide
  have n2 : ACTION_GET_DEV_INFO ≠ 0 := by decide
  have n3 : ACTION_GET_CONFIG_DESC ≠ 0 := by decide
  have n4 : ACTION_CLAIM_INTERFACE ≠ 0 := by decide
  have r1 := action_open_dev_success o
    { client_hdl := c, dev_addr := addr, dev_hdl := 0, actions := 0, midi_in_transfer := none }
    { trace := trace, calls := calls } haddr h0
  have r2 := action_get_info_success o
    { client_hdl := c, dev_addr := addr, dev_hdl := (o calls).out, actions := 0,
      midi_in_transfer := none }
    { trace := trace ++ [.enter .action_open_dev, .device_open c addr], calls := calls + 1 }
    hopen h1
  have r3 := action_get_config_desc_success o
    { client_hdl := c, dev_addr := addr, dev_hdl := (o calls).out, actions := 0,
      midi_in_transfer := none }
    { trace := trace ++ [.enter .action_open_dev, .device_open c addr] ++
        [.enter .action_get_info, .device_info (o calls).out],
      calls := calls + 1 + 1 }
    hopen h2
  have r4 := action_claim_interface_success o p
    { client_hdl := c, dev_addr := addr, dev_hdl := (o calls).out, actions := 0,
      midi_in_transfer := none }
    { trace := trace ++ [.enter .action_open_dev, .device_open c addr] ++
        [.enter .action_get_info, .device_info (o calls).out] ++
        [.enter .action_get_config_desc, .get_active_config_descriptor (o calls).out],
      calls := calls + 1 + 1 + 1 }
    hopen h3 h4 h5
  simp only [e1, e2, e3] at r1 r2 r3
  unfold class_driver_device_handle
  rw [device_handle_loop_succ o p 3 _ n1]
  simp only [handle_snapshot_open, r1]
  rw [device_handle_loop_succ o p 2 _ n2]
  simp only [handle_snapshot_get_info, r2]
  rw [device_handle_loop_succ o p 1 _ n3]
  simp only [handle_snapshot_get_config_desc, r3]
  rw [device_handle_loop_succ o p 0 _ n4]
  simp only [handle_snapshot_claim_interface, r4]
  rw [device_handle_loop_done o p 0 _ rfl]
  simp [Nat.add_assoc]

/-- C7, witness: on a host where every call succeeds, the slot of the device at
address 5 goes from Open to streaming in one call. -/
theorem lifecycle_chain_witness :
    class_driver_device_handle hostOk 0
      ({ client_hdl := 11, dev_addr := 5, dev_hdl := 0, actions := ACTION_OPEN_DEV,
         midi_in_transfer := none }, World.start)
      = some (.ok (exStreamingSlot, exStreamingWorld)) :=
  (lifecycle_chain hostOk 0).1
    { client_hdl := 11, dev_addr := 5, dev_hdl := 0, actions := ACTION_OPEN_DEV,
      midi_in_transfer := none }
    World.start (by decide) rfl rfl rfl (fun _ _ => rfl) (by decide)

/-! ## Theorems: Close -/

theorem action_close_dev_unoccupied (o : Oracle) (s : DevState) (h : s.1.unoccupied) :
    action_close_dev o s = .ok (s.1, s.2.emit (.enter .action_close_dev)) := by
  obtain ⟨⟨c, addr, hdl, act, tr⟩, w⟩ := s
  obtain ⟨h1, h2, h3, h4⟩ := h
  simp only at h1 h2 h3 h4
  subst h1 h2 h3 h4
  simp [action_close_dev, close_free_transfer]

/-- The calls of the Close handler: it frees the transfer the slot holds, then
closes the handle the slot holds. -/
theorem action_close_dev_trace (o : Oracle) (s : DevState) :
    (action_close_dev o s).state.2.trace
      = s.2.trace ++ .enter .action_close_dev ::
          ((match s.1.midi_in_transfer with
            | some t => [Event.transfer_free t.ptr]
            | none => []) ++
           (if s.1.dev_hdl ≠ 0 then [Event.device_close s.1.client_hdl s.1.dev_hdl] else [])) := by
  obtain ⟨⟨c, addr, hdl, act, tr⟩, w⟩ := s
  cases tr with
  | none =>
    by_cases hh : hdl = 0
    · simp [action_close_dev, close_free_transfer, hh, Outcome.state, World.emit]
    · by_cases he : (o w.calls).err = ESP_OK <;>
        simp [action_close_dev, close_free_transfer, hh, he, Outcome.state, World.emit,
          World.called, World.reply]
  | some t =>
    by_cases hh : hdl = 0
    · simp [action_close_dev, close_free_transfer, hh, Outcome.state, World.emit, World.called]
    · by_cases he : (o (w.calls + 1)).err = ESP_OK <;>
        simp [action_close_dev, close_free_transfer, hh, he, Outcome.state, World.emit,
          World.called, World.reply]

/-- C9: Close is idempotent.  On an unoccupied slot `action_close_dev` returns
the slot unchanged and the world with only the entry mark added: no
transfer_free, no device_close, no host call counted.  For every slot, a run
that returns leaves the slot unoccupied, so that a second run is such a no-op;
and two runs in a row free exactly the transfer the slot held, if any, once,
and close exactly the handle the slot held, if any, once. -/
theorem close_idempotent (o : Oracle) (s : DevState) :
    (s.1.unoccupied →
      action_close_dev o s = .ok (s.1, s.2.emit (.enter .action_close_dev))) ∧
    (∀ s1, action_close_dev o s = .ok s1 →
      s1.1.unoccupied ∧
      action_close_dev o s1 = .ok (s1.1, s1.2.emit (.enter .action_close_dev))) ∧
    freed ((action_close_dev o s).andThen (action_close_dev o)).state.2.trace
      = freed s.2.trace ++
          (match s.1.midi_in_transfer with
           | some t => [t.ptr]
           | none => []) ∧
    closed ((action_close_dev o s).andThen (action_close_dev o)).state.2.trace
      = closed s.2.trace ++ (if s.1.dev_hdl ≠ 0 then [s.1.dev_hdl] else []) := by
  have hsecond : ∀ s1, action_close_dev o s = .ok s1 →
      s1.1.unoccupied ∧
      action_close_dev o s1 = .ok (s1.1, s1.2.emit (.enter .action_close_dev)) := by
    intro s1 h1
    have hu : s1.1.unoccupied := action_close_dev_ok o s s1 h1
    exact ⟨hu, action_close_dev_unoccupied o s1 hu⟩
  have htrace : ((action_close_dev o s).andThen (action_close_dev o)).state.2.trace
      = (action_close_dev o s).state.2.trace ∨
      ((action_close_dev o s).andThen (action_close_dev o)).state.2.trace
      = (action_close_dev o s).state.2.trace ++ [.enter .action_close_dev] := by
    cases h1 : action_close_dev o s with
    | abort s1 => left; rfl
    | ok s1 =>
      right
      rw [ok_andThen, (hsecond s1 h1).2]
      rfl
  have hfirst := action_close_dev_trace o s
  refine ⟨action_close_dev_unoccupied o s, hsecond, ?_, ?_⟩
  · have hf : freed (action_close_dev o s).state.2.trace
        = freed s.2.trace ++
          (match s.1.midi_in_transfer with
           | some t => [t.ptr]
           | none => []) := by
      rw [hfirst]
      cases s.1.midi_in_transfer <;> by_cases hh : s.1.dev_hdl = 0 <;>
        simp [freed, Event.free?, hh]
    rcases htrace with h | h
    · rw [h, hf]
    · rw [h]
      simp only [freed, List.filterMap_append] at hf ⊢
      rw [hf]
      simp [Event.free?]
  · have hc : closed (action_close_dev o s).state.2.trace
        = closed s.2.trace ++ (if s.1.dev_hdl ≠ 0 then [s.1.dev_hdl] else []) := by
      rw [hfirst]
      cases s.1.midi_in_transfer <;> by_cases hh : s.1.dev_hdl = 0 <;>
        simp [closed, Event.close?, hh]
    rcases htrace with h | h
    · rw [h, hc]
    · rw [h]
      simp only [closed, List.filterMap_append] at hc ⊢
      rw [hc]
      simp [Event.close?]

/-- C9, witness: Close on the unoccupied slot of `exTable` is a no-op, and on
the streaming slot two runs free the transfer `7` once and close the handle
`7` once. -/
theorem close_idempotent_witness :
    action_close_dev hostOk
        ({ client_hdl := 11, dev_addr := 0, dev_hdl := 0, actions := 0,
           midi_in_transfer := none }, World.start)
      = .ok ({ client_hdl := 11, dev_addr := 0, dev_hdl := 0, actions := 0,
               midi_in_transfer := none }, World.start.emit (.enter .action_close_dev)) ∧
    freed ((action_close_dev hostOk (exStreamingSlot, World.start)).andThen
        (action_close_dev hostOk)).state.2.trace = [7] ∧
    closed ((action_close_dev hostOk (exStreamingSlot, World.start)).andThen
        (action_close_dev hostOk)).state.2.trace = [7] :=
  ⟨(close_idempotent hostOk
      ({ client_hdl := 11, dev_addr := 0, dev_hdl := 0, actions := 0,
         midi_in_transfer := none }, World.start)).1 ⟨rfl, rfl, rfl, rfl⟩,
   (close_idempotent hostOk (exStreamingSlot, World.start)).2.2.1,
   (close_idempotent hostOk (exStreamingSlot, World.start)).2.2.2⟩

/-! ## Theorems: ClaimInterface failure -/

/-- A drain whose only pending action is ClaimInterface runs the handler once
and returns with what the handler left, since the handler adds no action. -/
theorem device_handle_claim_only (o : Oracle) (p : Nat) (d : usb_device_t) (w : World)
    (s1 : DevState) (hact : d.actions = ACTION_CLAIM_INTERFACE)
    (h : action_claim_interface o p ({ d with actions := 0 }, w) = .ok s1) :
    class_driver_device_handle o p (d, w) = some (.ok s1) := by
  have hz : s1.1.actions = 0 := by
    have := action_claim_interface_actions o p ({ d with actions := 0 }, w)
    rw [h] at this
    exact this
  unfold class_driver_device_handle
  rw [device_handle_loop_succ o p 3 (d, w) (by rw [hact]; decide)]
  simp only [hact, handle_snapshot_claim_interface, h]
  exact device_handle_loop_done o p 3 s1 hz

/-- C8: a failure inside `action_claim_interface` is abandoned without retry.
For a slot with a handle and no transfer, when interface_claim fails, or
transfer_alloc fails after a successful claim, or transfer_submit fails after a
successful claim and allocation, the handler returns with the slot as it was
(`midi_in_transfer = NULL`, `dev_hdl`, `dev_addr` and `actions` unchanged); the
trace shows each of the three calls at most once and none of them after the
failing one (only the release of the interface and the free of the transfer
follow).  The drain of a slot whose pending action is ClaimInterface then
returns with `actions = 0` and no transfer. -/
theorem claim_interface_failure (o : Oracle) (p : Nat) (d : usb_device_t) (w : World)
    (hhdl : d.dev_hdl ≠ 0) (htr : d.midi_in_transfer = none) :
    ((o w.calls).err ≠ ESP_OK →
      action_claim_interface o p (d, w) = .ok
        (d, { trace := w.trace ++
                [.enter .action_claim_interface,
                 .interface_claim d.client_hdl d.dev_hdl 3 0],
              calls := w.calls + 1 })) ∧
    ((o w.calls).err = ESP_OK → (o (w.calls + 1)).err ≠ ESP_OK →
      action_claim_interface o p (d, w) = .ok
        (d, { trace := w.trace ++
                [.enter .action_claim_interface,
                 .interface_claim d.client_hdl d.dev_hdl 3 0,
                 .transfer_alloc 64 0,
                 .interface_release d.client_hdl d.dev_hdl 3],
              calls := w.calls + 3 })) ∧
    ((o w.calls).err = ESP_OK → (o (w.calls + 1)).err = ESP_OK →
      (o (w.calls + 2)).err ≠ ESP_OK →
      action_claim_interface o p (d, w) = .ok
        (d, { trace := w.trace ++
                [.enter .action_claim_interface,
                 .interface_claim d.client_hdl d.dev_hdl 3 0,
                 .transfer_alloc 64 0,
                 .transfer_submit (o (w.calls + 1)).out,
                 .transfer_free (o (w.calls + 1)).out,
                 .interface_release d.client_hdl d.dev_hdl 3],
              calls := w.calls + 5 })) ∧
    (d.actions = ACTION_CLAIM_INTERFACE →
      ((o w.calls).err ≠ ESP_OK ∨
       ((o w.calls).err = ESP_OK ∧ (o (w.calls + 1)).err ≠ ESP_OK) ∨
       ((o w.calls).err = ESP_OK ∧ (o (w.calls + 1)).err = ESP_OK ∧
         (o (w.calls + 2)).err ≠ ESP_OK)) →
      ∃ w1, class_driver_device_handle o p (d, w) = some (.ok ({ d with actions := 0 }, w1)) ∧
        action_claim_interface o p ({ d with actions := 0 }, w)
          = .ok ({ d with actions := 0 }, w1)) := by
  have key : ∀ e : usb_device_t, e.dev_hdl ≠ 0 → e.midi_in_transfer = none →
      ((o w.calls).err ≠ ESP_OK →
        action_claim_interface o p (e, w) = .ok
          (e, { trace := w.trace ++
                  [.enter .action_claim_interface,
                   .interface_claim e.client_hdl e.dev_hdl 3 0],
                calls := w.calls + 1 })) ∧
      ((o w.calls).err = ESP_OK → (o (w.calls + 1)).err ≠ ESP_OK →
        action_claim_interface o p (e, w) = .ok
          (e, { trace := w.trace ++
                  [.enter .action_claim_interface,
                   .interface_claim e.client_hdl e.dev_hdl 3 0,
                   .transfer_alloc 64 0,
                   .interface_release e.client_hdl e.dev_hdl 3],
                calls := w.calls + 3 })) ∧
      ((o w.calls).err = ESP_OK → (o (w.calls + 1)).err = ESP_OK →
        (o (w.calls + 2)).err ≠ ESP_OK →
        action_claim_interface o p (e, w) = .ok
          (e, { trace := w.trace ++
                  [.enter .action_claim_interface,
                   .interface_claim e.client_hdl e.dev_hdl 3 0,
                   .transfer_alloc 64 0,
                   .transfer_submit (o (w.calls + 1)).out,
                   .transfer_free (o (w.calls + 1)).out,
                   .interface_release e.client_hdl e.dev_hdl 3],
                calls := w.calls + 5 })) := by
    intro e he1 he2
    obtain ⟨c, addr, hdl, act, tr⟩ := e
    simp only at he1 he2
    subst he2
    refine ⟨?_, ?_, ?_⟩
    · intro h0
      simp [action_claim_interface, World.emit, World.called, World.reply, he1, h0]
    · intro h0 h1
      simp [action_claim_interface, World.emit, World.called, World.reply, he1, h0, h1]
    · intro h0 h1 h2
      simp [action_claim_interface, World.emit, World.called, World.reply, he1, h0, h1, h2,
        allocated_transfer]
  obtain ⟨k1, k2, k3⟩ := key d hhdl htr
  refine ⟨k1, k2, k3, ?_⟩
  intro hact hfail
  obtain ⟨z1, z2, z3⟩ := key { d with actions := 0 } hhdl htr
  rcases hfail with h0 | ⟨h0, h1⟩ | ⟨h0, h1, h2⟩
  · exact ⟨_, device_handle_claim_only o p d w _ hact (z1 h0), z1 h0⟩
  · exact ⟨_, device_handle_claim_only o p d w _ hact (z2 h0 h1), z2 h0 h1⟩
  · exact ⟨_, device_handle_claim_only o p d w _ hact (z3 h0 h1 h2), z3 h0 h1 h2⟩

/-- C8, witness: the submit of the first transfer fails (third host call); the
transfer is freed, the interface released, and the drain leaves the slot with
its handle, no transfer and no pending action. -/
theorem claim_interface_failure_witness :
    action_claim_interface (hostFailsAt 2) 1 (exClaimingSlot, World.start) = .ok
      (exClaimingSlot,
       { trace := World.start.trace ++
           [.enter .action_claim_interface,
            .interface_claim exClaimingSlot.client_hdl exClaimingSlot.dev_hdl 3 0,
            .transfer_alloc 64 0,
            .transfer_submit (hostFailsAt 2 (World.start.calls + 1)).out,
            .transfer_free (hostFailsAt 2 (World.start.calls + 1)).out,
            .interface_release exClaimingSlot.client_hdl exClaimingSlot.dev_hdl 3],
         calls := World.start.calls + 5 }) ∧
    ∃ w1, class_driver_device_handle (hostFailsAt 2) 1 (exClaimingSlot, World.start)
        = some (.ok ({ exClaimingSlot with actions := 0 }, w1)) ∧
      action_claim_interface (hostFailsAt 2) 1 ({ exClaimingSlot with actions := 0 }, World.start)
        = .ok ({ exClaimingSlot with actions := 0 }, w1) :=
  ⟨(claim_interface_failure (hostFailsAt 2) 1 exClaimingSlot World.start
      (by decide) rfl).2.2.1 (by decide) (by decide) (by decide),
   (claim_interface_failure (hostFailsAt 2) 1 exClaimingSlot World.start
      (by decide) rfl).2.2.2 rfl (Or.inr (Or.inr ⟨by decide, by decide, by decide⟩))⟩

/-! ## Theorems: Close preempts -/

theorem snapshotHandlers_close_last (a i : Nat)
    (h : (snapshotHandlers a)[i]? = some Handler.action_close_dev) :
    i + 1 = (snapshotHandlers a).length := by
  unfold snapshotHandlers at h ⊢
  by_cases h1 : a &&& ACTION_OPEN_DEV = 0 <;> by_cases h2 : a &&& ACTION_GET_DEV_INFO = 0 <;>
    by_cases h3 : a &&& ACTION_GET_CONFIG_DESC = 0 <;>
    by_cases h4 : a &&& ACTION_CLAIM_INTERFACE = 0 <;>
    by_cases h5 : a &&& ACTION_CLOSE_DEV = 0 <;>
    simp only [h1, h2, h3, h4, h5, ne_eq, not_true_eq_false, not_false_eq_true, if_true,
      if_false, List.nil_append, List.singleton_append, List.append_nil, List.length_cons,
      List.length_nil] at h ⊢ <;>
    rcases i with _ | _ | _ | _ | _ | i <;> simp at h ⊢

/-- In an initial segment of the handlers of a snapshot nothing follows the
Close handler. -/
theorem nothing_after_close (a : Nat) (done l1 l2 : List Handler)
    (hp : done <+: snapshotHandlers a) (hd : done = l1 ++ Handler.action_close_dev :: l2) :
    l2 = [] := by
  obtain ⟨t, ht⟩ := hp
  subst hd
  have hidx : (snapshotHandlers a)[l1.length]? = some Handler.action_close_dev := by
    rw [← ht, List.append_assoc, List.getElem?_append_right (Nat.le_refl _)]
    simp
  have hlen := snapshotHandlers_close_last a l1.length hidx
  rw [← ht] at hlen
  simp only [List.length_append, List.length_cons] at hlen
  have : l2.length = 0 := by omega
  exact List.length_eq_zero.1 this

theorem handle_snapshot_ok_unoccupied (o : Oracle) (p a : Nat) (s s5 : DevState)
    (hclose : a &&& ACTION_CLOSE_DEV ≠ 0) (h : handle_snapshot o p a s = .ok s5) :
    s5.1.unoccupied := by
  unfold handle_snapshot at h
  obtain ⟨s4, _, h5⟩ := andThen_ok _ _ _ h
  rcases whenSet_ok _ _ _ _ _ h5 with ⟨_, hf⟩ | ⟨hb, _⟩
  · exact action_close_dev_ok o s4 s5 hf
  · exact absurd hb hclose

theorem action_close_dev_success (o : Oracle) (s : DevState) (hok : ∀ n, (o n).err = ESP_OK) :
    ∃ s1, action_close_dev o s = .ok s1 := by
  unfold action_close_dev
  simp only
  split
  · rw [if_neg (by simp [World.reply, hok])]
    exact ⟨_, rfl⟩
  · exact ⟨_, rfl⟩

/-- C3, counterexample: with FetchInfo and Close pending on a slot that has an
address and no handle, the call aborts at the `assert` of `action_get_info`;
the Close handler is never entered and the slot keeps its address 5. -/
theorem close_preempts_counterexample :
    exInfoCloseSlot.actions &&& ACTION_CLOSE_DEV ≠ 0 ∧
    class_driver_device_handle hostOk 0 (exInfoCloseSlot, World.start)
      = some (.abort
          ({ client_hdl := 11, dev_addr := 5, dev_hdl := 0, actions := 0,
             midi_in_transfer := none },
           { trace := [.enter .action_get_info], calls := 0 })) ∧
    ¬ ∃ s1, class_driver_device_handle hostOk 0 (exInfoCloseSlot, World.start) = some (.ok s1) ∧
        s1.1.unoccupied := by
  refine ⟨by decide, by decide, ?_⟩
  rintro ⟨s1, h, _⟩
  have habort : class_driver_device_handle hostOk 0 (exInfoCloseSlot, World.start)
      = some (.abort
          ({ client_hdl := 11, dev_addr := 5, dev_hdl := 0, actions := 0,
             midi_in_transfer := none },
           { trace := [.enter .action_get_info], calls := 0 })) := by decide
  rw [habort] at h
  cases h

/-! ## Theorems: lock discipline of the poller -/

theorem blockingCallsUnderLock_append (a b : List Event) :
    ∀ h : Bool, blockingCallsUnderLock h (a ++ b)
      = (blockingCallsUnderLock h a).bind (fun h1 => blockingCallsUnderLock h1 b) := by
  induction a with
  | nil => intro h; rfl
  | cons e es ih =>
    intro h
    cases e <;> cases h <;> simp [blockingCallsUnderLock, ih, Event.isBlockingHostCall]

theorem scans_refl (h : Bool) (w : World) : Scans h h w w :=
  ⟨[], by simp, rfl⟩

theorem scans_trans (h1 h2 h3 : Bool) (w1 w2 w3 : World) (a : Scans h1 h2 w1 w2)
    (b : Scans h2 h3 w2 w3) : Scans h1 h3 w1 w3 := by
  obtain ⟨e1, t1, s1⟩ := a
  obtain ⟨e2, t2, s2⟩ := b
  refine ⟨e1 ++ e2, by rw [t2, t1, List.append_assoc], ?_⟩
  rw [blockingCallsUnderLock_append, s1]
  exact s2

/-- While the lock is held every event but a take or a give is allowed. -/
theorem scans_held (w : World) (e : Event) (h1 : e ≠ .lockTake) (h2 : e ≠ .lockGive) :
    Scans true true w (w.emit e) ∧ Scans true true w (w.called e) := by
  have hs : blockingCallsUnderLock true [e] = some true := by
    cases e <;> simp [blockingCallsUnderLock, Event.isBlockingHostCall] at h1 h2 ⊢
  exact ⟨⟨[e], rfl, hs⟩, ⟨[e], rfl, hs⟩⟩

theorem scans_emit (w : World) (e : Event) (h1 : e ≠ .lockTake) (h2 : e ≠ .lockGive) :
    Scans true true w (w.emit e) := (scans_held w e h1 h2).1

theorem scans_called (w : World) (e : Event) (h1 : e ≠ .lockTake) (h2 : e ≠ .lockGive) :
    Scans true true w (w.called e) := (scans_held w e h1 h2).2

theorem scans_open (o : Oracle) (s : DevState) :
    Scans true true s.2 (action_open_dev o s).state.2 := by
  have a := scans_emit s.2 (.enter .action_open_dev) (by simp) (by simp)
  have b := scans_called (s.2.emit (.enter .action_open_dev))
    (.device_open s.1.client_hdl s.1.dev_addr) (by simp) (by simp)
  unfold action_open_dev
  simp only
  split
  · exact a
  · split <;> exact scans_trans _ _ _ _ _ _ a b

theorem scans_get_info (o : Oracle) (s : DevState) :
    Scans true true s.2 (action_get_info o s).state.2 := by
  have a := scans_emit s.2 (.enter .action_get_info) (by simp) (by simp)
  have b := scans_called (s.2.emit (.enter .action_get_info))
    (.device_info s.1.dev_hdl) (by simp) (by simp)
  unfold action_get_info
  simp only
  split
  · exact a
  · split <;> exact scans_trans _ _ _ _ _ _ a b

theorem scans_get_config_desc (o : Oracle) (s : DevState) :
    Scans true true s.2 (action_get_config_desc o s).state.2 := by
  have a := scans_emit s.2 (.enter .action_get_config_desc) (by simp) (by simp)
  have b := scans_called (s.2.emit (.enter .action_get_config_desc))
    (.get_active_config_descriptor s.1.dev_hdl) (by simp) (by simp)
  unfold action_get_config_desc
  simp only
  split
  · exact a
  · split <;> exact scans_trans _ _ _ _ _ _ a b

theorem scans_claim_interface (o : Oracle) (p : Nat) (s : DevState) :
    Scans true true s.2 (action_claim_interface o p s).state.2 := by
  have a := scans_emit s.2 (.enter .action_claim_interface) (by simp) (by simp)
  have step : ∀ (w : World) (e : Event), e ≠ .lockTake → e ≠ .lockGive →
      Scans true true s.2 w → Scans true true s.2 (w.called e) :=
    fun w e h1 h2 hw => scans_trans _ _ _ _ _ _ hw (scans_called w e h1 h2)
  unfold action_claim_interface
  simp only
  split
  · exact a
  · split
    · exact step _ _ (by simp) (by simp) a
    · split
      · exact step _ _ (by simp) (by simp)
          (step _ _ (by simp) (by simp) (step _ _ (by simp) (by simp) a))
      · split
        · exact step _ _ (by simp) (by simp) (step _ _ (by simp) (by simp)
            (step _ _ (by simp) (by simp) (step _ _ (by simp) (by simp)
              (step _ _ (by simp) (by simp) a))))
        · exact step _ _ (by simp) (by simp)
            (step _ _ (by simp) (by simp) (step _ _ (by simp) (by simp) a))

theorem scans_close_free_transfer (s : DevState) :
    Scans true true s.2 (close_free_transfer s).2 := by
  unfold close_free_transfer
  split
  · exact scans_called _ _ (by simp) (by simp)
  · exact scans_refl _ _

theorem scans_close (o : Oracle) (s : DevState) :
    Scans true true s.2 (action_close_dev o s).state.2 := by
  have a := scans_emit s.2 (.enter .action_close_dev) (by simp) (by simp)
  have b := scans_close_free_transfer (s.1, s.2.emit (.enter .action_close_dev))
  have ab := scans_trans _ _ _ _ _ _ a b
  unfold action_close_dev
  simp only
  split
  · split <;> exact scans_trans _ _ _ _ _ _ ab (scans_called _ _ (by simp) (by simp))
  · exact ab

/-- A drain of one slot makes no take and no give: run with the lock held it
keeps the discipline. -/
theorem scans_device_handle (o : Oracle) (p : Nat) (s : DevState) (r : Outcome DevState)
    (h : class_driver_device_handle o p s = some r) : Scans true true s.2 r.state.2 :=
  device_handle_loop_rel (fun a b => Scans true true a.2 b.2) (fun _ => scans_refl _ _)
    (fun _ _ _ x y => scans_trans _ _ _ _ _ _ x y) o p (fun _ => scans_refl _ _)
    (scans_open o) (scans_get_info o) (scans_get_config_desc o) (scans_claim_interface o p)
    (scans_close o) 4 s r h

theorem mapState_state {σ τ : Type} (f : σ → τ) (x : Outcome σ) :
    (x.mapState f).state = f x.state := by
  cases x <;> rfl

/-- The drain of all slots returns or aborts, and keeps the discipline when run
with the lock held. -/
theorem drain_slots_scans (o : Oracle) :
    ∀ (devs : List usb_device_t) (i : Nat) (w : World),
      ∃ r, drain_slots o i devs w = some r ∧ Scans true true w r.state.2 := by
  intro devs
  induction devs with
  | nil => intro i w; exact ⟨_, rfl, scans_refl _ _⟩
  | cons d ds ih =>
    intro i w
    unfold drain_slots
    by_cases ha : d.actions = 0
    · obtain ⟨r, hr, hs⟩ := ih (i + 1) w
      simp only [ha, ne_eq, not_true_eq_false, if_false, hr, Option.map_some']
      exact ⟨_, rfl, by rw [mapState_state]; exact hs⟩
    · simp only [ne_eq, ha, not_false_eq_true, if_true]
      obtain ⟨r1, hr1⟩ := class_driver_device_handle_returns o i (d, w)
      have hs1 := scans_device_handle o i (d, w) r1 hr1
      rw [hr1]
      cases r1 with
      | abort s1 => exact ⟨_, rfl, hs1⟩
      | ok s1 =>
        obtain ⟨r, hr, hs⟩ := ih (i + 1) s1.2
        simp only [hr, Option.map_some']
        refine ⟨_, rfl, ?_⟩
        rw [mapState_state]
        exact scans_trans _ _ _ _ _ _ hs1 hs

theorem scans_take (w : World) : Scans false true w (w.emit .lockTake) :=
  ⟨[.lockTake], rfl, rfl⟩

theorem scans_give (w : World) : Scans true false w (w.emit .lockGive) :=
  ⟨[.lockGive], rfl, rfl⟩

/-- The drain block returns or aborts; it starts and, when it returns, ends
with the lock free. -/
theorem drain_pending_scans (o : Oracle) (s : class_driver_t × World) :
    ∃ r held, drain_pending o s = some r ∧ Scans false held s.2 r.state.2 ∧
      ∀ s1, r = .ok s1 → held = false := by
  unfold drain_pending
  by_cases hf : s.1.unhandled_devices = 0
  · simp only [hf, ne_eq, not_true_eq_false, if_false]
    exact ⟨_, false, rfl, scans_refl _ _, fun _ _ => rfl⟩
  · simp only [ne_eq, hf, not_false_eq_true, if_true]
    obtain ⟨r, hr, hs⟩ := drain_slots_scans o s.1.device 0 (s.2.emit .lockTake)
    rw [hr]
    cases r with
    | abort r1 =>
      exact ⟨_, true, rfl, scans_trans _ _ _ _ _ _ (scans_take _) hs, fun _ h => by cases h⟩
    | ok r1 =>
      exact ⟨_, false, rfl,
        scans_trans _ _ _ _ _ _ (scans_trans _ _ _ _ _ _ (scans_take _) hs) (scans_give _),
        fun _ _ => rfl⟩

theorem client_event_cb_scans (msg : usb_host_client_event_msg_t)
    (s : class_driver_t × World) : Scans false false s.2 (client_event_cb msg s).2 := by
  unfold client_event_cb
  cases msg with
  | USB_HOST_CLIENT_EVENT_NEW_DEV a => exact scans_refl _ _
  | USB_HOST_CLIENT_EVENT_DEV_GONE hdl =>
    simp only
    split <;> exact scans_trans _ _ _ _ _ _ (scans_take _) (scans_give _)

theorem pumpDiscipline_append (a b : List Event) :
    ∀ h : Bool, pumpDiscipline h (a ++ b)
      = (pumpDiscipline h a).bind (fun h1 => pumpDiscipline h1 b) := by
  induction a with
  | nil => intro h; rfl
  | cons e es ih =>
    intro h
    cases e <;> cases h <;> simp [pumpDiscipline, ih, Event.isBlockingHostCall]

theorem pumps_refl (h : Bool) (w : World) : Pumps h h w w :=
  ⟨[], by simp, rfl⟩

theorem pumps_trans (h1 h2 h3 : Bool) (w1 w2 w3 : World) (a : Pumps h1 h2 w1 w2)
    (b : Pumps h2 h3 w2 w3) : Pumps h1 h3 w1 w3 := by
  obtain ⟨e1, t1, s1⟩ := a
  obtain ⟨e2, t2, s2⟩ := b
  refine ⟨e1 ++ e2, by rw [t2, t1, List.append_assoc], ?_⟩
  rw [pumpDiscipline_append, s1]
  exact s2

/-- Buffer reads and queue sends are free of the lock discipline. -/
theorem pumpDiscipline_decoder_events (evs : List Event)
    (hq : ∀ e ∈ evs, e.isDecoderEvent = true) :
    ∀ h : Bool, pumpDiscipline h evs = some h := by
  induction evs with
  | nil => intro h; rfl
  | cons e es ih =>
    intro h
    have he := hq e (List.mem_cons_self _ _)
    have hes := ih (fun x hx => hq x (List.mem_cons_of_mem _ hx)) h
    cases e <;> simp [Event.isDecoderEvent] at he <;>
      simp [pumpDiscipline, Event.isBlockingHostCall, hes]

theorem midi_frame_decoder_events (sink : Option class_driver_t) (t : usb_transfer_t) (i : Nat) :
    ∀ e ∈ midi_frame sink t i, e.isDecoderEvent = true := by
  intro e he
  unfold midi_frame at he
  split at he
  · split at he
    · cases sink with
      | none =>
        simp at he
        rcases he with rfl | rfl <;> rfl
      | some drv =>
        by_cases hq : drv.midi_queue = 0
        · simp [hq] at he
          rcases he with rfl | rfl <;> rfl
        · simp [hq] at he
          rcases he with rfl | rfl | rfl <;> rfl
    · simp at he
      rcases he with rfl | rfl <;> rfl
  · simp at he
    subst he
    rfl

theorem midi_frame_loop_decoder_events (sink : Option class_driver_t) (t : usb_transfer_t) :
    ∀ (fuel i : Nat) (evs : List Event), midi_frame_loop sink t fuel i = some evs →
      ∀ e ∈ evs, e.isDecoderEvent = true := by
  intro fuel
  induction fuel with
  | zero =>
    intro i evs h e he
    unfold midi_frame_loop at h
    split at h
    · cases h
    · cases h; cases he
  | succ f ih =>
    intro i evs h e he
    unfold midi_frame_loop at h
    split at h
    · cases hr : midi_frame_loop sink t f (i + 4) with
      | none => simp [hr] at h
      | some rest =>
        simp only [hr, Option.some.injEq] at h
        subst h
        rcases List.mem_append.1 he with he | he
        · exact midi_frame_decoder_events sink t i e he
        · exact ih (i + 4) rest hr e he
    · cases h; cases he

theorem pumps_checked_submit (o : Oracle) (ptr : Nat) (w : World) :
    Pumps false false w (checked_submit o ptr w).state := by
  rw [checked_submit_trace]
  exact ⟨[.transfer_submit ptr], rfl, rfl⟩

/-- The callback returns or aborts, takes no lock, and its only host call is
the resubmission, made with the lock free. -/
theorem midi_transfer_cb_pumps (o : Oracle) (sink : Option class_driver_t)
    (t : usb_transfer_t) (w : World) :
    ∃ r, midi_transfer_cb o sink t w = some r ∧ Pumps false false w r.state := by
  unfold midi_transfer_cb
  by_cases hc : t.status = .USB_TRANSFER_STATUS_COMPLETED
  · obtain ⟨evs, he, _⟩ := midi_frame_loop_returns sink t t.actual_num_bytes.toNat 0 (by simp)
    have hq := midi_frame_loop_decoder_events sink t _ _ evs he
    simp only [hc, if_true, he]
    refine ⟨_, rfl, ?_⟩
    have a : Pumps false false w { w with trace := w.trace ++ evs } :=
      ⟨evs, rfl, pumpDiscipline_decoder_events evs hq false⟩
    exact pumps_trans _ _ _ _ _ _ a (pumps_checked_submit o t.ptr _)
  · simp only [hc, if_false]
    split
    · exact ⟨_, rfl, pumps_checked_submit o t.ptr w⟩
    · exact ⟨_, rfl, pumps_refl _ _⟩

theorem client_event_cb_pumps (msg : usb_host_client_event_msg_t)
    (s : class_driver_t × World) : Pumps false false s.2 (client_event_cb msg s).2 := by
  unfold client_event_cb
  cases msg with
  | USB_HOST_CLIENT_EVENT_NEW_DEV a => exact pumps_refl _ _
  | USB_HOST_CLIENT_EVENT_DEV_GONE hdl =>
    simp only
    split <;> exact ⟨[.lockTake, .lockGive], by simp [World.emit], rfl⟩

theorem deliver_pumps (o : Oracle) (x : host_delivery) (s : class_driver_t × World) :
    ∃ r, deliver o x s = some r ∧ Pumps false false s.2 r.state.2 := by
  unfold deliver
  cases x with
  | client_event m => exact ⟨_, rfl, client_event_cb_pumps m s⟩
  | transfer_done t =>
    simp only
    split
    · exact ⟨_, rfl, pumps_refl _ _⟩
    · obtain ⟨r, hr, hp⟩ := midi_transfer_cb_pumps o (some s.1) t s.2
      rw [hr]
      refine ⟨_, rfl, ?_⟩
      rw [mapState_state]
      exact hp

theorem pump_deliveries_pumps (o : Oracle) (xs : List host_delivery) :
    ∀ s : class_driver_t × World,
      ∃ r, pump_deliveries o xs s = some r ∧ Pumps false false s.2 r.state.2 := by
  induction xs with
  | nil => intro s; exact ⟨_, rfl, pumps_refl _ _⟩
  | cons x xs ih =>
    intro s
    unfold pump_deliveries
    obtain ⟨r1, hr1, hp1⟩ := deliver_pumps o x s
    rw [hr1]
    cases r1 with
    | abort s1 => exact ⟨_, rfl, hp1⟩
    | ok s1 =>
      obtain ⟨r, hr, hp⟩ := ih s1
      exact ⟨r, hr, pumps_trans _ _ _ _ _ _ hp1 hp⟩

/-- The event pump returns or aborts; its trace starts at
`usb_host_client_handle_events` and follows the discipline of the pump. -/
theorem pump_events_pumps (o : Oracle) (xs : List host_delivery) (s : class_driver_t × World) :
    ∃ r body, pump_events o xs s = some r ∧
      r.state.2.trace = s.2.trace ++ .client_handle_events s.1.client_hdl :: body ∧
      pumpDiscipline false (.client_handle_events s.1.client_hdl :: body) = some false := by
  have wrap : ∀ (w1 : World),
      Pumps false false (s.2.called (.client_handle_events s.1.client_hdl)) w1 →
      ∃ body, w1.trace = s.2.trace ++ .client_handle_events s.1.client_hdl :: body ∧
        pumpDiscipline false (.client_handle_events s.1.client_hdl :: body) = some false := by
    intro w1 ⟨evs, ht, hs⟩
    refine ⟨evs, by rw [ht]; simp [World.called], ?_⟩
    simpa [pumpDiscipline, Event.isBlockingHostCall] using hs
  unfold pump_events
  obtain ⟨r, hr, hp⟩ := pump_deliveries_pumps o xs
    (s.1, s.2.called (.client_handle_events s.1.client_hdl))
  rw [hr]
  cases r with
  | abort s1 =>
    obtain ⟨body, hb⟩ := wrap s1.2 hp
    exact ⟨_, body, rfl, hb⟩
  | ok s1 =>
    have hd : Pumps false false s1.2 (s1.2.emit (.taskDelay 100)) :=
      ⟨[.taskDelay 100], rfl, rfl⟩
    obtain ⟨body, hb⟩ := wrap _ (pumps_trans _ _ _ _ _ _ hp hd)
    exact ⟨_, body, rfl, hb⟩

/-- C10, as amended: the lock discipline of the poller.  One iteration of the
`class_driver_task` loop returns or aborts, for every table, address list,
deliveries and host results, and its event trace splits in two.  In the first
part, up to the end of the drain block, the takes and gives of `mux_lock`
alternate, the discovery pass gives the lock back right after taking it, and
the lifecycle actions of a slot are executed with the table lock held: every
blocking host-session call there (device_open, device_info,
get_active_config_descriptor, interface_claim, interface_release,
transfer_alloc, transfer_submit, transfer_free, device_close) occurs between a
take of `mux_lock` and the matching give, or the abort of the task.  The second
part starts at `usb_host_client_handle_events`, with the lock free; in it takes
and gives alternate, no action handler is entered, and the only blocking
host-session call is the `usb_host_transfer_submit` by which `midi_transfer_cb`
re-arms a transfer, made with the lock free.  An iteration that returns ends
with the lock free, and every iteration that gets past the checked fill of the
address list starts with that take and give of the discovery pass. -/
theorem poller_lock_discipline (o : Oracle) (dev_addr_list : List Nat)
    (deliveries : List host_delivery) (T : class_driver_t) (calls : Nat) :
    ∃ (r : Outcome (class_driver_t × World)) (poll pump : List Event) (held : Bool),
      class_driver_task_iteration o dev_addr_list deliveries
        (T, { trace := [], calls := calls }) = some r ∧
      r.state.2.trace = poll ++ pump ∧
      blockingCallsUnderLock false poll = some held ∧
      pumpDiscipline held pump = some held ∧
      (pump = [] ∨ (held = false ∧ ∃ client body, pump = .client_handle_events client :: body)) ∧
      (∀ s1, r = .ok s1 → held = false ∧ pump ≠ []) ∧
      ((poll = [.device_addr_list_fill DEV_MAX_COUNT] ∧ pump = [] ∧ ∃ s1, r = .abort s1) ∨
        ∃ rest, poll = [.device_addr_list_fill DEV_MAX_COUNT, .lockTake, .lockGive] ++ rest) := by
  have finish : ∀ (w1 : World) (held : Bool),
      Scans false held { trace := [], calls := calls } w1 →
      blockingCallsUnderLock false w1.trace = some held := by
    intro w1 held ⟨evs, ht, hs⟩
    rw [ht]
    exact hs
  have hstart : ∀ (w1 : World) (held : Bool),
      Scans false held
        ((({ trace := [], calls := calls } : World).called
          (.device_addr_list_fill DEV_MAX_COUNT)).emit .lockTake |>.emit .lockGive) w1 →
      ∃ rest, w1.trace = [.device_addr_list_fill DEV_MAX_COUNT, .lockTake, .lockGive] ++ rest := by
    intro w1 held ⟨evs, ht, _⟩
    exact ⟨evs, by rw [ht]; rfl⟩
  have a : Scans false false ({ trace := [], calls := calls } : World)
      (({ trace := [], calls := calls } : World).called (.device_addr_list_fill DEV_MAX_COUNT)) :=
    ⟨[.device_addr_list_fill DEV_MAX_COUNT], rfl, rfl⟩
  unfold class_driver_task_iteration
  simp only
  by_cases herr : (World.reply o { trace := [], calls := calls }).err = ESP_OK
  · simp only [herr, ne_eq, not_true_eq_false, if_false]
    have b := scans_trans _ _ _ _ _ _ a
      (scans_trans _ _ _ _ _ _ (scans_take _) (scans_give _))
    obtain ⟨r, held, hr, hs, hok⟩ := drain_pending_scans o
      (discovery_pass T dev_addr_list,
        ((({ trace := [], calls := calls } : World).called
          (.device_addr_list_fill DEV_MAX_COUNT)).emit .lockTake).emit .lockGive)
    rw [hr]
    cases r with
    | abort r1 =>
      refine ⟨_, r1.2.trace, [], held, rfl, by simp [Outcome.state],
        finish _ _ (scans_trans _ _ _ _ _ _ b hs), rfl, Or.inl rfl, ?_, Or.inr (hstart _ _ hs)⟩
      intro s1 h; cases h
    | ok r1 =>
      have hf : held = false := hok r1 rfl
      subst hf
      obtain ⟨r2, body, hr2, ht2, hd2⟩ := pump_events_pumps o deliveries r1
      refine ⟨r2, r1.2.trace, .client_handle_events r1.1.client_hdl :: body, false, hr2, ht2,
        finish _ _ (scans_trans _ _ _ _ _ _ b hs), hd2, Or.inr ⟨rfl, _, _, rfl⟩, ?_,
        Or.inr (hstart _ _ hs)⟩
      intro s1 _
      exact ⟨rfl, by simp⟩
  · simp only [herr, ne_eq, not_false_eq_true, if_true]
    refine ⟨_, [.device_addr_list_fill DEV_MAX_COUNT], [], false, rfl, by simp [Outcome.state, World.called],
      rfl, rfl, Or.inl rfl, ?_, Or.inl ⟨by simp [Outcome.state, World.called], rfl, _, rfl⟩⟩
    intro s1 h; cases h

set_option maxHeartbeats 2000000 in
/-- C10, counterexample: in the first iteration on the initial table, with one
device at address 5 and every host call succeeding, `device_open` and the five
host calls after it are made between the second take of `mux_lock` and its
give. -/
theorem poller_lock_counterexample :
    (class_driver_task_iteration hostOk [5] [] (driver_init 11 12, World.start)).map
        (fun r => r.state.2.trace) = some exFirstIterationTrace ∧
    noBlockingCallUnderLock false exFirstIterationTrace = false :=
  ⟨rfl, rfl⟩

/-! ## Theorems: range of the pushed values -/

theorem bufReads_append (a b : List Event) : bufReads (a ++ b) = bufReads a ++ bufReads b := by
  simp [bufReads]

/-- One pass of the frame loop at index `i` reads `data_buffer[i]` and at most
`data_buffer[i + 2]`. -/
theorem bufReads_midi_frame_mem (sink : Option class_driver_t) (t : usb_transfer_t) (i j : Nat)
    (h : j ∈ bufReads (midi_frame sink t i)) : j = i ∨ j = i + 2 := by
  unfold midi_frame at h
  split at h
  · split at h
    · cases sink with
      | none => simp [bufReads, Event.read?] at h; omega
      | some drv =>
        by_cases hq : drv.midi_queue = 0 <;> simp [hq, bufReads, Event.read?] at h <;> omega
    · simp [bufReads, Event.read?] at h; omega
  · simp [bufReads, Event.read?] at h; omega

/-- When the returned payload is a whole number of frames, every index the
frame loop reads lies inside the payload. -/
theorem midi_frame_loop_reads_whole_frames (sink : Option class_driver_t) (t : usb_transfer_t)
    (n : Nat) (hn : t.actual_num_bytes = ((4 * n : Nat) : Int)) :
    ∀ (fuel k : Nat) (evs : List Event), midi_frame_loop sink t fuel (4 * k) = some evs →
      ∀ j ∈ bufReads evs, j < 4 * n := by
  intro fuel
  induction fuel with
  | zero =>
    intro k evs h j hj
    unfold midi_frame_loop at h
    split at h
    · cases h
    · cases h; simp [bufReads] at hj
  | succ f ih =>
    intro k evs h j hj
    unfold midi_frame_loop at h
    split at h
    · rename_i hlt
      rw [hn] at hlt
      have hk : 4 * k < 4 * n := by exact_mod_cast hlt
      cases hr : midi_frame_loop sink t f (4 * k + 4) with
      | none => simp [hr] at h
      | some rest =>
        simp only [hr, Option.some.injEq] at h
        subst h
        rw [bufReads_append] at hj
        rcases List.mem_append.1 hj with hj | hj
        · rcases bufReads_midi_frame_mem sink t (4 * k) j hj with rfl | rfl <;> omega
        · exact ih (k + 1) rest (by rw [Nat.mul_add]; exact hr) j hj
    · cases h; simp [bufReads] at hj

/-- C14, the code at the failing input: a Completed transfer that returned one
byte (`actual_num_bytes = 1`).  The callback reads `data_buffer[2]`, outside the
returned payload, and two buffers that agree on index 0 push different events:
the stale `3C` at index 2 is pushed as the note 60. -/
theorem decoder_reads_past_payload :
    exShortTransfer.actual_num_bytes = 1 ∧
    exShortTransferClean.actual_num_bytes = 1 ∧
    exShortTransfer.data_buffer.getD 0 0 = exShortTransferClean.data_buffer.getD 0 0 ∧
    (midi_transfer_cb hostOk (some exDriver) exShortTransfer World.start).map
        (fun r => bufReads r.state.trace) = some [0, 2, 2] ∧
    (midi_transfer_cb hostOk (some exDriver) exShortTransfer World.start).map
        (fun r => pushed r.state.trace) = some [60] ∧
    (midi_transfer_cb hostOk (some exDriver) exShortTransferClean World.start).map
        (fun r => pushed r.state.trace) = some [] := by
  refine ⟨rfl, rfl, rfl, ?_, ?_, ?_⟩ <;> decide

/-! ## Theorems: termination of the drain loop -/

theorem device_handle_loop_ok_actions (o : Oracle) (p : Nat) :
    ∀ (fuel : Nat) (s s1 : DevState),
      class_driver_device_handle_loop o p fuel s = some (.ok s1) → s1.1.actions = 0 := by
  intro fuel
  induction fuel with
  | zero =>
    intro s s1 h
    unfold class_driver_device_handle_loop at h
    by_cases ha : s.1.actions = 0
    · simp [ha] at h; subst h; exact ha
    · simp [ha] at h
  | succ f ih =>
    intro s s1 h
    unfold class_driver_device_handle_loop at h
    by_cases ha : s.1.actions = 0
    · simp [ha] at h; subst h; exact ha
    · simp only [ne_eq, ha, not_false_eq_true, if_true] at h
      cases hr : handle_snapshot o p s.1.actions ({ s.1 with actions := 0 }, s.2) with
      | ok s2 => rw [hr] at h; exact ih s2 s1 h
      | abort s2 => rw [hr] at h; simp at h

/-- More fuel does not change the result of a drain. -/
theorem device_handle_loop_fuel_succ (o : Oracle) (p : Nat) :
    ∀ (fuel : Nat) (s : DevState) (r : Outcome DevState),
      class_driver_device_handle_loop o p fuel s = some r →
      class_driver_device_handle_loop o p (fuel + 1) s = some r := by
  intro fuel
  induction fuel with
  | zero =>
    intro s r h
    unfold class_driver_device_handle_loop at h
    by_cases ha : s.1.actions = 0
    · rw [device_handle_loop_done o p _ s ha]
      simpa [ha] using h
    · simp [ha] at h
  | succ f ih =>
    intro s r h
    by_cases ha : s.1.actions = 0
    · rw [device_handle_loop_done o p _ s ha] at h ⊢
      exact h
    · rw [device_handle_loop_succ o p _ s ha] at h ⊢
      cases hr : handle_snapshot o p s.1.actions ({ s.1 with actions := 0 }, s.2) with
      | ok s2 =>
        rw [hr] at h
        simp only at h ⊢
        exact ih s2 r h
      | abort s2 =>
        rw [hr] at h
        exact h

theorem device_handle_loop_fuel_le (o : Oracle) (p : Nat) (s : DevState)
    (r : Outcome DevState) (f : Nat) (h : class_driver_device_handle_loop o p f s = some r) :
    ∀ k, class_driver_device_handle_loop o p (f + k) s = some r := by
  intro k
  induction k with
  | zero => exact h
  | succ k ih => exact device_handle_loop_fuel_succ o p (f + k) s r ih

/-- C13, as amended: the drain loop terminates.  For every slot state, every
`actions` value and every sequence of host results, `class_driver_device_handle`
makes at most 4 iterations of its `while` loop and then either returns, with
`actions = 0`, or has aborted the task at a failed `assert` or
`ESP_ERROR_CHECK`; iterations beyond the fourth are never needed, whatever
bound is allowed.  A handler that returns has only OR-ed in the action after
itself (Open: FetchInfo, FetchInfo: FetchConfig, FetchConfig: ClaimInterface),
ClaimInterface leaves `actions` as it was and Close clears it.  The bound is
reached: three iterations do not finish the chain that starts from Open. -/
theorem drain_terminates :
    (∀ (o : Oracle) (p : Nat) (s : DevState), ∃ r : Outcome DevState,
      class_driver_device_handle o p s = some r ∧
      (∀ fuel, 4 ≤ fuel → class_driver_device_handle_loop o p fuel s = some r) ∧
      (∀ s1, r = .ok s1 → s1.1.actions = 0) ∧
      (∀ s0 s1, action_open_dev o s0 = .ok s1 →
        s1.1.actions = s0.1.actions ||| ACTION_GET_DEV_INFO) ∧
      (∀ s0 s1, action_get_info o s0 = .ok s1 →
        s1.1.actions = s0.1.actions ||| ACTION_GET_CONFIG_DESC) ∧
      (∀ s0 s1, action_get_config_desc o s0 = .ok s1 →
        s1.1.actions = s0.1.actions ||| ACTION_CLAIM_INTERFACE) ∧
      (∀ s0, (action_claim_interface o p s0).state.1.actions = s0.1.actions) ∧
      (∀ s0 s1, action_close_dev o s0 = .ok s1 → s1.1.actions = 0)) ∧
    class_driver_device_handle_loop hostOk 0 3 (exOpenSlot, World.start) = none := by
  refine ⟨?_, by decide⟩
  intro o p s
  obtain ⟨r, hr⟩ := class_driver_device_handle_returns o p s
  refine ⟨r, hr, ?_, ?_, action_open_dev_ok o, action_get_info_ok o,
    action_get_config_desc_ok o, action_claim_interface_actions o p,
    fun s0 s1 h => (action_close_dev_ok o s0 s1 h).2.2.2⟩
  · intro fuel hf
    obtain ⟨k, rfl⟩ : ∃ k, fuel = 4 + k := ⟨fuel - 4, by omega⟩
    exact device_handle_loop_fuel_le o p s r 4 hr k
  · intro s1 h
    subst h
    exact device_handle_loop_ok_actions o p 4 s s1 hr

/-- C13, counterexample: with Open and FetchInfo pending, `device_open`
succeeding and `device_info` failing, the call does not stop with
`actions = 0`: it aborts in `action_get_info` with FetchInfo, which
`action_open_dev` had just OR-ed in, still in `actions`. -/
theorem drain_terminates_counterexample :
    class_driver_device_handle (hostFailsAt 1) 0 (exOpenInfoSlot, World.start)
      = some (.abort
          ({ client_hdl := 11, dev_addr := 5, dev_hdl := 7, actions := ACTION_GET_DEV_INFO,
             midi_in_transfer := none },
           { trace := [.enter .action_open_dev, .device_open 11 5,
                       .enter .action_get_info, .device_info 7],
             calls := 2 })) ∧
    ¬ ∃ s1, class_driver_device_handle (hostFailsAt 1) 0 (exOpenInfoSlot, World.start)
        = some (.ok s1) ∧ s1.1.actions = 0 := by
  have habort : class_driver_device_handle (hostFailsAt 1) 0 (exOpenInfoSlot, World.start)
      = some (.abort
          ({ client_hdl := 11, dev_addr := 5, dev_hdl := 7, actions := ACTION_GET_DEV_INFO,
             midi_in_transfer := none },
           { trace := [.enter .action_open_dev, .device_open 11 5,
                       .enter .action_get_info, .device_info 7],
             calls := 2 })) := by decide
  refine ⟨habort, ?_⟩
  rintro ⟨s1, h, _⟩
  rw [habort] at h
  cases h

/-! ## Theorems: provenance of the transfer of a slot -/

theorem hostCallCount_append (a b : List Event) :
    hostCallCount (a ++ b) = hostCallCount a + hostCallCount b := by
  simp [hostCallCount]

/-- Later events do not undo a recorded run. -/
theorem claimedIn_extend (o : Oracle) (p base : Nat) (evs more : List Event)
    (t : usb_transfer_t) (h : ClaimedIn o p base evs t) : ClaimedIn o p base (evs ++ more) t := by
  obtain ⟨pre, post, c, hd, he, h1, h2, h3, h4, h5, h6⟩ := h
  exact ⟨pre, post ++ more, c, hd, by rw [he]; simp, h1, h2, h3, h4, h5, h6⟩

/-- A run recorded after the events `e1` is recorded in the whole trace. -/
theorem claimedIn_shift (o : Oracle) (p base : Nat) (e1 e2 : List Event) (t : usb_transfer_t)
    (h : ClaimedIn o p (base + hostCallCount e1) e2 t) : ClaimedIn o p base (e1 ++ e2) t := by
  obtain ⟨pre, post, c, hd, he, h1, h2, h3, h4, h5, h6⟩ := h
  refine ⟨e1 ++ pre, post, c, hd, by rw [he]; simp, ?_, ?_, ?_, ?_, h5, h6⟩
  · rw [hostCallCount_append, ← Nat.add_assoc]; exact h1
  · rw [hostCallCount_append, ← Nat.add_assoc]; exact h2
  · rw [hostCallCount_append, ← Nat.add_assoc]; exact h3
  · rw [hostCallCount_append, ← Nat.add_assoc]; exact h4

theorem provenance_refl (o : Oracle) (p : Nat) (s : DevState) : Provenance o p s s :=
  ⟨[], by simp, by simp [hostCallCount], fun _ h => Or.inl h⟩

theorem provenance_trans (o : Oracle) (p : Nat) (a b c : DevState)
    (h1 : Provenance o p a b) (h2 : Provenance o p b c) : Provenance o p a c := by
  obtain ⟨e1, t1, c1, k1⟩ := h1
  obtain ⟨e2, t2, c2, k2⟩ := h2
  refine ⟨e1 ++ e2, by rw [t2, t1, List.append_assoc], ?_, ?_⟩
  · rw [c2, c1, hostCallCount_append, Nat.add_assoc]
  · intro t ht
    rcases k2 t ht with hb | hb
    · rcases k1 t hb with ha | ha
      · exact Or.inl ha
      · exact Or.inr (claimedIn_extend o p _ e1 e2 t ha)
    · rw [c1] at hb
      exact Or.inr (claimedIn_shift o p _ e1 e2 t hb)

/-- A step that keeps or drops the transfer of the slot. -/
theorem provenance_keep (o : Oracle) (p : Nat) (s s1 : DevState) (evs : List Event)
    (ht : s1.2.trace = s.2.trace ++ evs) (hc : s1.2.calls = s.2.calls + hostCallCount evs)
    (hk : s1.1.midi_in_transfer = s.1.midi_in_transfer ∨ s1.1.midi_in_transfer = none) :
    Provenance o p s s1 := by
  refine ⟨evs, ht, hc, ?_⟩
  intro t h
  rcases hk with hk | hk
  · left; rw [← hk]; exact h
  · rw [hk] at h; cases h

theorem provenance_clear (o : Oracle) (p : Nat) (s : DevState) :
    Provenance o p s ({ s.1 with actions := 0 }, s.2) :=
  provenance_keep o p s _ [] (by simp) (by simp [hostCallCount]) (Or.inl rfl)

theorem provenance_open (o : Oracle) (p : Nat) (s : DevState) :
    Provenance o p s (action_open_dev o s).state := by
  unfold action_open_dev
  simp only
  split
  · exact provenance_keep o p s _ [.enter .action_open_dev] rfl rfl (Or.inl rfl)
  · split
    · exact provenance_keep o p s _
        [.enter .action_open_dev, .device_open s.1.client_hdl s.1.dev_addr]
        (by simp [Outcome.state, World.emit, World.called]) rfl (Or.inl rfl)
    · exact provenance_keep o p s _
        [.enter .action_open_dev, .device_open s.1.client_hdl s.1.dev_addr]
        (by simp [Outcome.state, World.emit, World.called]) rfl (Or.inl rfl)

theorem provenance_get_info (o : Oracle) (p : Nat) (s : DevState) :
    Provenance o p s (action_get_info o s).state := by
  unfold action_get_info
  simp only
  split
  · exact provenance_keep o p s _ [.enter .action_get_info] rfl rfl (Or.inl rfl)
  · split
    · exact provenance_keep o p s _ [.enter .action_get_info, .device_info s.1.dev_hdl]
        (by simp [Outcome.state, World.emit, World.called]) rfl (Or.inl rfl)
    · exact provenance_keep o p s _ [.enter .action_get_info, .device_info s.1.dev_hdl]
        (by simp [Outcome.state, World.emit, World.called]) rfl (Or.inl rfl)

theorem provenance_get_config_desc (o : Oracle) (p : Nat) (s : DevState) :
    Provenance o p s (action_get_config_desc o s).state := by
  unfold action_get_config_desc
  simp only
  split
  · exact provenance_keep o p s _ [.enter .action_get_config_desc] rfl rfl (Or.inl rfl)
  · split
    · exact provenance_keep o p s _
        [.enter .action_get_config_desc, .get_active_config_descriptor s.1.dev_hdl]
        (by simp [Outcome.state, World.emit, World.called]) rfl (Or.inl rfl)
    · exact provenance_keep o p s _
        [.enter .action_get_config_desc, .get_active_config_descriptor s.1.dev_hdl]
        (by simp [Outcome.state, World.emit, World.called]) rfl (Or.inl rfl)

/-- The only step that gives a slot a transfer: a run of
`action_claim_interface` whose three calls succeed. -/
theorem provenance_claim_interface (o : Oracle) (p : Nat) (s : DevState) :
    Provenance o p s (action_claim_interface o p s).state := by
  unfold action_claim_interface
  simp only
  split
  · exact provenance_keep o p s _ [.enter .action_claim_interface] rfl rfl (Or.inl rfl)
  · rename_i hhdl
    split
    · exact provenance_keep o p s _
        [.enter .action_claim_interface, .interface_claim s.1.client_hdl s.1.dev_hdl 3 0]
        (by simp [Outcome.state, World.emit, World.called]) rfl (Or.inl rfl)
    · rename_i h0
      split
      · exact provenance_keep o p s _
          [.enter .action_claim_interface, .interface_claim s.1.client_hdl s.1.dev_hdl 3 0,
           .transfer_alloc 64 0, .interface_release s.1.client_hdl s.1.dev_hdl 3]
          (by simp [Outcome.state, World.emit, World.called]) rfl (Or.inl rfl)
      · rename_i h1
        split
        · exact provenance_keep o p s _
            [.enter .action_claim_interface, .interface_claim s.1.client_hdl s.1.dev_hdl 3 0,
             .transfer_alloc 64 0,
             .transfer_submit (o (s.2.calls + 1)).out,
             .transfer_free (o (s.2.calls + 1)).out,
             .interface_release s.1.client_hdl s.1.dev_hdl 3]
            (by simp [Outcome.state, World.emit, World.called, World.reply, allocated_transfer])
            rfl (Or.inr rfl)
        · rename_i h2
          simp only [World.reply, World.emit, World.called, ne_eq, not_not] at h0 h1 h2
          refine ⟨claimSegment s.1.client_hdl s.1.dev_hdl (o (s.2.calls + 1)).out,
            by simp [Outcome.state, World.emit, World.called, World.reply, allocated_transfer,
              claimSegment], rfl, ?_⟩
          intro t ht
          right
          simp only [Outcome.state, World.reply, World.emit, World.called,
            Option.some.injEq] at ht
          subst ht
          exact ⟨[], [], s.1.client_hdl, s.1.dev_hdl, by simp [allocated_transfer], h0, h1, rfl,
            h2, hhdl, rfl⟩

theorem provenance_close (o : Oracle) (p : Nat) (s : DevState) :
    Provenance o p s (action_close_dev o s).state := by
  obtain ⟨⟨c, addr, hdl, act, tr⟩, w⟩ := s
  cases tr with
  | none =>
    by_cases hh : hdl = 0
    · exact provenance_keep o p _ _ [.enter .action_close_dev]
        (by simp [action_close_dev, close_free_transfer, hh, Outcome.state, World.emit])
        (by simp [action_close_dev, close_free_transfer, hh, Outcome.state, World.emit,
          hostCallCount, Event.isHostCall])
        (Or.inr (by simp [action_close_dev, close_free_transfer, hh, Outcome.state]))
    · by_cases he : (o w.calls).err = ESP_OK <;>
        exact provenance_keep o p _ _ [.enter .action_close_dev, .device_close c hdl]
          (by simp [action_close_dev, close_free_transfer, hh, he, Outcome.state, World.emit,
            World.called, World.reply])
          (by simp [action_close_dev, close_free_transfer, hh, he, Outcome.state, World.emit,
            World.called, World.reply, hostCallCount, Event.isHostCall])
          (Or.inr (by simp [action_close_dev, close_free_transfer, hh, he, Outcome.state,
            World.emit, World.called, World.reply]))
  | some t =>
    by_cases hh : hdl = 0
    · exact provenance_keep o p _ _ [.enter .action_close_dev, .transfer_free t.ptr]
        (by simp [action_close_dev, close_free_transfer, hh, Outcome.state, World.emit,
          World.called])
        (by simp [action_close_dev, close_free_transfer, hh, Outcome.state, World.emit,
          World.called, hostCallCount, Event.isHostCall])
        (Or.inr (by simp [action_close_dev, close_free_transfer, hh, Outcome.state]))
    · by_cases he : (o (w.calls + 1)).err = ESP_OK <;>
        exact provenance_keep o p _ _
          [.enter .action_close_dev, .transfer_free t.ptr, .device_close c hdl]
          (by simp [action_close_dev, close_free_transfer, hh, he, Outcome.state, World.emit,
            World.called, World.reply])
          (by simp [action_close_dev, close_free_transfer, hh, he, Outcome.state, World.emit,
            World.called, World.reply, hostCallCount, Event.isHostCall])
          (Or.inr (by simp [action_close_dev, close_free_transfer, hh, he, Outcome.state,
            World.emit, World.called, World.reply]))

/-- A transfer a slot holds after a drain was held before it or was set by a
successful run of `action_claim_interface` during it. -/
theorem provenance_device_handle (o : Oracle) (p : Nat) (s : DevState) (r : Outcome DevState)
    (h : class_driver_device_handle o p s = some r) : Provenance o p s r.state :=
  device_handle_loop_rel (Provenance o p) (provenance_refl o p) (provenance_trans o p) o p
    (provenance_clear o p) (provenance_open o p) (provenance_get_info o p)
    (provenance_get_config_desc o p) (provenance_claim_interface o p) (provenance_close o p)
    4 s r h

/-! ## Theorems: transfer implies handle -/

theorem freeIsClean_open (o : Oracle) (s : DevState) (h : s.1.freeIsClean) :
    (action_open_dev o s).state.1.freeIsClean := by
  obtain ⟨⟨c, addr, hdl, act, tr⟩, w⟩ := s
  unfold usb_device_t.freeIsClean at h ⊢
  unfold action_open_dev
  simp only at h ⊢
  split
  · exact h
  · rename_i ha
    split <;> exact fun h0 => absurd h0 ha

theorem freeIsClean_get_info (o : Oracle) (s : DevState) (h : s.1.freeIsClean) :
    (action_get_info o s).state.1.freeIsClean := by
  obtain ⟨⟨c, addr, hdl, act, tr⟩, w⟩ := s
  unfold usb_device_t.freeIsClean at h ⊢
  unfold action_get_info
  simp only at h ⊢
  split
  · exact h
  · split <;> exact h

theorem freeIsClean_get_config_desc (o : Oracle) (s : DevState) (h : s.1.freeIsClean) :
    (action_get_config_desc o s).state.1.freeIsClean := by
  obtain ⟨⟨c, addr, hdl, act, tr⟩, w⟩ := s
  unfold usb_device_t.freeIsClean at h ⊢
  unfold action_get_config_desc
  simp only at h ⊢
  split
  · exact h
  · split <;> exact h

theorem freeIsClean_claim_interface (o : Oracle) (p : Nat) (s : DevState)
    (h : s.1.freeIsClean) : (action_claim_interface o p s).state.1.freeIsClean := by
  obtain ⟨⟨c, addr, hdl, act, tr⟩, w⟩ := s
  unfold usb_device_t.freeIsClean at h ⊢
  unfold action_claim_interface
  simp only at h ⊢
  split
  · exact h
  · rename_i hh
    have ha : ¬ addr = 0 := fun h0 => hh (h h0).1
    split
    · exact h
    · split
      · exact h
      · split <;> exact fun h0 => absurd h0 ha

theorem close_free_transfer_fields (s : DevState) :
    (close_free_transfer s).1.dev_hdl = s.1.dev_hdl ∧
    (close_free_transfer s).1.dev_addr = s.1.dev_addr ∧
    (close_free_transfer s).1.midi_in_transfer = none := by
  rw [close_free_transfer_slot]
  exact ⟨rfl, rfl, rfl⟩

/-- After the Close handler, returned or aborted, the slot holds no transfer. -/
theorem action_close_dev_no_transfer (o : Oracle) (s : DevState) :
    (action_close_dev o s).state.1.midi_in_transfer = none := by
  have hf := close_free_transfer_fields (s.1, s.2.emit (.enter .action_close_dev))
  unfold action_close_dev
  simp only
  split
  · split
    · exact hf.2.2
    · exact hf.2.2
  · exact hf.2.2

theorem freeIsClean_close (o : Oracle) (s : DevState) (h : s.1.freeIsClean) :
    (action_close_dev o s).state.1.freeIsClean := by
  have hf := close_free_transfer_fields (s.1, s.2.emit (.enter .action_close_dev))
  unfold usb_device_t.freeIsClean at h ⊢
  unfold action_close_dev
  simp only at hf ⊢
  split
  · rename_i hh
    rw [hf.1] at hh
    split
    · intro h0
      have h1 : (close_free_transfer (s.1, s.2.emit (.enter .action_close_dev))).1.dev_addr = 0 :=
        h0
      rw [hf.2.1] at h1
      exact absurd (h h1).1 hh
    · exact fun _ => ⟨rfl, hf.2.2⟩
  · exact fun _ => ⟨rfl, hf.2.2⟩

/-- A drain keeps free slots clean. -/
theorem freeIsClean_device_handle (o : Oracle) (p : Nat) (s : DevState) (r : Outcome DevState)
    (h : class_driver_device_handle o p s = some r) (hs : s.1.freeIsClean) :
    r.state.1.freeIsClean :=
  device_handle_loop_rel (fun a b => a.1.freeIsClean → b.1.freeIsClean) (fun _ h => h)
    (fun _ _ _ x y h => y (x h)) o p (fun _ h => h)
    (freeIsClean_open o) (freeIsClean_get_info o) (freeIsClean_get_config_desc o)
    (freeIsClean_claim_interface o p) (freeIsClean_close o) 4 s r h hs

theorem action_open_dev_transfer (o : Oracle) (s : DevState) :
    (action_open_dev o s).state.1.midi_in_transfer = s.1.midi_in_transfer := by
  unfold action_open_dev
  simp only
  split
  · rfl
  · split <;> rfl

theorem transferHasHandle_get_info (o : Oracle) (s : DevState) (h : s.1.transferHasHandle) :
    (action_get_info o s).state.1.transferHasHandle := by
  unfold usb_device_t.transferHasHandle at h ⊢
  unfold action_get_info
  simp only
  split
  · exact h
  · split <;> exact h

theorem transferHasHandle_get_config_desc (o : Oracle) (s : DevState)
    (h : s.1.transferHasHandle) : (action_get_config_desc o s).state.1.transferHasHandle := by
  unfold usb_device_t.transferHasHandle at h ⊢
  unfold action_get_config_desc
  simp only
  split
  · exact h
  · split <;> exact h

/-- `action_claim_interface` sets a transfer only past its `assert` on the
handle. -/
theorem transferHasHandle_claim_interface (o : Oracle) (p : Nat) (s : DevState)
    (h : s.1.transferHasHandle) : (action_claim_interface o p s).state.1.transferHasHandle := by
  unfold usb_device_t.transferHasHandle at h ⊢
  unfold action_claim_interface
  simp only
  split
  · exact h
  · rename_i hh
    split
    · exact h
    · split
      · exact h
      · split <;> exact fun _ => hh

theorem transferHasHandle_close (o : Oracle) (s : DevState) (_h : s.1.transferHasHandle) :
    (action_close_dev o s).state.1.transferHasHandle := by
  unfold usb_device_t.transferHasHandle
  intro hne
  exact absurd (action_close_dev_no_transfer o s) hne

/-- A snapshot keeps transfer-implies-handle when Open, if it is in the
snapshot, meets a slot without a transfer. -/
theorem transferHasHandle_snapshot (o : Oracle) (p a : Nat) (s : DevState)
    (hopen : a &&& ACTION_OPEN_DEV ≠ 0 → s.1.midi_in_transfer = none)
    (h : s.1.transferHasHandle) : (handle_snapshot o p a s).state.1.transferHasHandle := by
  have h1 : (whenSet a ACTION_OPEN_DEV (action_open_dev o) s).state.1.transferHasHandle := by
    unfold whenSet
    split
    · rename_i hb
      unfold usb_device_t.transferHasHandle
      rw [action_open_dev_transfer, hopen hb]
      exact fun hne => absurd rfl hne
    · exact h
  have P_refl : ∀ x : DevState, KeepsHandle x x := fun _ hx => hx
  have P_trans : ∀ x y z : DevState, KeepsHandle x y → KeepsHandle y z → KeepsHandle x z :=
    fun _ _ _ f g hx => g (f hx)
  have k5 : ∀ x, KeepsHandle x (action_close_dev o x).state := transferHasHandle_close o
  have k4 : ∀ x, KeepsHandle x (action_claim_interface o p x).state :=
    transferHasHandle_claim_interface o p
  have k3 : ∀ x, KeepsHandle x (action_get_config_desc o x).state :=
    transferHasHandle_get_config_desc o
  have k2 : ∀ x, KeepsHandle x (action_get_info o x).state := transferHasHandle_get_info o
  have key : KeepsHandle s (handle_snapshot o p a s).state := by
    unfold handle_snapshot
    refine andThen_rel KeepsHandle P_trans _ _ s ?_ (whenSet_rel KeepsHandle P_refl a _ _ k5)
    refine andThen_rel KeepsHandle P_trans _ _ s ?_ (whenSet_rel KeepsHandle P_refl a _ _ k4)
    refine andThen_rel KeepsHandle P_trans _ _ s ?_ (whenSet_rel KeepsHandle P_refl a _ _ k3)
    refine andThen_rel KeepsHandle P_trans _ _ s ?_ (whenSet_rel KeepsHandle P_refl a _ _ k2)
    exact fun _ => h1
  exact key h

theorem nextActions_no_open (a : Nat) : nextActions a &&& ACTION_OPEN_DEV = 0 := by
  unfold nextActions
  by_cases h16 : a &&& ACTION_CLOSE_DEV = 0 <;> by_cases h1 : a &&& ACTION_OPEN_DEV = 0 <;>
    by_cases h2 : a &&& ACTION_GET_DEV_INFO = 0 <;>
    by_cases h4 : a &&& ACTION_GET_CONFIG_DESC = 0 <;>
    simp [h16, h1, h2, h4] <;> decide

/-- A drain keeps transfer-implies-handle on a slot where Open is pending only
without a transfer. -/
theorem transferHasHandle_loop (o : Oracle) (p : Nat) :
    ∀ (fuel : Nat) (s : DevState) (r : Outcome DevState),
      s.1.openBeforeTransfer → s.1.transferHasHandle →
      class_driver_device_handle_loop o p fuel s = some r → r.state.1.transferHasHandle := by
  intro fuel
  induction fuel with
  | zero =>
    intro s r _ hs h
    unfold class_driver_device_handle_loop at h
    by_cases ha : s.1.actions = 0
    · simp [ha] at h; subst h; exact hs
    · simp [ha] at h
  | succ f ih =>
    intro s r ho hs h
    by_cases ha : s.1.actions = 0
    · rw [device_handle_loop_done o p _ s ha] at h
      cases h
      exact hs
    · rw [device_handle_loop_succ o p _ s ha] at h
      have hsnap := transferHasHandle_snapshot o p s.1.actions ({ s.1 with actions := 0 }, s.2)
        ho hs
      cases hr : handle_snapshot o p s.1.actions ({ s.1 with actions := 0 }, s.2) with
      | ok s1 =>
        rw [hr] at h hsnap
        have hn := handle_snapshot_ok_actions o p s.1.actions _ s1 rfl hr
        refine ih s1 r ?_ hsnap h
        unfold usb_device_t.openBeforeTransfer
        rw [hn]
        exact fun hne => absurd (nextActions_no_open s.1.actions) hne
      | abort s1 =>
        rw [hr] at h hsnap
        cases h
        exact hsnap

/-- A drain that returns keeps the slot invariant. -/
theorem slotInv_device_handle (o : Oracle) (p : Nat) (d : usb_device_t) (w : World)
    (s1 : DevState) (h : class_driver_device_handle o p (d, w) = some (.ok s1))
    (hd : SlotInv d) : SlotInv s1.1 := by
  obtain ⟨h1, h2, h3⟩ := hd
  refine ⟨transferHasHandle_loop o p 4 (d, w) (.ok s1) h3 h1 h,
    freeIsClean_device_handle o p (d, w) (.ok s1) h h2, ?_⟩
  unfold usb_device_t.openBeforeTransfer
  rw [device_handle_loop_ok_actions o p 4 (d, w) s1 h]
  exact fun hne => absurd (by decide) hne

theorem slotsOk_extend (o : Oracle) (base : Nat) (evs more : List Event)
    (devs : List usb_device_t) (h : SlotsOk o base evs devs) :
    SlotsOk o base (evs ++ more) devs := by
  intro i d hd
  obtain ⟨h1, h2⟩ := h i d hd
  exact ⟨h1, fun t ht => claimedIn_extend o i base evs more t (h2 t ht)⟩

theorem slotsOk_set (o : Oracle) (base : Nat) (evs : List Event) (devs : List usb_device_t)
    (i : Nat) (x : usb_device_t) (h : SlotsOk o base evs devs)
    (hx : SlotInv x ∧ ∀ t, x.midi_in_transfer = some t → ClaimedIn o i base evs t) :
    SlotsOk o base evs (devs.set i x) := by
  intro j d hd
  rw [List.getElem?_set] at hd
  by_cases hij : i = j
  · subst hij
    simp only [if_true] at hd
    split at hd
    · cases hd; exact hx
    · cases hd
  · simp only [hij, if_false] at hd
    exact h j d hd

theorem allocate_slot_eq_set_free (a : Nat) :
    ∀ devs ds : List usb_device_t, allocate_slot devs a = some ds →
      ∃ (i : Nat) (d : usb_device_t), devs[i]? = some d ∧ d.dev_addr = 0 ∧
        ds = devs.set i { d with dev_addr := a, actions := d.actions ||| ACTION_OPEN_DEV } := by
  intro devs
  induction devs with
  | nil => intro ds h; simp [allocate_slot] at h
  | cons d rest ih =>
    intro ds h
    by_cases hd : d.dev_addr = 0
    · simp only [allocate_slot, if_pos hd, Option.some.injEq] at h
      exact ⟨0, d, by simp, hd, by simp [← h]⟩
    · simp only [allocate_slot, hd, if_false] at h
      cases hr : allocate_slot rest a with
      | none => simp [hr] at h
      | some r =>
        simp [hr] at h
        obtain ⟨i, e, he, he0, hset⟩ := ih r hr
        exact ⟨i + 1, e, by simpa using he, he0, by simp [← h, hset]⟩

theorem slotsOk_discover_one (o : Oracle) (base : Nat) (evs : List Event) (T : class_driver_t)
    (a : Nat) (h : SlotsOk o base evs T.device) :
    SlotsOk o base evs (discover_one T a).device := by
  unfold discover_one
  by_cases h0 : a = 0
  · simpa only [h0, if_true] using h
  · by_cases hh : already_handled T.device a = true
    · simpa only [h0, hh, if_true, if_false] using h
    · cases hal : allocate_slot T.device a with
      | none => simpa only [h0, hh, if_false] using h
      | some ds =>
        simp only [h0, hh, if_false]
        obtain ⟨i, d, hd, hfree, rfl⟩ := allocate_slot_eq_set_free a T.device ds hal
        obtain ⟨⟨_, hclean, _⟩, _⟩ := h i d hd
        have hc := hclean hfree
        refine slotsOk_set o base evs T.device i _ h ⟨⟨?_, ?_, ?_⟩, ?_⟩
        · exact fun hne => absurd hc.2 hne
        · exact fun _ => hc
        · exact fun _ => hc.2
        · intro t ht
          have : d.midi_in_transfer = some t := ht
          rw [hc.2] at this
          cases this

theorem slotsOk_discovery_pass (o : Oracle) (base : Nat) (evs : List Event) (l : List Nat) :
    ∀ T : class_driver_t, SlotsOk o base evs T.device →
      SlotsOk o base evs (discovery_pass T l).device := by
  induction l with
  | nil => intro T h; exact h
  | cons b bs ih => intro T h; exact ih (discover_one T b) (slotsOk_discover_one o base evs T b h)

theorem slotsOk_mark_gone (o : Oracle) (base : Nat) (evs : List Event)
    (devs ds : List usb_device_t) (hdl : Nat) (hm : mark_gone devs hdl = some ds)
    (h : SlotsOk o base evs devs) : SlotsOk o base evs ds := by
  obtain ⟨i, d, hd, rfl⟩ := mark_gone_eq_set hdl devs ds hm
  obtain ⟨⟨h1, h2, _⟩, h4⟩ := h i d hd
  refine slotsOk_set o base evs devs i _ h ⟨⟨h1, h2, ?_⟩, h4⟩
  intro hne
  exact absurd (show ACTION_CLOSE_DEV &&& ACTION_OPEN_DEV = 0 by decide) hne

/-- The invariant holds on everything reachable. -/
theorem tableInv_of_reachable (o : Oracle) (w0 : World) (s : class_driver_t × World)
    (h : ReachableFrom o w0 s) : TableInv o w0 s := by
  induction h with
  | init c m =>
    refine ⟨[], by simp, by simp [hostCallCount], ?_⟩
    intro i d hd
    have hmem := List.getElem?_mem hd
    have hz : d = (⟨c, 0, 0, 0, none⟩ : usb_device_t) := List.eq_of_mem_replicate hmem
    subst hz
    exact ⟨⟨fun hne => absurd rfl hne, fun _ => ⟨rfl, rfl⟩, fun _ => rfl⟩,
      fun t ht => by cases ht⟩
  | discovery s l _ _ _ ih =>
    obtain ⟨evs, ht, hc, hs⟩ := ih
    refine ⟨evs ++ [.device_addr_list_fill DEV_MAX_COUNT, .lockTake, .lockGive], ?_, ?_, ?_⟩
    · simp [World.emit, World.called, ht]
    · simp only [World.emit, World.called, hc, hostCallCount_append]
      rfl
    · exact slotsOk_extend o _ evs _ _ (slotsOk_discovery_pass o _ evs l s.1 hs)
  | drain s i d s1 _ hd hrun ih =>
    obtain ⟨evs, ht, hc, hs⟩ := ih
    obtain ⟨e2, t2, c2, k2⟩ := provenance_device_handle o i (d, s.2) (.ok s1) hrun
    obtain ⟨hinv, hold⟩ := hs i d hd
    refine ⟨evs ++ e2, ?_, ?_, ?_⟩
    · show s1.2.trace = _
      rw [show s1.2.trace = s.2.trace ++ e2 from t2, ht, List.append_assoc]
    · show s1.2.calls = _
      rw [show s1.2.calls = s.2.calls + hostCallCount e2 from c2, hc, hostCallCount_append,
        Nat.add_assoc]
    · refine slotsOk_set o _ _ _ i s1.1 (slotsOk_extend o _ evs e2 _ hs)
        ⟨slotInv_device_handle o i d s.2 s1 hrun hinv, ?_⟩
      intro t htr
      rcases k2 t htr with hk | hk
      · exact claimedIn_extend o i _ evs e2 t (hold t hk)
      · have hk2 : ClaimedIn o i (w0.calls + hostCallCount evs) e2 t := by
          rw [← hc]; exact hk
        exact claimedIn_shift o i _ evs e2 t hk2
  | disconnect s hdl _ ih =>
    obtain ⟨evs, ht, hc, hs⟩ := ih
    refine ⟨evs ++ [.lockTake, .lockGive], ?_, ?_, ?_⟩
    · unfold client_event_cb
      simp only
      split <;> simp [World.emit, ht]
    · unfold client_event_cb
      simp only
      split <;> simp [World.emit, hc, hostCallCount_append, hostCallCount, Event.isHostCall]
    · unfold client_event_cb
      simp only
      split
      · rename_i ds hm
        exact slotsOk_extend o _ evs _ _ (slotsOk_mark_gone o _ evs s.1.device ds hdl hm hs)
      · exact slotsOk_extend o _ evs _ _ hs

/-- C12: transfer-implies-handle is an invariant of the reachable states.  From
the all-zero table, under any host `o` (its calls succeeding or failing in any
pattern), after any sequence of discovery passes, drains of one slot that return
and disconnect notifications, every slot `i` whose `midi_in_transfer` is not
NULL has a `dev_hdl` that is not NULL, and the trace since the start contains a
run of `action_claim_interface` on slot `i` whose interface_claim,
transfer_alloc and transfer_submit all returned `ESP_OK` and which allocated
and configured exactly the transfer the slot holds. -/
theorem transfer_implies_handle (o : Oracle) (w0 : World) (s : class_driver_t × World)
    (h : ReachableFrom o w0 s) (i : Nat) (d : usb_device_t) (t : usb_transfer_t)
    (hd : s.1.device[i]? = some d) (ht : d.midi_in_transfer = some t) :
    d.dev_hdl ≠ 0 ∧
    ∃ evs, s.2.trace = w0.trace ++ evs ∧ ClaimedIn o i w0.calls evs t := by
  obtain ⟨evs, htr, _, hs⟩ := tableInv_of_reachable o w0 s h
  obtain ⟨⟨h1, _, _⟩, h2⟩ := hs i d hd
  exact ⟨h1 (by rw [ht]; exact fun hne => by cases hne), evs, htr, h2 t ht⟩

/-- C12, witness: after the discovery of a device at address 5 and the drain of
slot 0 on a host where every call succeeds, slot 0 holds a transfer and the
handle `7`, and the trace records the successful ClaimInterface run. -/
theorem transfer_implies_handle_witness :
    ReachableFrom hostOk World.start exAfterFirstDrain ∧
    exAfterFirstDrain.1.device[0]? = some exStreamingSlot ∧
    exStreamingSlot.midi_in_transfer = some (claimed_transfer 7 7 0) ∧
    exStreamingSlot.dev_hdl ≠ 0 ∧
    ∃ evs, exAfterFirstDrain.2.trace = World.start.trace ++ evs ∧
      ClaimedIn hostOk 0 World.start.calls evs (claimed_transfer 7 7 0) :=
  have hr : ReachableFrom hostOk World.start exAfterFirstDrain :=
    ReachableFrom.drain (discovery_pass (driver_init 11 12) [5], exDiscoveryWorld) 0 exOpenSlot
      (exStreamingSlot, exFirstDrainWorld)
      (ReachableFrom.discovery (driver_init 11 12, World.start) [5]
        (ReachableFrom.init 11 12) (by decide) (by decide))
      (by decide) (by decide)
  ⟨hr, by decide, rfl,
    transfer_implies_handle hostOk World.start exAfterFirstDrain hr 0 exStreamingSlot
      (claimed_transfer 7 7 0) (by decide) rfl⟩

/-! ## Theorems: the checks of the handlers -/

theorem andThen_assoc {σ : Type} (x : Outcome σ) (f g : σ → Outcome σ) :
    (x.andThen f).andThen g = x.andThen (fun s => (f s).andThen g) := by
  cases x <;> rfl

/-- A snapshot is the run of the five handlers in their fixed order. -/
theorem handle_snapshot_eq_runFrom (o : Oracle) (p a : Nat) (s : DevState) :
    handle_snapshot o p a s = runFrom o p a allHandlers s := by
  unfold handle_snapshot allHandlers
  simp only [runFrom, Handler.bit, Handler.run, andThen_assoc]
  congr 1
  funext s1
  congr 1
  funext s2
  congr 1
  funext s3
  congr 1
  funext s4
  cases whenSet a ACTION_CLOSE_DEV (action_close_dev o) s4 <;> rfl

/-- Each handler returns exactly when its `assert` and its `ESP_ERROR_CHECK`
pass; otherwise it aborts the task. -/
theorem handler_returns_iff (o : Oracle) (p : Nat) (H : Handler) (s : DevState) :
    (∃ s1, H.run o p s = .ok s1) ↔ H.checks o s := by
  obtain ⟨⟨c, addr, hdl, act, tr⟩, w⟩ := s
  cases H with
  | action_open_dev =>
    by_cases ha : addr = 0
    · simp [Handler.run, Handler.checks, action_open_dev, ha]
    · by_cases he : (o w.calls).err = ESP_OK <;>
        simp [Handler.run, Handler.checks, action_open_dev, World.reply, World.emit, ha, he]
  | action_get_info =>
    by_cases hh : hdl = 0
    · simp [Handler.run, Handler.checks, action_get_info, hh]
    · by_cases he : (o w.calls).err = ESP_OK <;>
        simp [Handler.run, Handler.checks, action_get_info, World.reply, World.emit, hh, he]
  | action_get_config_desc =>
    by_cases hh : hdl = 0
    · simp [Handler.run, Handler.checks, action_get_config_desc, hh]
    · by_cases he : (o w.calls).err = ESP_OK <;>
        simp [Handler.run, Handler.checks, action_get_config_desc, World.reply, World.emit, hh,
          he]
  | action_claim_interface =>
    by_cases hh : hdl = 0
    · simp [Handler.run, Handler.checks, action_claim_interface, hh]
    · simp only [Handler.run, Handler.checks, ne_eq, hh, not_false_eq_true, iff_true]
      unfold action_claim_interface
      simp only [hh, if_false]
      split
      · exact ⟨_, rfl⟩
      · split
        · exact ⟨_, rfl⟩
        · split <;> exact ⟨_, rfl⟩
  | action_close_dev =>
    cases tr with
    | none =>
      by_cases hh : hdl = 0
      · simp [Handler.run, Handler.checks, action_close_dev, close_free_transfer, hh]
      · by_cases he : (o w.calls).err = ESP_OK <;>
          simp [Handler.run, Handler.checks, action_close_dev, close_free_transfer, World.reply,
            World.emit, hh, he]
    | some t =>
      by_cases hh : hdl = 0
      · simp [Handler.run, Handler.checks, action_close_dev, close_free_transfer, hh]
      · by_cases he : (o (w.calls + 1)).err = ESP_OK <;>
          simp [Handler.run, Handler.checks, action_close_dev, close_free_transfer, World.reply,
            World.emit, World.called, hh, he]

/-- The handlers of a snapshot all return exactly when each of them passes its
checks in the state in which it is entered. -/
theorem runFrom_returns_iff (o : Oracle) (p a : Nat) :
    ∀ (hs : List Handler) (s : DevState),
      (∃ s1, runFrom o p a hs s = .ok s1) ↔ ChecksPass o p a hs s := by
  intro hs
  induction hs with
  | nil => intro s; simp [runFrom, ChecksPass]
  | cons H hs ih =>
    intro s
    unfold runFrom ChecksPass
    by_cases hb : a &&& H.bit = 0
    · rw [whenSet_unset _ _ _ hb, ok_andThen, if_pos hb]
      exact ih s
    · rw [whenSet_set _ _ _ hb, if_neg hb]
      have hH := handler_returns_iff o p H s
      cases hr : H.run o p s with
      | ok s1 =>
        rw [ok_andThen]
        have hc : H.checks o s := hH.1 ⟨s1, hr⟩
        simp only [hc, true_and, Outcome.state]
        exact ih s1
      | abort s1 =>
        have hc : ¬ H.checks o s := by
          intro hc
          obtain ⟨s2, h2⟩ := hH.2 hc
          rw [hr] at h2
          cases h2
        simp [Outcome.andThen, hc]

/-- An abort of a snapshot is the abort of one of its handlers at a failed
check. -/
theorem runFrom_abort (o : Oracle) (p a : Nat) :
    ∀ (hs : List Handler) (s s1 : DevState), runFrom o p a hs s = .abort s1 →
      ∃ (H : Handler) (s0 : DevState), H ∈ hs ∧ a &&& H.bit ≠ 0 ∧ ¬ H.checks o s0 ∧
        H.run o p s0 = .abort s1 := by
  intro hs
  induction hs with
  | nil => intro s s1 h; simp [runFrom] at h
  | cons H hs ih =>
    intro s s1 h
    unfold runFrom at h
    by_cases hb : a &&& H.bit = 0
    · rw [whenSet_unset _ _ _ hb, ok_andThen] at h
      obtain ⟨K, s0, hK, h1, h2, h3⟩ := ih s s1 h
      exact ⟨K, s0, List.mem_cons_of_mem _ hK, h1, h2, h3⟩
    · rw [whenSet_set _ _ _ hb] at h
      cases hr : H.run o p s with
      | ok s2 =>
        rw [hr, ok_andThen] at h
        obtain ⟨K, s0, hK, h1, h2, h3⟩ := ih s2 s1 h
        exact ⟨K, s0, List.mem_cons_of_mem _ hK, h1, h2, h3⟩
      | abort s2 =>
        rw [hr] at h
        simp only [Outcome.andThen] at h
        cases h
        refine ⟨H, s, List.mem_cons_self _ _, hb, ?_, hr⟩
        intro hc
        obtain ⟨s3, h3⟩ := (handler_returns_iff o p H s).2 hc
        rw [hr] at h3
        cases h3

theorem action_get_info_hdl (o : Oracle) (s : DevState) :
    (action_get_info o s).state.1.dev_hdl = s.1.dev_hdl := by
  unfold action_get_info
  simp only
  split
  · rfl
  · split <;> rfl

theorem action_get_config_desc_hdl (o : Oracle) (s : DevState) :
    (action_get_config_desc o s).state.1.dev_hdl = s.1.dev_hdl := by
  unfold action_get_config_desc
  simp only
  split
  · rfl
  · split <;> rfl

theorem action_claim_interface_hdl (o : Oracle) (p : Nat) (s : DevState) :
    (action_claim_interface o p s).state.1.dev_hdl = s.1.dev_hdl := by
  unfold action_claim_interface
  simp only
  split
  · rfl
  · split
    · rfl
    · split
      · rfl
      · split <;> rfl

theorem action_open_dev_hdl (o : Oracle) (s : DevState) (ha : s.1.dev_addr ≠ 0)
    (he : (o s.2.calls).err = ESP_OK) :
    (action_open_dev o s).state.1.dev_hdl = (o s.2.calls).out := by
  simp [action_open_dev, World.reply, World.emit, ha, he, Outcome.state]

theorem checksPass_close (o : Oracle) (p a : Nat) (s : DevState)
    (hok : ∀ n, (o n).err = ESP_OK) : ChecksPass o p a [.action_close_dev] s := by
  rw [ChecksPass]
  split
  · trivial
  · exact ⟨fun _ => hok _, trivial⟩

theorem checksPass_claim (o : Oracle) (p a : Nat) (s : DevState)
    (hok : ∀ n, (o n).err = ESP_OK)
    (h : a &&& ACTION_CLAIM_INTERFACE ≠ 0 → s.1.dev_hdl ≠ 0) :
    ChecksPass o p a [.action_claim_interface, .action_close_dev] s := by
  rw [ChecksPass]
  split
  · exact checksPass_close o p a s hok
  · rename_i hb
    exact ⟨h hb, checksPass_close o p a _ hok⟩

theorem checksPass_config (o : Oracle) (p a : Nat) (s : DevState)
    (hok : ∀ n, (o n).err = ESP_OK)
    (h : a &&& ACTION_GET_CONFIG_DESC ≠ 0 ∨ a &&& ACTION_CLAIM_INTERFACE ≠ 0 →
      s.1.dev_hdl ≠ 0) :
    ChecksPass o p a [.action_get_config_desc, .action_claim_interface, .action_close_dev] s := by
  rw [ChecksPass]
  split
  · exact checksPass_claim o p a s hok (fun hb => h (Or.inr hb))
  · rename_i hb
    refine ⟨⟨h (Or.inl hb), hok _⟩, checksPass_claim o p a _ hok ?_⟩
    intro hk
    show (action_get_config_desc o s).state.1.dev_hdl ≠ 0
    rw [action_get_config_desc_hdl]
    exact h (Or.inr hk)

theorem checksPass_info (o : Oracle) (p a : Nat) (s : DevState)
    (hok : ∀ n, (o n).err = ESP_OK)
    (h : a &&& ACTION_GET_DEV_INFO ≠ 0 ∨ a &&& ACTION_GET_CONFIG_DESC ≠ 0 ∨
      a &&& ACTION_CLAIM_INTERFACE ≠ 0 → s.1.dev_hdl ≠ 0) :
    ChecksPass o p a
      [.action_get_info, .action_get_config_desc, .action_claim_interface, .action_close_dev]
      s := by
  rw [ChecksPass]
  split
  · exact checksPass_config o p a s hok (fun hb => h (Or.inr hb))
  · rename_i hb
    refine ⟨⟨h (Or.inl hb), hok _⟩, checksPass_config o p a _ hok ?_⟩
    intro hk
    show (action_get_info o s).state.1.dev_hdl ≠ 0
    rw [action_get_info_hdl]
    exact h (Or.inr hk)

/-- When every host call succeeds and the asserts hold (an address for Open, a
handle, the opened one if Open is in the snapshot, for FetchInfo, FetchConfig
and ClaimInterface), every check of the snapshot passes. -/
theorem checksPass_of_host_ok (o : Oracle) (p a : Nat) (s : DevState)
    (hok : ∀ n, (o n).err = ESP_OK)
    (haddr : a &&& ACTION_OPEN_DEV ≠ 0 → s.1.dev_addr ≠ 0)
    (hhdl : a &&& ACTION_GET_DEV_INFO ≠ 0 ∨ a &&& ACTION_GET_CONFIG_DESC ≠ 0 ∨
      a &&& ACTION_CLAIM_INTERFACE ≠ 0 →
      (if a &&& ACTION_OPEN_DEV ≠ 0 then (o s.2.calls).out else s.1.dev_hdl) ≠ 0) :
    ChecksPass o p a allHandlers s := by
  unfold allHandlers
  rw [ChecksPass]
  by_cases hb : a &&& ACTION_OPEN_DEV = 0
  · have hb2 : a &&& Handler.bit .action_open_dev = 0 := hb
    rw [if_pos hb2]
    refine checksPass_info o p a s hok ?_
    intro hk
    have := hhdl hk
    simpa [hb] using this
  · have hb2 : ¬ a &&& Handler.bit .action_open_dev = 0 := hb
    rw [if_neg hb2]
    refine ⟨⟨haddr hb, hok _⟩, checksPass_info o p a _ hok ?_⟩
    intro hk
    show (action_open_dev o s).state.1.dev_hdl ≠ 0
    rw [action_open_dev_hdl o s (haddr hb) (hok _)]
    have := hhdl hk
    simpa [hb] using this

/-- C3, as amended: Close preempts, up to an abort.  For every slot state and
every pending-action set that contains `ACTION_CLOSE_DEV`, one call of
`class_driver_device_handle` makes a single pass over the snapshot and then
either returns with the slot unoccupied (`dev_addr = 0`, `dev_hdl = NULL`,
`midi_in_transfer = NULL`, `actions = 0`), having entered exactly the handlers
of the snapshot, or aborts the task at a failed `assert` or `ESP_ERROR_CHECK`
of a handler of that snapshot; in both cases no handler is entered after the
Close handler.  The call returns exactly when every handler of the snapshot
passes its `assert` and its `ESP_ERROR_CHECK` in the state in which it is
entered, each handler returning exactly when its own checks pass; an abort is
the abort of a handler of the snapshot whose check failed.  In particular the
call returns, with the slot unoccupied, whenever the host calls succeed, the
slot has an address if Open is pending, and the handle that FetchInfo,
FetchConfig and ClaimInterface see, if one of them is pending, is not NULL. -/
theorem close_preempts (o : Oracle) (p : Nat) (d : usb_device_t) (w : World)
    (hclose : d.actions &&& ACTION_CLOSE_DEV ≠ 0) :
    ∃ (r : Outcome DevState) (done : List Handler),
      class_driver_device_handle o p (d, w) = some r ∧
      entered r.state.2.trace = entered w.trace ++ done ∧
      done <+: snapshotHandlers d.actions ∧
      (∀ s1, r = .ok s1 → s1.1.unoccupied ∧ done = snapshotHandlers d.actions) ∧
      (∀ l1 l2, done = l1 ++ Handler.action_close_dev :: l2 → l2 = []) ∧
      ((∃ s1, r = .ok s1) ↔
        ChecksPass o p d.actions allHandlers ({ d with actions := 0 }, w)) ∧
      (∀ s1, r = .abort s1 →
        ∃ (H : Handler) (s0 : DevState), d.actions &&& H.bit ≠ 0 ∧ ¬ H.checks o s0 ∧
          H.run o p s0 = .abort s1) ∧
      (∀ (H : Handler) (s : DevState), (∃ s1, H.run o p s = .ok s1) ↔ H.checks o s) ∧
      ((∀ n, (o n).err = ESP_OK) →
        (d.actions &&& ACTION_OPEN_DEV ≠ 0 → d.dev_addr ≠ 0) →
        (d.actions &&& ACTION_GET_DEV_INFO ≠ 0 ∨ d.actions &&& ACTION_GET_CONFIG_DESC ≠ 0 ∨
          d.actions &&& ACTION_CLAIM_INTERFACE ≠ 0 →
          (if d.actions &&& ACTION_OPEN_DEV ≠ 0 then (o w.calls).out else d.dev_hdl) ≠ 0) →
        ∃ s1, r = .ok s1 ∧ s1.1.unoccupied) := by
  have hne : d.actions ≠ 0 := by
    intro h0
    rw [h0] at hclose
    exact hclose (by decide)
  obtain ⟨done, hent, hpre, hall⟩ :=
    handle_snapshot_order o p d.actions ({ d with actions := 0 }, w)
  have hloop : class_driver_device_handle o p (d, w)
      = match handle_snapshot o p d.actions ({ d with actions := 0 }, w) with
        | .ok s1 => class_driver_device_handle_loop o p 3 s1
        | .abort s1 => some (.abort s1) := by
    unfold class_driver_device_handle
    exact device_handle_loop_succ o p 3 (d, w) hne
  have hiff := runFrom_returns_iff o p d.actions allHandlers ({ d with actions := 0 }, w)
  rw [← handle_snapshot_eq_runFrom] at hiff
  cases hr : handle_snapshot o p d.actions ({ d with actions := 0 }, w) with
  | abort s1 =>
    rw [hr] at hloop hent hiff
    have hnot : ¬ ChecksPass o p d.actions allHandlers ({ d with actions := 0 }, w) := by
      intro hc
      obtain ⟨s2, h2⟩ := hiff.2 hc
      cases h2
    refine ⟨.abort s1, done, hloop, hent, hpre, ?_, ?_, ?_, ?_, handler_returns_iff o p, ?_⟩
    · intro s2 h; cases h
    · exact fun l1 l2 h => nothing_after_close d.actions done l1 l2 hpre h
    · constructor
      · rintro ⟨s2, h2⟩; cases h2
      · exact fun hc => absurd hc hnot
    · intro s2 h2
      cases h2
      rw [handle_snapshot_eq_runFrom] at hr
      obtain ⟨H, s0, _, h1, h2, h3⟩ := runFrom_abort o p d.actions allHandlers _ s1 hr
      exact ⟨H, s0, h1, h2, h3⟩
    · intro hok haddr hhdl
      exact absurd (checksPass_of_host_ok o p d.actions ({ d with actions := 0 }, w) hok
        haddr hhdl) hnot
  | ok s1 =>
    rw [hr] at hloop hent hiff
    have hu : s1.1.unoccupied := handle_snapshot_ok_unoccupied o p d.actions _ s1 hclose hr
    have hdone := device_handle_loop_done o p 3 s1 hu.2.2.2
    simp only [hdone] at hloop
    refine ⟨.ok s1, done, hloop, hent, hpre, ?_, ?_, ?_, ?_, handler_returns_iff o p, ?_⟩
    · intro s2 h
      cases h
      exact ⟨hu, hall s1 hr⟩
    · exact fun l1 l2 h => nothing_after_close d.actions done l1 l2 hpre h
    · exact ⟨fun _ => hiff.1 ⟨s1, rfl⟩, fun _ => ⟨s1, rfl⟩⟩
    · intro s2 h2; cases h2
    · exact fun _ _ _ => ⟨s1, rfl, hu⟩

/-- C3, witness: on a host where every call succeeds, the call returns with the
slot unoccupied when all five actions are pending (Open, FetchInfo,
FetchConfig, ClaimInterface run first, then Close frees the transfer and closes
the handle), when Open and Close are pending together, and when Close alone is
pending on the streaming slot. -/
theorem close_preempts_witness :
    (exAllPendingSlot.actions &&& ACTION_CLOSE_DEV ≠ 0 ∧
      ∃ s1, class_driver_device_handle hostOk 0 (exAllPendingSlot, World.start)
        = some (.ok s1) ∧ s1.1.unoccupied) ∧
    (exOpenCloseSlot.actions &&& ACTION_CLOSE_DEV ≠ 0 ∧
      ∃ s1, class_driver_device_handle hostOk 0 (exOpenCloseSlot, World.start)
        = some (.ok s1) ∧ s1.1.unoccupied) ∧
    (∃ s1, class_driver_device_handle hostOk 0
        ({ exStreamingSlot with actions := ACTION_CLOSE_DEV }, World.start)
        = some (.ok s1) ∧ s1.1.unoccupied) ∧
    class_driver_device_handle hostOk 0 (exAllPendingSlot, World.start)
      = some (.ok (exUnoccupiedSlot,
          { trace :=
              [ .enter .action_open_dev, .device_open 11 5,
                .enter .action_get_info, .device_info 7,
                .enter .action_get_config_desc, .get_active_config_descriptor 7,
                .enter .action_claim_interface, .interface_claim 11 7 3 0,
                .transfer_alloc 64 0, .transfer_submit 7,
                .enter .action_close_dev, .transfer_free 7, .device_close 11 7 ],
            calls := 8 })) := by
  refine ⟨⟨by decide, ?_⟩, ⟨by decide, ?_⟩, ?_, by decide⟩
  · obtain ⟨r, _, hr, _, _, _, _, _, _, _, hs⟩ :=
      close_preempts hostOk 0 exAllPendingSlot World.start (by decide)
    obtain ⟨s1, h1, hu⟩ := hs (fun _ => rfl) (by decide) (by decide)
    exact ⟨s1, by rw [hr, h1], hu⟩
  · obtain ⟨r, _, hr, _, _, _, _, _, _, _, hs⟩ :=
      close_preempts hostOk 0 exOpenCloseSlot World.start (by decide)
    obtain ⟨s1, h1, hu⟩ := hs (fun _ => rfl) (by decide) (by decide)
    exact ⟨s1, by rw [hr, h1], hu⟩
  · obtain ⟨r, _, hr, _, _, _, _, _, _, _, hs⟩ :=
      close_preempts hostOk 0 { exStreamingSlot with actions := ACTION_CLOSE_DEV } World.start
        (by decide)
    obtain ⟨s1, h1, hu⟩ := hs (fun _ => rfl) (by decide) (by decide)
    exact ⟨s1, by rw [hr, h1], hu⟩

/-- The re-arming submit is made with the lock free: in an iteration on
`exDriver` in which the host delivers the completed transfer
`exNoteOnTransfer`, `midi_transfer_cb` calls `usb_host_transfer_submit` inside
`usb_host_client_handle_events`, after the last give of the lock.  Read over
the whole trace, "no blocking call under the lock" holds of this iteration and
"every blocking call under the lock" does not. -/
theorem rearm_is_outside_lock :
    (class_driver_task_iteration hostOk [] [.transfer_done exNoteOnTransfer]
        (exDriver, World.start)).map (fun r => r.state.2.trace) = some exRearmTrace ∧
    noBlockingCallUnderLock false exRearmTrace = true ∧
    blockingCallsUnderLock false exRearmTrace = none := by
  refine ⟨?_, rfl, rfl⟩
  decide

end ClassDriver
